import Mathlib

/-!
# fiddle: the interaction engine, its driver and the id lists of the forces

A shallow embedding of

* `source/interaction/elemental_interaction.cc` (`fdl::ElementalInteraction`):
  the three `*_intermediate` phases of the transaction protocol,
  `get_rhs_scatter_type`, and `reinit`;
* `source/interaction/ifed_method.cc` (`fdl::IFEDMethod`): the loops of
  `interpolateVelocity` and `spreadForce` that issue the phases;
* `source/mechanics/force_contribution_lib.cc`: `setup_ids`, the spring
  forces that filter by material or boundary id, and the damping force.

Conventions of the embedding.

* deal.II's `Assert(cond, exc)` is checked in a debug build and expands to
  nothing in a release build.  The definitions that carry the names of the
  source are the debug build: a violated condition ends the call with the
  recorded violation.  The definitions whose names end in `_in` take the build
  as an argument; the two agree wherever the debug build returns.  A
  `dynamic_cast` to a reference of the wrong dynamic type ends the call with
  `bad_cast` in either build.
* A `double` or `float` is a rational number.  The interaction engine only
  compares such values and hands them to collaborators; the arithmetic of the
  forces is exact, rounding is not modelled.
* Code that the engine calls but that lives in other translation units (the
  kernels declared in `interaction_utilities.h`, the scatter object, the
  quadrature family, `InteractionBase`) is taken as a parameter, bundled in
  `Collaborators`.
* Calls into collaborators and the assignment of `next_state` are recorded, in
  program order, in the `log` of the `World`.
* The three intermediate phases are also given statement by statement, with
  the state in which a failing call ends; the two forms agree
  (`run_statements_eq_run`).
-/

namespace fdl

/-! ## Data model -/

/-- Entries of a `Vector<double>`. -/
abbrev Vec := List Rat

/-- SAMRAI patch data reachable through the patch hierarchy: for a data index,
the values stored on the local patches. -/
abbrev Grid := List (Int × List Rat)

/-- Modelled from the spec: the enumerations `Transaction::State` and
`WorkloadTransaction::State`, declared in `interaction_base.h`, which is not
among the sources; the engine names `Intermediate` and `Finish`, the spec
gives the states as Start, Intermediate, Finish. -/
inductive State where
  | Start
  | Intermediate
  | Finish
  deriving DecidableEq, Repr

/-- Modelled from the spec: the enumeration `Transaction::Operation`, declared
in `interaction_base.h`, which is not among the sources; the engine names
`Interpolation` and `Spreading`. -/
inductive Operation where
  | Interpolation
  | Spreading
  deriving DecidableEq, Repr

/-- Values of deal.II `VectorOperation::values`. -/
inductive VectorOperation where
  | unknown
  | insert
  | add
  | min
  | max
  deriving DecidableEq, Repr

/-- A `Scatter<double>` object, identified by the partitioning it serves. -/
structure Scatter where
  id : Nat
  deriving DecidableEq, Repr

/-- A `DoFHandler`, identified by a handle. -/
structure DoFHandler where
  id : Nat
  deriving DecidableEq, Repr

/-- A `Mapping` on the reference configuration, identified by a handle. -/
structure Mapping where
  id : Nat
  deriving DecidableEq, Repr

/-- The fields of `Transaction<dim, spacedim>` that the engine reads or writes. -/
structure Transaction where
  current_data_idx : Int
  kernel_name : String
  native_position_dof_handler : DoFHandler
  position_scatter : Scatter
  native_position : Vec
  overlap_position : Vec
  native_dof_handler : DoFHandler
  mapping : Mapping
  solution_scatter : Scatter
  native_solution : Vec
  overlap_solution : Vec
  rhs_scatter : Scatter
  rhs_scatter_back_op : VectorOperation
  native_rhs : Vec
  overlap_rhs : Vec
  next_state : State
  operation : Operation
  deriving DecidableEq, Repr

/-- The fields of `WorkloadTransaction<dim, spacedim>` that the engine reads or
writes. -/
structure WorkloadTransaction where
  workload_index : Int
  native_position_dof_handler : DoFHandler
  position_scatter : Scatter
  native_position : Vec
  overlap_position : Vec
  next_state : State
  deriving DecidableEq, Repr

/-- What a `std::unique_ptr<TransactionBase>` points to: one of the two
concrete transaction records the engine casts to. -/
inductive TransactionBase where
  | transaction (t : Transaction)
  | workload (t : WorkloadTransaction)
  deriving DecidableEq, Repr

/-- The `next_state` member of the pointed-to record. -/
def TransactionBase.next_state : TransactionBase → State
  | .transaction t => t.next_state
  | .workload t => t.next_state

/-- The `operation` member, which only `Transaction` has. -/
def TransactionBase.operation? : TransactionBase → Option Operation
  | .transaction t => some t.operation
  | .workload _ => none

/-- A quadrature rule: points on the reference cell and their weights. -/
structure Quadrature where
  points : List (List Rat)
  weights : List Rat
  deriving DecidableEq, Repr

/-- Modelled from the spec: the enumeration `DensityKind` (the density-accuracy
tradeoff of the simplex family), declared in a header that is not among the
sources; a value is identified by the number of its enumerator. -/
structure DensityKind where
  value : Nat
  deriving DecidableEq, Repr

/-- The two quadrature families `reinit` can create, with the constructor
arguments they are created from. -/
inductive QuadratureFamily where
  | QGaussFamily (min_n_points_1D : Nat) (point_density : Rat)
  | QWitherdenVincentSimplexFamily (min_n_points_1D : Nat) (point_density : Rat)
      (density_kind : DensityKind)
  deriving DecidableEq, Repr

/-- A `PatchMap`: for each local patch, the overlap cells stored for it. -/
structure PatchMap where
  cells : List (List Nat)
  deriving DecidableEq, Repr

/-- The overlap triangulation: for each active cell, in iteration order, the
`active_cell_index()` of its native cell (`get_native_cell`). -/
structure OverlapTriangulation where
  native_active_cell_index : List Nat
  deriving DecidableEq, Repr

/-- The members of `InteractionBase` that `ElementalInteraction` uses. -/
structure InteractionBase where
  overlap_tria : OverlapTriangulation
  patch_map : PatchMap
  deriving DecidableEq, Repr

/-- The state of an `ElementalInteraction<dim, spacedim>` object. -/
structure ElementalInteraction where
  base : InteractionBase
  min_n_points_1D : Nat
  point_density : Rat
  density_kind : DensityKind
  quadrature_family : Option QuadratureFamily
  quadrature_indices : List Nat
  quadratures : List Quadrature
  deriving DecidableEq, Repr

/-- A `MappingFEField` built from a DoF handler and a position vector. -/
structure MappingFEField where
  dof_handler : DoFHandler
  position : Vec
  deriving DecidableEq, Repr

/-- Arguments of a call of `compute_projection_rhs`. -/
structure ProjectionArgs where
  kernel_name : String
  data_idx : Int
  patch_map : PatchMap
  position_mapping : MappingFEField
  quadrature_indices : List Nat
  quadratures : List Quadrature
  dof_handler : DoFHandler
  mapping : Mapping
  rhs : Vec
  deriving DecidableEq, Repr

/-- Arguments of a call of `compute_spread`. -/
structure SpreadArgs where
  kernel_name : String
  data_idx : Int
  patch_map : PatchMap
  position_mapping : MappingFEField
  quadrature_indices : List Nat
  quadratures : List Quadrature
  dof_handler : DoFHandler
  mapping : Mapping
  solution : Vec
  deriving DecidableEq, Repr

/-- Arguments of a call of `count_quadrature_points`. -/
structure CountArgs where
  qp_data_idx : Int
  patch_map : PatchMap
  position_mapping : MappingFEField
  quadrature_indices : List Nat
  quadratures : List Quadrature
  deriving DecidableEq, Repr

/-- One recorded effect of the engine. -/
inductive Event where
  | global_to_overlap_finish (scatter : Scatter) (native : Vec)
  | position_mapping_built (m : MappingFEField)
  | compute_projection_rhs (args : ProjectionArgs)
  | compute_spread (args : SpreadArgs)
  | count_quadrature_points (args : CountArgs)
  | overlap_to_global_start (scatter : Scatter) (overlap : Vec) (op : VectorOperation)
      (channel : Nat) (native : Vec)
  | set_next_state (s : State)
  deriving DecidableEq, Repr

/-- What lies outside the engine object and the transaction: the grid data and
the record of effects so far. -/
structure World where
  grid : Grid
  log : List Event
  deriving DecidableEq, Repr

/-- An error raised by `InteractionBase::reinit`. -/
structure BaseError where
  code : Nat
  deriving DecidableEq, Repr

/-- The ways a call of the engine ends without returning, one per check of the
source: a failed `dynamic_cast`, the `Assert`s of the intermediate phases
(lines 128-133, 172-177, 212-214) and of `reinit` (`reference_cells.size() ==
1`, line 68, and `Assert(false, ...)`, line 78; deal.II reports the violated
condition with the exception), an error of `InteractionBase::reinit`, a read
past the end of `active_cell_lengths`, and a loop cut off by its bound; and,
where a release build has no `Assert` to stop it, `front()` of an empty
vector of reference cells and the use of a null quadrature family. -/
inductive Violation where
  | bad_cast
  | operation_should_be_Interpolation
  | operation_should_be_Spreading
  | state_should_be_Intermediate
  | reference_cells_size
  | reference_cell_not_implemented
  | base_reinit (e : BaseError)
  | index_out_of_range
  | fuel_exhausted
  | front_of_empty_vector
  | null_quadrature_family
  deriving DecidableEq, Repr

/-- The kinds of deal.II `ReferenceCell`. -/
inductive ReferenceCell where
  | Vertex
  | Line
  | Triangle
  | Quadrilateral
  | Tetrahedron
  | Pyramid
  | Wedge
  | Hexahedron
  | Invalid
  deriving DecidableEq, Repr

/-- The deal.II function `ReferenceCells::get_hypercube<dim>()`. -/
def ReferenceCells.get_hypercube : Nat → ReferenceCell
  | 0 => .Vertex
  | 1 => .Line
  | 2 => .Quadrilateral
  | 3 => .Hexahedron
  | _ => .Invalid

/-- The deal.II function `ReferenceCells::get_simplex<dim>()`. -/
def ReferenceCells.get_simplex : Nat → ReferenceCell
  | 0 => .Vertex
  | 1 => .Line
  | 2 => .Triangle
  | 3 => .Tetrahedron
  | _ => .Invalid

/-- The structural mesh (`parallel::shared::Triangulation`): the reference cell
of each of its active cells, in active-cell order. -/
structure Triangulation where
  active_cells : List ReferenceCell
  deriving DecidableEq, Repr

/-- The count `Triangulation::n_active_cells()`. -/
def Triangulation.n_active_cells (tria : Triangulation) : Nat :=
  tria.active_cells.length

/-- The list `Triangulation::get_reference_cells()`: the distinct reference cells of the
active cells.  (deal.II keeps them ordered by kind; the engine only reads the
list when it has one entry.) -/
def Triangulation.get_reference_cells (tria : Triangulation) : List ReferenceCell :=
  tria.active_cells.dedup

/-- A `BoundingBox<spacedim, float>`: lower and upper corner. -/
structure BoundingBox where
  lower : List Rat
  upper : List Rat
  deriving DecidableEq, Repr

/-- A grid patch, by the grid spacings `getPatchGeometry()->getDx()` (one entry
per space dimension). -/
structure Patch where
  dx : List Rat
  deriving DecidableEq, Repr

/-- A patch level as distributed over the processes of the communicator: the
patches this process owns and, for each other process, the patches it owns. -/
structure PatchLevel where
  local_patches : List Patch
  remote_patches : List (List Patch)
  deriving DecidableEq, Repr

/-- A `BasePatchHierarchy`, by its levels (`getPatchLevel`). -/
structure PatchHierarchy where
  getPatchLevel : Int → PatchLevel

/-- The list `extract_patches(patch_level)`: the patches of the level owned by this
process. -/
def extract_patches (level : PatchLevel) : List Patch :=
  level.local_patches

/-- The result of a call: the value returned, or the violation that ended it. -/
inductive Result (α : Type) where
  | ok (a : α)
  | error (v : Violation)
  deriving DecidableEq, Repr

/-- Code the engine calls that lives outside `elemental_interaction.cc`. -/
structure Collaborators where
  /-- The base class `InteractionBase::reinit`: rebuilds the overlap mesh and the patch map. -/
  base_reinit : InteractionBase → Triangulation → List BoundingBox → List Rat →
    PatchHierarchy → Int → Except BaseError InteractionBase
  /-- The index `QuadratureFamily::get_index(eulerian_length, lagrangian_length)`. -/
  get_index : QuadratureFamily → Rat → Rat → Nat
  /-- The rule `QuadratureFamily::operator[]`. -/
  get_rule : QuadratureFamily → Nat → Quadrature
  /-- The lookup `InteractionBase::get_overlap_dof_handler`. -/
  get_overlap_dof_handler : InteractionBase → DoFHandler → DoFHandler
  /-- The call `Scatter::global_to_overlap_finish(native, overlap)`: the contents of the
  overlap vector once the communication has completed. -/
  global_to_overlap_finish : Scatter → Vec → Vec → Vec
  /-- The kernel `compute_projection_rhs`: the contents of `rhs` afterwards. -/
  compute_projection_rhs : ProjectionArgs → Grid → Vec
  /-- The kernel `compute_spread`: the patch map (passed by non-const
  reference) and the grid data afterwards. -/
  compute_spread : SpreadArgs → Grid → PatchMap × Grid
  /-- The kernel `count_quadrature_points`: the patch map (passed by non-const
  reference) and the grid data afterwards. -/
  count_quadrature_points : CountArgs → Grid → PatchMap × Grid

/-- Append one effect to the record. -/
def World.record (w : World) (e : Event) : World :=
  { w with log := w.log ++ [e] }

/-! ## The intermediate phases -/

/-- The `position_mapping` the intermediate phases construct: a
`MappingFEField` over the overlap DoF handler of the position and the overlap
position vector (lines 139-141, 186-188, 220-222). -/
def overlap_position_mapping (c : Collaborators) (self : ElementalInteraction)
    (native_position_dof_handler : DoFHandler) (overlap_position : Vec) : MappingFEField :=
  { dof_handler := c.get_overlap_dof_handler self.base native_position_dof_handler
    position := overlap_position }

/-- The arguments of the call of `compute_projection_rhs` (lines 144-153). -/
def projection_args (c : Collaborators) (self : ElementalInteraction) (tr : Transaction)
    (position_mapping : MappingFEField) : ProjectionArgs :=
  { kernel_name := tr.kernel_name
    data_idx := tr.current_data_idx
    patch_map := self.base.patch_map
    position_mapping := position_mapping
    quadrature_indices := self.quadrature_indices
    quadratures := self.quadratures
    dof_handler := c.get_overlap_dof_handler self.base tr.native_dof_handler
    mapping := tr.mapping
    rhs := tr.overlap_rhs }

/-- The arguments of the call of `compute_spread` (lines 191-199). -/
def spread_args (c : Collaborators) (self : ElementalInteraction) (tr : Transaction)
    (position_mapping : MappingFEField) (overlap_solution : Vec) : SpreadArgs :=
  { kernel_name := tr.kernel_name
    data_idx := tr.current_data_idx
    patch_map := self.base.patch_map
    position_mapping := position_mapping
    quadrature_indices := self.quadrature_indices
    quadratures := self.quadratures
    dof_handler := c.get_overlap_dof_handler self.base tr.native_dof_handler
    mapping := tr.mapping
    solution := overlap_solution }

/-- The arguments of the call of `count_quadrature_points` (lines 224-228). -/
def count_args (self : ElementalInteraction) (tr : WorkloadTransaction)
    (position_mapping : MappingFEField) : CountArgs :=
  { qp_data_idx := tr.workload_index
    patch_map := self.base.patch_map
    position_mapping := position_mapping
    quadrature_indices := self.quadrature_indices
    quadratures := self.quadratures }

/-- Embedding of `ElementalInteraction::compute_projection_rhs_intermediate`
(lines 122-164) in a debug build, where `Assert` is checked. -/
def compute_projection_rhs_intermediate (c : Collaborators) (self : ElementalInteraction)
    (t_ptr : TransactionBase) (w : World) :
    Result (ElementalInteraction × TransactionBase × World) :=
  match t_ptr with
  | .workload _ => .error .bad_cast
  | .transaction tr =>
    if tr.operation ≠ .Interpolation then
      .error .operation_should_be_Interpolation
    else if tr.next_state ≠ .Intermediate then
      .error .state_should_be_Intermediate
    else
      -- Finish communication:
      let overlap_position :=
        c.global_to_overlap_finish tr.position_scatter tr.native_position
          tr.overlap_position
      let w1 := w.record (.global_to_overlap_finish tr.position_scatter tr.native_position)
      let position_mapping :=
        overlap_position_mapping c self tr.native_position_dof_handler overlap_position
      let w2 := w1.record (.position_mapping_built position_mapping)
      -- Actually do the interpolation:
      let args := projection_args c self tr position_mapping
      let overlap_rhs := c.compute_projection_rhs args w2.grid
      let w3 := w2.record (.compute_projection_rhs args)
      -- After we compute we begin the scatter back to the native partitioning:
      let w4 := w3.record
        (.overlap_to_global_start tr.rhs_scatter overlap_rhs tr.rhs_scatter_back_op 0
          tr.native_rhs)
      let w5 := w4.record (.set_next_state .Finish)
      .ok (self,
           .transaction { tr with overlap_position := overlap_position,
                                  overlap_rhs := overlap_rhs,
                                  next_state := .Finish },
           w5)

/-- Embedding of `ElementalInteraction::compute_spread_intermediate`
(lines 166-204) in a debug build, where `Assert` is checked. -/
def compute_spread_intermediate (c : Collaborators) (self : ElementalInteraction)
    (t_ptr : TransactionBase) (w : World) :
    Result (ElementalInteraction × TransactionBase × World) :=
  match t_ptr with
  | .workload _ => .error .bad_cast
  | .transaction tr =>
    if tr.operation ≠ .Spreading then
      .error .operation_should_be_Spreading
    else if tr.next_state ≠ .Intermediate then
      .error .state_should_be_Intermediate
    else
      -- Finish communication:
      let overlap_position :=
        c.global_to_overlap_finish tr.position_scatter tr.native_position
          tr.overlap_position
      let w1 := w.record (.global_to_overlap_finish tr.position_scatter tr.native_position)
      let overlap_solution :=
        c.global_to_overlap_finish tr.solution_scatter tr.native_solution
          tr.overlap_solution
      let w2 := w1.record (.global_to_overlap_finish tr.solution_scatter tr.native_solution)
      let position_mapping :=
        overlap_position_mapping c self tr.native_position_dof_handler overlap_position
      let w3 := w2.record (.position_mapping_built position_mapping)
      -- Actually do the spreading:
      let args := spread_args c self tr position_mapping overlap_solution
      let out := c.compute_spread args w3.grid
      let w4 := { w3 with grid := out.2 }.record (.compute_spread args)
      let w5 := w4.record (.set_next_state .Finish)
      .ok ({ self with base := { self.base with patch_map := out.1 } },
           .transaction { tr with overlap_position := overlap_position,
                                  overlap_solution := overlap_solution,
                                  next_state := .Finish },
           w5)

/-- Embedding of `ElementalInteraction::add_workload_intermediate`
(lines 206-233) in a debug build, where `Assert` is checked. -/
def add_workload_intermediate (c : Collaborators) (self : ElementalInteraction)
    (t_ptr : TransactionBase) (w : World) :
    Result (ElementalInteraction × TransactionBase × World) :=
  match t_ptr with
  | .transaction _ => .error .bad_cast
  | .workload tr =>
    if tr.next_state ≠ .Intermediate then
      .error .state_should_be_Intermediate
    else
      -- Finish communication:
      let overlap_position :=
        c.global_to_overlap_finish tr.position_scatter tr.native_position
          tr.overlap_position
      let w1 := w.record (.global_to_overlap_finish tr.position_scatter tr.native_position)
      let position_mapping :=
        overlap_position_mapping c self tr.native_position_dof_handler overlap_position
      let w2 := w1.record (.position_mapping_built position_mapping)
      let args := count_args self tr position_mapping
      let out := c.count_quadrature_points args w2.grid
      let w3 := { w2 with grid := out.2 }.record (.count_quadrature_points args)
      let w4 := w3.record (.set_next_state .Finish)
      .ok ({ self with base := { self.base with patch_map := out.1 } },
           .workload { tr with overlap_position := overlap_position,
                               next_state := .Finish },
           w4)

/-- Embedding of `ElementalInteraction::get_rhs_scatter_type` (lines 237-242). -/
def get_rhs_scatter_type (_self : ElementalInteraction) : VectorOperation :=
  VectorOperation.add

/-! ## reinit -/

/-- The value of `std::numeric_limits<double>::max()`, the number
`2 ^ 1024 - 2 ^ 971`. -/
def double_max : Rat :=
  179769313486231570814527423731704356798070567525844996598917476803157260780028538760589558632766878171540458953514382464234321326889464182768467546703537516986049910576551282076245490090389328944075868508455133942304583236903222948165808559332123348274797826204144723168738177180919299881250404026184124858368

/-- The value `*std::min_element(first, last)` over doubles.  The range read by `reinit`
has `spacedim` entries and is never empty. -/
def min_element : List Rat → Rat
  | [] => 0
  | x :: xs => xs.foldl min x

/-- The value `*std::max_element(first, last)` over `unsigned char`, read by `reinit`
only for a non-empty range. -/
def max_element : List Nat → Nat
  | [] => 0
  | x :: xs => xs.foldl max x

/-- The value `patch_dx_min` a process computes from the patches it owns
(lines 81-90). -/
def patch_dx_min (patches : List Patch) : Rat :=
  match patches with
  | [] => double_max
  | patch0 :: _ => min_element patch0.dx

/-- The reduction `Utilities::MPI::min(value, communicator)`: the minimum of this process's
value and the values the other processes contribute. -/
def MPI_min (value : Rat) (others : List Rat) : Rat :=
  others.foldl min value

/-- The `eulerian_length` of `reinit` (lines 81-92): every process of the
communicator contributes the `patch_dx_min` of its own patches. -/
def eulerian_length (level : PatchLevel) : Rat :=
  MPI_min (patch_dx_min (extract_patches level)) (level.remote_patches.map patch_dx_min)

/-- The selection of the quadrature family in `reinit` (lines 69-79), given
`reference_cells.front()`. -/
def select_quadrature_family (dim : Nat) (self : ElementalInteraction)
    (front : ReferenceCell) : Result QuadratureFamily :=
  match self.quadrature_family with
  | some family => .ok family
  | none =>
    if front = ReferenceCells.get_hypercube dim then
      .ok (.QGaussFamily self.min_n_points_1D self.point_density)
    else if front = ReferenceCells.get_simplex dim then
      .ok (.QWitherdenVincentSimplexFamily self.min_n_points_1D self.point_density
        self.density_kind)
    else
      .error .reference_cell_not_implemented

/-- The loop of `reinit` that fills `quadrature_indices` (lines 96-103): one
`unsigned char` per active overlap cell, in iteration order.  Reading
`active_cell_lengths` past its end is recorded as a violation. -/
def compute_quadrature_indices (c : Collaborators) (family : QuadratureFamily)
    (eulerian_length : Rat) (active_cell_lengths : List Rat) : List Nat → Result (List Nat)
  | [] => .ok []
  | native_index :: cells =>
    match active_cell_lengths[native_index]? with
    | none => .error .index_out_of_range
    | some lagrangian_length =>
      match compute_quadrature_indices c family eulerian_length active_cell_lengths cells with
      | .error v => .error v
      | .ok rest => .ok (c.get_index family eulerian_length lagrangian_length % 256 :: rest)

/-- The loop `for (unsigned char i = 0; i <= max_quadrature_index; ++i)` of
`reinit` (lines 111-112), started at `i` with `quadratures` as filled so far;
`fuel` bounds the number of times the loop condition is evaluated, and `none`
means the bound was reached. -/
def fill_quadratures (c : Collaborators) (family : QuadratureFamily)
    (max_quadrature_index : Nat) : Nat → Nat → List Quadrature → Option (List Quadrature)
  | 0, _, _ => none
  | fuel + 1, i, quadratures =>
    if i ≤ max_quadrature_index then
      fill_quadratures c family max_quadrature_index fuel ((i + 1) % 256)
        (quadratures ++ [c.get_rule family i])
    else
      some quadratures

/-- Embedding of `ElementalInteraction::reinit` (lines 52-113) in a debug
build, where `Assert` is checked, for the template argument `dim`; `fuel`
bounds the loop that fills `quadratures`. -/
def reinit (c : Collaborators) (dim : Nat) (self : ElementalInteraction)
    (native_tria : Triangulation) (active_cell_bboxes : List BoundingBox)
    (active_cell_lengths : List Rat) (patch_hierarchy : PatchHierarchy)
    (level_number : Int) (fuel : Nat) : Result ElementalInteraction :=
  match c.base_reinit self.base native_tria active_cell_bboxes active_cell_lengths
      patch_hierarchy level_number with
  | .error e => .error (.base_reinit e)
  | .ok base =>
    -- We need to implement some more quadrature families
    match native_tria.get_reference_cells with
    | [front] =>
      match select_quadrature_family dim self front with
      | .error v => .error v
      | .ok family =>
        let h := eulerian_length (patch_hierarchy.getPatchLevel level_number)
        -- Determine which quadrature rule we should use on each cell:
        match compute_quadrature_indices c family h active_cell_lengths
            base.overlap_tria.native_active_cell_index with
        | .error v => .error v
        | .ok quadrature_indices =>
          -- Store quadratures in a vector:
          let max_quadrature_index :=
            if quadrature_indices.length > 0 then max_element quadrature_indices else 0
          match fill_quadratures c family max_quadrature_index fuel 0 [] with
          | none => .error .fuel_exhausted
          | some quadratures =>
            .ok { self with base := base,
                            quadrature_family := some family,
                            quadrature_indices := quadrature_indices,
                            quadratures := quadratures }
    | _ => .error .reference_cells_size

/-- The constructor `ElementalInteraction(min_n_points_1D, point_density,
density_kind)` (lines 20-29): no quadrature family yet, empty tables. -/
def ElementalInteraction.new (min_n_points_1D : Nat) (point_density : Rat)
    (density_kind : DensityKind) : ElementalInteraction :=
  { base := { overlap_tria := { native_active_cell_index := [] }, patch_map := { cells := [] } }
    min_n_points_1D := min_n_points_1D
    point_density := point_density
    density_kind := density_kind
    quadrature_family := none
    quadrature_indices := []
    quadratures := [] }

/-! ## Sequences of intermediate calls and measures on the record -/

/-- The three intermediate phases of the engine. -/
inductive IntermediateCall where
  | compute_projection_rhs
  | compute_spread
  | add_workload
  deriving DecidableEq, Repr

/-- Issue one intermediate phase. -/
def IntermediateCall.run (call : IntermediateCall) (c : Collaborators)
    (self : ElementalInteraction) (t_ptr : TransactionBase) (w : World) :
    Result (ElementalInteraction × TransactionBase × World) :=
  match call with
  | .compute_projection_rhs => compute_projection_rhs_intermediate c self t_ptr w
  | .compute_spread => compute_spread_intermediate c self t_ptr w
  | .add_workload => add_workload_intermediate c self t_ptr w

/-- Issue intermediate phases one after the other on the transaction the
previous call returned; a violation ends the run (the transaction handed to
the failing call is gone with it).  The value is the world at the end. -/
def run_calls (c : Collaborators) :
    List IntermediateCall → ElementalInteraction → TransactionBase → World → World
  | [], _, _, w => w
  | call :: calls, self, t_ptr, w =>
    match call.run c self t_ptr w with
    | .error _ => w
    | .ok (self', t_ptr', w') => run_calls c calls self' t_ptr' w'

/-- Whether an effect is a run of one of the three kernels. -/
def Event.is_kernel : Event → Bool
  | .compute_projection_rhs _ => true
  | .compute_spread _ => true
  | .count_quadrature_points _ => true
  | _ => false

/-- Whether an effect is the start of an overlap→global scatter. -/
def Event.is_scatter_back_start : Event → Bool
  | .overlap_to_global_start _ _ _ _ _ => true
  | _ => false

/-- The number of kernel runs in a record. -/
def kernel_runs (log : List Event) : Nat :=
  log.countP Event.is_kernel

/-- The number of overlap→global scatters started in a record. -/
def scatter_back_starts (log : List Event) : Nat :=
  log.countP Event.is_scatter_back_start

/-- The record of effects after a call, when the call returned. -/
def Result.log? : Result (ElementalInteraction × TransactionBase × World) → Option (List Event)
  | .ok (_, _, w) => some w.log
  | .error _ => none

/-- The transaction state after a call, when the call returned. -/
def Result.next_state? :
    Result (ElementalInteraction × TransactionBase × World) → Option State
  | .ok (_, t, _) => some t.next_state
  | .error _ => none

/-! ## Concrete data used to exercise the definitions -/

/-- Collaborators with simple computable behaviour. -/
def sample_collaborators : Collaborators :=
  { base_reinit := fun b _ _ lengths _ _ =>
      .ok { b with overlap_tria := { native_active_cell_index := List.range lengths.length } }
    get_index := fun _ e l => if e < l then 1 else 0
    get_rule := fun _ i => { points := List.replicate (i + 1) [0], weights := List.replicate (i + 1) 1 }
    get_overlap_dof_handler := fun _ d => { id := d.id + 100 }
    global_to_overlap_finish := fun _ native _ => native
    compute_projection_rhs := fun a _ => a.position_mapping.position
    compute_spread := fun a g => (a.patch_map, (a.data_idx, a.solution) :: g)
    count_quadrature_points := fun a g => (a.patch_map, (a.qp_data_idx, [1]) :: g) }

/-- A patch hierarchy with one local patch of spacing (1, 2), a process with
no patch and a process with one patch of spacing (3, 4). -/
def sample_hierarchy : PatchHierarchy :=
  { getPatchLevel := fun _ =>
      { local_patches := [{ dx := [1, 2] }], remote_patches := [[], [{ dx := [3, 4] }]] } }

/-- An engine after a `reinit` on two cells. -/
def sample_engine : ElementalInteraction :=
  { base := { overlap_tria := { native_active_cell_index := [0, 1] }, patch_map := { cells := [[0], [1]] } }
    min_n_points_1D := 2
    point_density := 2
    density_kind := { value := 0 }
    quadrature_family := some (.QGaussFamily 2 2)
    quadrature_indices := [1, 0]
    quadratures := [{ points := [[0]], weights := [1] }, { points := [[0], [0]], weights := [1, 1] }] }

/-- A transaction as a `*_start` call leaves it, for the given operation and
state. -/
def sample_transaction (operation : Operation) (next_state : State) : Transaction :=
  { current_data_idx := 7
    kernel_name := "BSPLINE_3"
    native_position_dof_handler := { id := 1 }
    position_scatter := { id := 1 }
    native_position := [0, 0, 1, 0]
    overlap_position := [0, 0, 0, 0]
    native_dof_handler := { id := 2 }
    mapping := { id := 1 }
    solution_scatter := { id := 2 }
    native_solution := [5, 5]
    overlap_solution := [0, 0]
    rhs_scatter := { id := 2 }
    rhs_scatter_back_op := .add
    native_rhs := [0, 0]
    overlap_rhs := [0, 0]
    next_state := next_state
    operation := operation }

/-- A workload transaction in the given state. -/
def sample_workload (next_state : State) : WorkloadTransaction :=
  { workload_index := 9
    native_position_dof_handler := { id := 1 }
    position_scatter := { id := 1 }
    native_position := [0, 0, 1, 0]
    overlap_position := [0, 0, 0, 0]
    next_state := next_state }

/-- A world with no grid data and an empty record. -/
def sample_world : World :=
  { grid := [], log := [] }

/-! ## Sequences of reinit calls -/

/-- The arguments of one call of `reinit`, with the bound of its last loop. -/
structure ReinitArgs where
  native_tria : Triangulation
  active_cell_bboxes : List BoundingBox
  active_cell_lengths : List Rat
  patch_hierarchy : PatchHierarchy
  level_number : Int
  fuel : Nat

/-- Call `reinit` on one engine with each of the argument records in turn; a
violation ends the run.  The value is the engine after the last call. -/
def reinit_sequence (c : Collaborators) (dim : Nat) :
    List ReinitArgs → ElementalInteraction → Result ElementalInteraction
  | [], self => .ok self
  | a :: rest, self =>
    match reinit c dim self a.native_tria a.active_cell_bboxes a.active_cell_lengths
        a.patch_hierarchy a.level_number a.fuel with
    | .error v => .error v
    | .ok self' => reinit_sequence c dim rest self'

/-- A first call of `reinit` on a mesh of two quadrilaterals. -/
def sample_reinit_quadrilaterals : ReinitArgs :=
  { native_tria := { active_cells := [.Quadrilateral, .Quadrilateral] }
    active_cell_bboxes := []
    active_cell_lengths := [2, 1]
    patch_hierarchy := sample_hierarchy
    level_number := 0
    fuel := 257 }

/-- A later call of `reinit` on a mesh of three triangles. -/
def sample_reinit_triangles : ReinitArgs :=
  { native_tria := { active_cells := [.Triangle, .Triangle, .Triangle] }
    active_cell_bboxes := []
    active_cell_lengths := [1, 3, 1]
    patch_hierarchy := sample_hierarchy
    level_number := 0
    fuel := 257 }

/-- The engine after `reinit` on the mesh of two quadrilaterals. -/
def sample_engine_quadrilaterals : ElementalInteraction :=
  { base := { overlap_tria := { native_active_cell_index := [0, 1] }, patch_map := { cells := [] } }
    min_n_points_1D := 2
    point_density := 2
    density_kind := { value := 0 }
    quadrature_family := some (.QGaussFamily 2 2)
    quadrature_indices := [1, 0]
    quadratures := [{ points := [[0]], weights := [1] }, { points := [[0], [0]], weights := [1, 1] }] }

/-- A patch level on which this process owns no patch, one other process
owns none either, one owns a patch of spacing (3, 4) and one owns patches of
spacings (2, 5) and (1, 1). -/
def sample_level_without_local_patch : PatchLevel :=
  { local_patches := []
    remote_patches := [[], [{ dx := [3, 4] }], [{ dx := [2, 5] }, { dx := [1, 1] }]] }

/-! ## IFEDMethod: the order in which the phases are issued -/

/-- The three phases of an interaction. -/
inductive Phase where
  | start
  | intermediate
  | finish
  deriving DecidableEq, Repr

/-- One call of a phase issued by `IFEDMethod`: the operation, the phase, the
index `part_n` of the engine `interactions[part_n]` the phase is called on,
and the transaction object the call returns (for `start`) or is given,
identified by the number of transactions created before it. -/
structure PhaseCall where
  operation : Operation
  phase : Phase
  engine : Nat
  transaction : Nat
  deriving DecidableEq, Repr

/-- The local state of `interpolateVelocity` and `spreadForce`: the vector
`transactions` (`none` is a pointer that has been moved from), the calls
issued so far, and the number of transactions created so far. -/
structure DriverState where
  transactions : List (Option Nat)
  calls : List PhaseCall
  created : Nat
  deriving DecidableEq, Repr

/-- The body of the loop commented `start` (ifed_method.cc lines 104-116 and
178-188): the transaction returned by the start phase of `interactions[part_n]`
is appended to `transactions`. -/
def start_body (operation : Operation) (st : DriverState) (part_n : Nat) :
    Option DriverState :=
  some { transactions := st.transactions ++ [some st.created]
         calls := st.calls ++ [{ operation := operation, phase := .start, engine := part_n,
                                 transaction := st.created }]
         created := st.created + 1 }

/-- The body of the loop commented `Compute` (lines 119-122 and 191-193):
`transactions[part_n]` is moved into the intermediate phase of
`interactions[part_n]` and the pointer the phase returns, which is the one it
was given, is stored back.  Reading past the end of `transactions` or handing
over a moved-from pointer ends the run. -/
def intermediate_body (operation : Operation) (st : DriverState) (part_n : Nat) :
    Option DriverState :=
  match st.transactions[part_n]? with
  | some (some t) =>
    some { st with
      transactions := st.transactions.set part_n (some t)
      calls := st.calls ++ [{ operation := operation, phase := .intermediate,
                              engine := part_n, transaction := t }] }
  | _ => none

/-- The body of the loop commented `Collect` (lines 125-127 and 196-198):
`transactions[part_n]` is moved into the finish phase of
`interactions[part_n]`, which consumes it. -/
def finish_body (operation : Operation) (st : DriverState) (part_n : Nat) :
    Option DriverState :=
  match st.transactions[part_n]? with
  | some (some t) =>
    some { st with
      transactions := st.transactions.set part_n none
      calls := st.calls ++ [{ operation := operation, phase := .finish,
                              engine := part_n, transaction := t }] }
  | _ => none

/-- A loop `for (part_n = ...; ...; ++part_n)` over the given part numbers. -/
def for_parts (body : DriverState → Nat → Option DriverState) :
    List Nat → DriverState → Option DriverState
  | [], st => some st
  | part_n :: rest, st =>
    match body st part_n with
    | none => none
    | some st' => for_parts body rest st'

/-- The three loops of `interpolateVelocity` and `spreadForce` over
`parts.size()` parts, starting from an empty `transactions`. -/
def issue_phases (operation : Operation) (n_parts : Nat) : Option DriverState :=
  match for_parts (start_body operation) (List.range' 0 n_parts)
      { transactions := [], calls := [], created := 0 } with
  | none => none
  | some st1 =>
    match for_parts (intermediate_body operation) (List.range' 0 n_parts) st1 with
    | none => none
    | some st2 => for_parts (finish_body operation) (List.range' 0 n_parts) st2

/-- The interaction phases issued by `IFEDMethod::interpolateVelocity`
(lines 99-127) for `parts.size() = n_parts`. -/
def IFEDMethod.interpolateVelocity (n_parts : Nat) : Option DriverState :=
  issue_phases .Interpolation n_parts

/-- The interaction phases issued by `IFEDMethod::spreadForce` (lines 176-198)
for `parts.size() = n_parts`. -/
def IFEDMethod.spreadForce (n_parts : Nat) : Option DriverState :=
  issue_phases .Spreading n_parts

/-- The calls of one phase on the parts `0, ..., n_parts - 1`, each on the
engine and the transaction of its part. -/
def phase_calls (operation : Operation) (phase : Phase) (n_parts : Nat) : List PhaseCall :=
  (List.range' 0 n_parts).map fun part_n =>
    { operation := operation, phase := phase, engine := part_n, transaction := part_n }

/-! ## force_contribution_lib: id lists and the spring forces -/

/-- The result of `std::sort(result.begin(), result.end())` on ids. -/
def sort (ids : List Nat) : List Nat :=
  ids.insertionSort (· ≤ ·)

/-- The result of `result.erase(std::unique(result.begin(), result.end()),
result.end())`: of every run of equal neighbours only the first is kept. -/
def unique : List Nat → List Nat
  | [] => []
  | [x] => [x]
  | x :: y :: rest => if x = y then unique (y :: rest) else x :: unique (y :: rest)

/-- Embedding of `setup_ids` (lines 41-58); an id of either kind
(`types::material_id`, `types::boundary_id`) is an unsigned integer. -/
def setup_ids (ids : List Nat) (invalid_id : Nat) : List Nat :=
  let result := ids
  -- If the user doesn't want any material/boundary ids, let them do it.
  let result := if result.length = 0 then result ++ [invalid_id] else result
  -- permit duplicates in the input array
  unique (sort result)

/-- The loop of `std::lower_bound(first, last, value)` on a vector: `first`
and `len` are the start and the length of the range still searched; `fuel`
bounds the number of halvings. -/
def lower_bound_loop (xs : List Nat) (value : Nat) : Nat → Nat → Nat → Nat
  | 0, first, _ => first
  | fuel + 1, first, len =>
    if len > 0 then
      let half := len / 2
      let middle := first + half
      if xs.getD middle 0 < value then
        lower_bound_loop xs value fuel (middle + 1) (len - half - 1)
      else
        lower_bound_loop xs value fuel first half
    else
      first

/-- The position `std::lower_bound(xs.begin(), xs.end(), value)`; the range
searched shrinks with every halving, so `xs.size()` halvings are enough. -/
def lower_bound (xs : List Nat) (value : Nat) : Nat :=
  lower_bound_loop xs value xs.length 0 xs.length

/-- The value `std::binary_search(xs.begin(), xs.end(), value)`: the lower
bound is not the end and `value` is not smaller than the element there. -/
def binary_search (xs : List Nat) (value : Nat) : Bool :=
  let i := lower_bound xs value
  decide (i ≠ xs.length) && !decide (value < xs.getD i 0)

/-- The constant `numbers::invalid_material_id` of deal.II, the largest value
of `types::material_id`. -/
def invalid_material_id : Nat := 4294967295

/-- The constant `numbers::invalid_boundary_id` of deal.II, the largest value
of `types::boundary_id`. -/
def invalid_boundary_id : Nat := 4294967295

/-- An active cell of the structural mesh, as the forces read it. -/
structure CellAccessor where
  level : Nat
  index : Nat
  material_id : Nat
  deriving DecidableEq, Repr

/-- An active face of the structural mesh, as the forces read it. -/
structure FaceAccessor where
  boundary_id : Nat
  deriving DecidableEq, Repr

/-- A `Tensor<1, spacedim, Number>`, by its components. -/
abbrev Tensor1 := List Rat

/-- The parts of a `MechanicsValues` object the forces read: the cell of its
`FEValues`, the sizes, the evaluation of a finite element field given by its
local DoF values at the quadrature points
(`get_function_values_from_local_dof_values`), the velocities and the
deformed normal vectors at the quadrature points. -/
structure MechanicsValues where
  cell : CellAccessor
  dofs_per_cell : Nat
  n_quadrature_points : Nat
  get_function_values_from_local_dof_values : List Rat → List Tensor1
  velocity_values : List Tensor1
  deformed_normal_vectors : List Tensor1

/-- The members of `SpringForceBase`: `current_position` is the pointer set by
`setup_force` and cleared by `finish_force`; `get_dof_indices` stands for the
DoF handler, giving the DoF indices of the cell at a level and index. -/
structure SpringForceBase where
  spring_constant : Rat
  get_dof_indices : Nat → Nat → List Nat
  reference_position : List Rat
  current_position : Option (List Rat)

/-- The class `SpringForce`: a spring force on cells, with the material ids it
is restricted to. -/
structure SpringForce extends SpringForceBase where
  material_ids : List Nat

/-- The class `BoundarySpringForce`: a spring force on boundary faces, with
the boundary ids it is restricted to. -/
structure BoundarySpringForce extends SpringForceBase where
  boundary_ids : List Nat

/-- The class `OrthogonalSpringDashpotForce`: a spring and dashpot force
along the normal of boundary faces, with the boundary ids it is restricted
to. -/
structure OrthogonalSpringDashpotForce extends SpringForceBase where
  damping_constant : Rat
  boundary_ids : List Nat

/-- The constructors of `SpringForce` without material ids (lines 124-134 and
166-178): the id list is empty. -/
def SpringForce.new (base : SpringForceBase) : SpringForce :=
  { toSpringForceBase := base, material_ids := [] }

/-- The constructors of `SpringForce` with material ids (lines 136-164). -/
def SpringForce.new_with_ids (base : SpringForceBase) (material_ids : List Nat) :
    SpringForce :=
  { toSpringForceBase := base, material_ids := setup_ids material_ids invalid_material_id }

/-- The constructors of `BoundarySpringForce` without boundary ids
(lines 238-248 and 280-292). -/
def BoundarySpringForce.new (base : SpringForceBase) : BoundarySpringForce :=
  { toSpringForceBase := base, boundary_ids := [] }

/-- The constructors of `BoundarySpringForce` with boundary ids
(lines 250-278). -/
def BoundarySpringForce.new_with_ids (base : SpringForceBase) (boundary_ids : List Nat) :
    BoundarySpringForce :=
  { toSpringForceBase := base, boundary_ids := setup_ids boundary_ids invalid_boundary_id }

/-- The constructors of `OrthogonalSpringDashpotForce` without boundary ids
(lines 393-406 and 444-458). -/
def OrthogonalSpringDashpotForce.new (base : SpringForceBase) (damping_constant : Rat) :
    OrthogonalSpringDashpotForce :=
  { toSpringForceBase := base, damping_constant := damping_constant, boundary_ids := [] }

/-- The constructors of `OrthogonalSpringDashpotForce` with boundary ids
(lines 408-442). -/
def OrthogonalSpringDashpotForce.new_with_ids (base : SpringForceBase)
    (damping_constant : Rat) (boundary_ids : List Nat) : OrthogonalSpringDashpotForce :=
  { toSpringForceBase := base, damping_constant := damping_constant,
    boundary_ids := setup_ids boundary_ids invalid_boundary_id }

/-- The assignment `force = 0.0` to every entry of `forces`. -/
def fill_with_zeros (forces : List Tensor1) : List Tensor1 :=
  forces.map fun force => force.map fun _ => 0

/-- The values `spring_constant * (reference_position[d] - current_position[d])`
for the DoFs `d` of a cell (lines 215-219); reading a vector past its end ends
the call. -/
def spring_dof_values (spring_constant : Rat) (reference_position current_position : List Rat) :
    List Nat → Option (List Rat)
  | [] => some []
  | d :: dofs =>
    match reference_position[d]?, current_position[d]?,
        spring_dof_values spring_constant reference_position current_position dofs with
    | some r, some x, some rest => some (spring_constant * (r - x) :: rest)
    | _, _, _ => none

/-- The spring values at the quadrature points, as computed alike by the three
forces (lines 200-221, 321-342, 496-519) for the cell at `level` and `index`:
the local DoF values are evaluated by the finite element.  A null
`current_position` ends the call, and so do DoF indices that are not
`dofs_per_cell` many or values that are not `n_quadrature_points` many (the
size assertions of deal.II). -/
def SpringForceBase.scratch_qp_values (self : SpringForceBase) (m_values : MechanicsValues)
    (level index : Nat) : Option (List Tensor1) :=
  match self.current_position with
  | none => none
  | some current_position =>
    let scratch_cell_dofs := self.get_dof_indices level index
    if scratch_cell_dofs.length ≠ m_values.dofs_per_cell then none
    else
      match spring_dof_values self.spring_constant self.reference_position current_position
          scratch_cell_dofs with
      | none => none
      | some scratch_dof_values =>
        let scratch_qp_values :=
          m_values.get_function_values_from_local_dof_values scratch_dof_values
        if scratch_qp_values.length ≠ m_values.n_quadrature_points then none
        else some scratch_qp_values

/-- The effect of `std::copy(values.begin(), values.end(), forces.begin())`;
writing past the end of `forces` ends the call. -/
def copy_into (values forces : List Tensor1) : Option (List Tensor1) :=
  if values.length ≤ forces.length then some (values ++ forces.drop values.length) else none

/-- Embedding of `SpringForce::compute_volume_force` (lines 180-226): the
entries of `forces` afterwards. -/
def SpringForce.compute_volume_force (self : SpringForce) (m_values : MechanicsValues)
    (cell : CellAccessor) (forces : List Tensor1) : Option (List Tensor1) :=
  if self.material_ids.length > 0 ∧ binary_search self.material_ids cell.material_id = false then
    -- the user specified a subset of material ids and we currently don't
    -- match - fill with zeros
    some (fill_with_zeros forces)
  else
    match self.toSpringForceBase.scratch_qp_values m_values cell.level cell.index with
    | none => none
    | some scratch_qp_values => copy_into scratch_qp_values forces

/-- Embedding of `BoundarySpringForce::compute_boundary_force`
(lines 301-347): the entries of `forces` afterwards. -/
def BoundarySpringForce.compute_boundary_force (self : BoundarySpringForce)
    (m_values : MechanicsValues) (face : FaceAccessor) (forces : List Tensor1) :
    Option (List Tensor1) :=
  if self.boundary_ids.length > 0 ∧ binary_search self.boundary_ids face.boundary_id = false then
    -- the user specified a subset of boundary ids and we currently don't
    -- match - fill with zeros
    some (fill_with_zeros forces)
  else
    match self.toSpringForceBase.scratch_qp_values m_values m_values.cell.level
        m_values.cell.index with
    | none => none
    | some scratch_qp_values => copy_into scratch_qp_values forces

/-- The contraction `a * b` of two `Tensor<1, spacedim>`. -/
def Tensor1.dot : Tensor1 → Tensor1 → Rat
  | a :: as, b :: bs => a * b + Tensor1.dot as bs
  | _, _ => 0

/-- The loop of `OrthogonalSpringDashpotForce::compute_boundary_force` over
the quadrature points (lines 521-526): the entry becomes
`normal * (entry - damping_constant * velocity) * normal`, a contraction
followed by a scaling of the normal.  Reading the normals or velocities past
their end ends the call. -/
def project_on_normals (damping_constant : Rat) :
    List Tensor1 → List Tensor1 → List Tensor1 → Option (List Tensor1)
  | [], _, _ => some []
  | value :: values, normal :: normals, velocity :: velocities =>
    match project_on_normals damping_constant values normals velocities with
    | none => none
    | some rest =>
      let difference := List.zipWith (fun f v => f - damping_constant * v) value velocity
      some ((normal.map fun n => Tensor1.dot normal difference * n) :: rest)
  | _ :: _, _, _ => none

/-- Embedding of `OrthogonalSpringDashpotForce::compute_boundary_force`
(lines 476-532): the entries of `forces` afterwards. -/
def OrthogonalSpringDashpotForce.compute_boundary_force (self : OrthogonalSpringDashpotForce)
    (m_values : MechanicsValues) (face : FaceAccessor) (forces : List Tensor1) :
    Option (List Tensor1) :=
  if self.boundary_ids.length > 0 ∧ binary_search self.boundary_ids face.boundary_id = false then
    -- the user specified a subset of boundary ids and we currently don't
    -- match - fill with zeros
    some (fill_with_zeros forces)
  else
    match self.toSpringForceBase.scratch_qp_values m_values m_values.cell.level
        m_values.cell.index with
    | none => none
    | some scratch_qp_values =>
      match project_on_normals self.damping_constant scratch_qp_values
          m_values.deformed_normal_vectors m_values.velocity_values with
      | none => none
      | some projected => copy_into projected forces

/-- A spring of constant 2 on a mesh whose cell (0, 0) has the DoFs 0 and 1,
at rest positions (0, 1) and current positions (1, 3). -/
def sample_spring_base : SpringForceBase :=
  { spring_constant := 2
    get_dof_indices := fun _ _ => [0, 1]
    reference_position := [0, 1]
    current_position := some [1, 3] }

/-- Mechanics values on the cell (0, 0) of material 3 with two DoFs and two
quadrature points, the field value at each point being the pair of the local
DoF values. -/
def sample_mechanics_values : MechanicsValues :=
  { cell := { level := 0, index := 0, material_id := 3 }
    dofs_per_cell := 2
    n_quadrature_points := 2
    get_function_values_from_local_dof_values := fun values => [values, values]
    velocity_values := [[1, 0], [0, 1]]
    deformed_normal_vectors := [[1, 0], [1, 0]] }

/-- A spring force restricted to the material ids 5 and 3, given in that order
with a repetition. -/
def sample_spring_force : SpringForce :=
  SpringForce.new_with_ids sample_spring_base [5, 3, 5]

/-- Collaborators whose quadrature family returns the index 255 for every
cell. -/
def sample_collaborators_255 : Collaborators :=
  { sample_collaborators with get_index := fun _ _ _ => 255 }

/-! ## The intermediate phases, statement by statement -/

/-- The state the statements of an intermediate phase work on: the engine
`*this`, the transaction `*t_ptr` and the world. -/
structure Machine where
  self : ElementalInteraction
  t_ptr : TransactionBase
  world : World
  deriving DecidableEq, Repr

/-- One statement of a phase: it yields the state after it, or ends the call
with a violation. -/
abbrev Statement := Machine → Result Machine

/-- Execute statements in program order.  The value is the state in which the
execution ended and the violation that ended it, if any; a cast or an
`Assert` that fails has changed nothing itself, so the state is then the one
the failing statement found. -/
def run_statements : List Statement → Machine → Machine × Option Violation
  | [], m => (m, none)
  | statement :: rest, m =>
    match statement m with
    | .error v => (m, some v)
    | .ok m' => run_statements rest m'

/-- The statement `auto &trans = dynamic_cast<Transaction<dim, spacedim> &>(*t_ptr)`. -/
def cast_to_Transaction : Statement := fun m =>
  match m.t_ptr with
  | .transaction _ => .ok m
  | .workload _ => .error .bad_cast

/-- The statement `auto &trans = dynamic_cast<WorkloadTransaction<dim, spacedim> &>(*t_ptr)`. -/
def cast_to_WorkloadTransaction : Statement := fun m =>
  match m.t_ptr with
  | .workload _ => .ok m
  | .transaction _ => .error .bad_cast

/-- The statement `Assert(trans.operation == operation, ...)`. -/
def assert_operation (operation : Operation) (v : Violation) : Statement := fun m =>
  match m.t_ptr with
  | .transaction tr => if tr.operation ≠ operation then .error v else .ok m
  | .workload _ => .error .bad_cast

/-- The statement `Assert(trans.next_state == State::Intermediate, ...)`. -/
def assert_state_Intermediate : Statement := fun m =>
  if m.t_ptr.next_state ≠ .Intermediate then .error .state_should_be_Intermediate else .ok m

/-- The statement `trans.position_scatter.global_to_overlap_finish(
*trans.native_position, trans.overlap_position)`. -/
def finish_position_scatter (c : Collaborators) : Statement := fun m =>
  match m.t_ptr with
  | .transaction tr =>
    .ok { m with
      t_ptr := .transaction { tr with
        overlap_position := c.global_to_overlap_finish tr.position_scatter tr.native_position
          tr.overlap_position }
      world := m.world.record
        (.global_to_overlap_finish tr.position_scatter tr.native_position) }
  | .workload tr =>
    .ok { m with
      t_ptr := .workload { tr with
        overlap_position := c.global_to_overlap_finish tr.position_scatter tr.native_position
          tr.overlap_position }
      world := m.world.record
        (.global_to_overlap_finish tr.position_scatter tr.native_position) }

/-- The statement `trans.solution_scatter.global_to_overlap_finish(
*trans.native_solution, trans.overlap_solution)`. -/
def finish_solution_scatter (c : Collaborators) : Statement := fun m =>
  match m.t_ptr with
  | .transaction tr =>
    .ok { m with
      t_ptr := .transaction { tr with
        overlap_solution := c.global_to_overlap_finish tr.solution_scatter tr.native_solution
          tr.overlap_solution }
      world := m.world.record
        (.global_to_overlap_finish tr.solution_scatter tr.native_solution) }
  | .workload _ => .error .bad_cast

/-- The `position_mapping` of the state: the mapping over the overlap position
of the transaction. -/
def Machine.position_mapping (c : Collaborators) (m : Machine) : MappingFEField :=
  match m.t_ptr with
  | .transaction tr =>
    overlap_position_mapping c m.self tr.native_position_dof_handler tr.overlap_position
  | .workload tr =>
    overlap_position_mapping c m.self tr.native_position_dof_handler tr.overlap_position

/-- The declaration `MappingFEField<...> position_mapping(...)`. -/
def build_position_mapping (c : Collaborators) : Statement := fun m =>
  .ok { m with world := m.world.record (.position_mapping_built (m.position_mapping c)) }

/-- The statement `compute_projection_rhs(...)` (lines 144-153). -/
def call_compute_projection_rhs (c : Collaborators) : Statement := fun m =>
  match m.t_ptr with
  | .transaction tr =>
    let args := projection_args c m.self tr (m.position_mapping c)
    .ok { m with
      t_ptr := .transaction { tr with
        overlap_rhs := c.compute_projection_rhs args m.world.grid }
      world := m.world.record (.compute_projection_rhs args) }
  | .workload _ => .error .bad_cast

/-- The statement `compute_spread(...)` (lines 191-199). -/
def call_compute_spread (c : Collaborators) : Statement := fun m =>
  match m.t_ptr with
  | .transaction tr =>
    let args := spread_args c m.self tr (m.position_mapping c) tr.overlap_solution
    let out := c.compute_spread args m.world.grid
    .ok { m with
      self := { m.self with base := { m.self.base with patch_map := out.1 } }
      world := { m.world with grid := out.2 }.record (.compute_spread args) }
  | .workload _ => .error .bad_cast

/-- The statement `count_quadrature_points(...)` (lines 224-228). -/
def call_count_quadrature_points (c : Collaborators) : Statement := fun m =>
  match m.t_ptr with
  | .workload tr =>
    let args := count_args m.self tr (m.position_mapping c)
    let out := c.count_quadrature_points args m.world.grid
    .ok { m with
      self := { m.self with base := { m.self.base with patch_map := out.1 } }
      world := { m.world with grid := out.2 }.record (.count_quadrature_points args) }
  | .transaction _ => .error .bad_cast

/-- The statement `trans.rhs_scatter.overlap_to_global_start(trans.overlap_rhs,
trans.rhs_scatter_back_op, 0, *trans.native_rhs)`. -/
def start_rhs_scatter_back : Statement := fun m =>
  match m.t_ptr with
  | .transaction tr =>
    .ok { m with
      world := m.world.record
        (.overlap_to_global_start tr.rhs_scatter tr.overlap_rhs tr.rhs_scatter_back_op 0
          tr.native_rhs) }
  | .workload _ => .error .bad_cast

/-- The statement `trans.next_state = State::Finish`. -/
def assign_next_state_Finish : Statement := fun m =>
  match m.t_ptr with
  | .transaction tr =>
    .ok { m with
      t_ptr := .transaction { tr with next_state := .Finish }
      world := m.world.record (.set_next_state .Finish) }
  | .workload tr =>
    .ok { m with
      t_ptr := .workload { tr with next_state := .Finish }
      world := m.world.record (.set_next_state .Finish) }

/-- The statements of `compute_projection_rhs_intermediate` (lines 127-161),
in program order. -/
def compute_projection_rhs_intermediate_statements (c : Collaborators) : List Statement :=
  [cast_to_Transaction,
   assert_operation .Interpolation .operation_should_be_Interpolation,
   assert_state_Intermediate,
   finish_position_scatter c,
   build_position_mapping c,
   call_compute_projection_rhs c,
   start_rhs_scatter_back,
   assign_next_state_Finish]

/-- The statements of `compute_spread_intermediate` (lines 171-201), in
program order. -/
def compute_spread_intermediate_statements (c : Collaborators) : List Statement :=
  [cast_to_Transaction,
   assert_operation .Spreading .operation_should_be_Spreading,
   assert_state_Intermediate,
   finish_position_scatter c,
   finish_solution_scatter c,
   build_position_mapping c,
   call_compute_spread c,
   assign_next_state_Finish]

/-- The statements of `add_workload_intermediate` (lines 211-230), in program
order. -/
def add_workload_intermediate_statements (c : Collaborators) : List Statement :=
  [cast_to_WorkloadTransaction,
   assert_state_Intermediate,
   finish_position_scatter c,
   build_position_mapping c,
   call_count_quadrature_points c,
   assign_next_state_Finish]

/-- The statements of an intermediate phase. -/
def IntermediateCall.statements (call : IntermediateCall) (c : Collaborators) :
    List Statement :=
  match call with
  | .compute_projection_rhs => compute_projection_rhs_intermediate_statements c
  | .compute_spread => compute_spread_intermediate_statements c
  | .add_workload => add_workload_intermediate_statements c

/-- Whether an effect is the finish of a global→overlap scatter. -/
def Event.is_scatter_finish : Event → Bool
  | .global_to_overlap_finish _ _ => true
  | _ => false

/-- The number of global→overlap scatters finished in a record. -/
def scatter_finishes (log : List Event) : Nat :=
  log.countP Event.is_scatter_finish

/-! ## force_contribution_lib: the current position and the damping force -/

/-- Embedding of `SpringForceBase::setup_force` (lines 103-111) on a
`SpringForce`: `current_position` points to the position given. -/
def SpringForce.setup_force (self : SpringForce) (position : List Rat) : SpringForce :=
  { self with current_position := some position }

/-- Embedding of `SpringForceBase::finish_force` (lines 113-118) on a
`SpringForce`: `current_position` is null again. -/
def SpringForce.finish_force (self : SpringForce) : SpringForce :=
  { self with current_position := none }

/-- The class `DampingForce`. -/
structure DampingForce where
  damping_constant : Rat
  deriving DecidableEq, Repr

/-- Embedding of `DampingForce::compute_volume_force` (lines 374-388): the
velocities are copied to the start of `forces`, then every entry of `forces`
is multiplied by `-damping_constant`.  The value is the entries of `forces`
afterwards. -/
def DampingForce.compute_volume_force (self : DampingForce) (m_values : MechanicsValues)
    (_cell : CellAccessor) (forces : List Tensor1) : Option (List Tensor1) :=
  match copy_into m_values.velocity_values forces with
  | none => none
  | some forces => some (forces.map fun force => force.map fun x => x * -self.damping_constant)

/-! ## The two builds of the engine

deal.II's `Assert(cond, exc)` is a macro: in a debug build it checks `cond`
and raises `exc` when it is false, in a release build it expands to nothing.
The definitions above are the debug build.  The definitions of this section
take the build as an argument; for the debug build they are the definitions
above (`IntermediateCall.run_in_debug`, `reinit_in_debug`). -/

/-- The two ways the engine is compiled. -/
inductive Build where
  | debug
  | release
  deriving DecidableEq, Repr

/-- The macro `Assert(cond, exc)`: the violation it raises, if any. -/
def Assert (build : Build) (cond : Bool) (exc : Violation) : Option Violation :=
  match build with
  | .debug => if cond then none else some exc
  | .release => none

/-- Embedding of `ElementalInteraction::compute_projection_rhs_intermediate`
(lines 122-164) in the given build. -/
def compute_projection_rhs_intermediate_in (build : Build) (c : Collaborators)
    (self : ElementalInteraction) (t_ptr : TransactionBase) (w : World) :
    Result (ElementalInteraction × TransactionBase × World) :=
  match t_ptr with
  | .workload _ => .error .bad_cast
  | .transaction tr =>
    match Assert build (decide (tr.operation = .Interpolation))
        .operation_should_be_Interpolation with
    | some v => .error v
    | none =>
      match Assert build (decide (tr.next_state = .Intermediate))
          .state_should_be_Intermediate with
      | some v => .error v
      | none =>
        -- Finish communication:
        let overlap_position :=
          c.global_to_overlap_finish tr.position_scatter tr.native_position
            tr.overlap_position
        let w1 := w.record (.global_to_overlap_finish tr.position_scatter tr.native_position)
        let position_mapping :=
          overlap_position_mapping c self tr.native_position_dof_handler overlap_position
        let w2 := w1.record (.position_mapping_built position_mapping)
        -- Actually do the interpolation:
        let args := projection_args c self tr position_mapping
        let overlap_rhs := c.compute_projection_rhs args w2.grid
        let w3 := w2.record (.compute_projection_rhs args)
        -- After we compute we begin the scatter back to the native partitioning:
        let w4 := w3.record
          (.overlap_to_global_start tr.rhs_scatter overlap_rhs tr.rhs_scatter_back_op 0
            tr.native_rhs)
        let w5 := w4.record (.set_next_state .Finish)
        .ok (self,
             .transaction { tr with overlap_position := overlap_position,
                                    overlap_rhs := overlap_rhs,
                                    next_state := .Finish },
             w5)

/-- Embedding of `ElementalInteraction::compute_spread_intermediate`
(lines 166-204) in the given build. -/
def compute_spread_intermediate_in (build : Build) (c : Collaborators)
    (self : ElementalInteraction) (t_ptr : TransactionBase) (w : World) :
    Result (ElementalInteraction × TransactionBase × World) :=
  match t_ptr with
  | .workload _ => .error .bad_cast
  | .transaction tr =>
    match Assert build (decide (tr.operation = .Spreading))
        .operation_should_be_Spreading with
    | some v => .error v
    | none =>
      match Assert build (decide (tr.next_state = .Intermediate))
          .state_should_be_Intermediate with
      | some v => .error v
      | none =>
        -- Finish communication:
        let overlap_position :=
          c.global_to_overlap_finish tr.position_scatter tr.native_position
            tr.overlap_position
        let w1 := w.record (.global_to_overlap_finish tr.position_scatter tr.native_position)
        let overlap_solution :=
          c.global_to_overlap_finish tr.solution_scatter tr.native_solution
            tr.overlap_solution
        let w2 := w1.record (.global_to_overlap_finish tr.solution_scatter tr.native_solution)
        let position_mapping :=
          overlap_position_mapping c self tr.native_position_dof_handler overlap_position
        let w3 := w2.record (.position_mapping_built position_mapping)
        -- Actually do the spreading:
        let args := spread_args c self tr position_mapping overlap_solution
        let out := c.compute_spread args w3.grid
        let w4 := { w3 with grid := out.2 }.record (.compute_spread args)
        let w5 := w4.record (.set_next_state .Finish)
        .ok ({ self with base := { self.base with patch_map := out.1 } },
             .transaction { tr with overlap_position := overlap_position,
                                    overlap_solution := overlap_solution,
                                    next_state := .Finish },
             w5)

/-- Embedding of `ElementalInteraction::add_workload_intermediate`
(lines 206-233) in the given build. -/
def add_workload_intermediate_in (build : Build) (c : Collaborators)
    (self : ElementalInteraction) (t_ptr : TransactionBase) (w : World) :
    Result (ElementalInteraction × TransactionBase × World) :=
  match t_ptr with
  | .transaction _ => .error .bad_cast
  | .workload tr =>
    match Assert build (decide (tr.next_state = .Intermediate))
        .state_should_be_Intermediate with
    | some v => .error v
    | none =>
      -- Finish communication:
      let overlap_position :=
        c.global_to_overlap_finish tr.position_scatter tr.native_position
          tr.overlap_position
      let w1 := w.record (.global_to_overlap_finish tr.position_scatter tr.native_position)
      let position_mapping :=
        overlap_position_mapping c self tr.native_position_dof_handler overlap_position
      let w2 := w1.record (.position_mapping_built position_mapping)
      let args := count_args self tr position_mapping
      let out := c.count_quadrature_points args w2.grid
      let w3 := { w2 with grid := out.2 }.record (.count_quadrature_points args)
      let w4 := w3.record (.set_next_state .Finish)
      .ok ({ self with base := { self.base with patch_map := out.1 } },
           .workload { tr with overlap_position := overlap_position,
                               next_state := .Finish },
           w4)

/-- Issue one intermediate phase in the given build. -/
def IntermediateCall.run_in (build : Build) (call : IntermediateCall) (c : Collaborators)
    (self : ElementalInteraction) (t_ptr : TransactionBase) (w : World) :
    Result (ElementalInteraction × TransactionBase × World) :=
  match call with
  | .compute_projection_rhs => compute_projection_rhs_intermediate_in build c self t_ptr w
  | .compute_spread => compute_spread_intermediate_in build c self t_ptr w
  | .add_workload => add_workload_intermediate_in build c self t_ptr w

/-- Issue intermediate phases one after the other, in the given build, on the
transaction the previous call returned; a violation ends the run.  The value
is the world at the end. -/
def run_calls_in (build : Build) (c : Collaborators) :
    List IntermediateCall → ElementalInteraction → TransactionBase → World → World
  | [], _, _, w => w
  | call :: calls, self, t_ptr, w =>
    match call.run_in build c self t_ptr w with
    | .error _ => w
    | .ok (self', t_ptr', w') => run_calls_in build c calls self' t_ptr' w'

/-- The selection of the quadrature family in `reinit` (lines 69-79) in the
given build, given `reference_cells`.  In a release build neither `Assert`
stands in the way: `reference_cells.front()` is read of whatever the vector
holds, which for an empty vector is undefined, and after the last `else` the
family pointer stays null, to be dereferenced at line 102 or 112. -/
def select_quadrature_family_in (build : Build) (dim : Nat) (self : ElementalInteraction)
    (reference_cells : List ReferenceCell) : Result QuadratureFamily :=
  match self.quadrature_family with
  | some family => .ok family
  | none =>
    match reference_cells with
    | [] => .error .front_of_empty_vector
    | front :: _ =>
      if front = ReferenceCells.get_hypercube dim then
        .ok (.QGaussFamily self.min_n_points_1D self.point_density)
      else if front = ReferenceCells.get_simplex dim then
        .ok (.QWitherdenVincentSimplexFamily self.min_n_points_1D self.point_density
          self.density_kind)
      else
        match Assert build false .reference_cell_not_implemented with
        | some v => .error v
        | none => .error .null_quadrature_family

/-- Embedding of `ElementalInteraction::reinit` (lines 52-113) in the given
build, for the template argument `dim`; `fuel` bounds the loop that fills
`quadratures`. -/
def reinit_in (build : Build) (c : Collaborators) (dim : Nat) (self : ElementalInteraction)
    (native_tria : Triangulation) (active_cell_bboxes : List BoundingBox)
    (active_cell_lengths : List Rat) (patch_hierarchy : PatchHierarchy)
    (level_number : Int) (fuel : Nat) : Result ElementalInteraction :=
  match c.base_reinit self.base native_tria active_cell_bboxes active_cell_lengths
      patch_hierarchy level_number with
  | .error e => .error (.base_reinit e)
  | .ok base =>
    -- We need to implement some more quadrature families
    let reference_cells := native_tria.get_reference_cells
    match Assert build (decide (reference_cells.length = 1)) .reference_cells_size with
    | some v => .error v
    | none =>
      match select_quadrature_family_in build dim self reference_cells with
      | .error v => .error v
      | .ok family =>
        let h := eulerian_length (patch_hierarchy.getPatchLevel level_number)
        -- Determine which quadrature rule we should use on each cell:
        match compute_quadrature_indices c family h active_cell_lengths
            base.overlap_tria.native_active_cell_index with
        | .error v => .error v
        | .ok quadrature_indices =>
          -- Store quadratures in a vector:
          let max_quadrature_index :=
            if quadrature_indices.length > 0 then max_element quadrature_indices else 0
          match fill_quadratures c family max_quadrature_index fuel 0 [] with
          | none => .error .fuel_exhausted
          | some quadratures =>
            .ok { self with base := base,
                            quadrature_family := some family,
                            quadrature_indices := quadrature_indices,
                            quadratures := quadratures }

/-! ## Shared lemmas on `reinit` -/

theorem fill_quadratures_eq (c : Collaborators) (family : QuadratureFamily)
    (max_quadrature_index : Nat) (hmax : max_quadrature_index < 255) :
    ∀ (fuel i : Nat) (quadratures : List Quadrature),
      i ≤ max_quadrature_index + 1 → max_quadrature_index + 2 ≤ fuel + i →
      fill_quadratures c family max_quadrature_index fuel i quadratures
        = some (quadratures ++
            (List.range' i (max_quadrature_index + 1 - i)).map (c.get_rule family)) := by
  intro fuel
  induction fuel with
  | zero =>
    intro i quadratures hi hfuel
    omega
  | succ fuel ih =>
    intro i quadratures hi hfuel
    by_cases hle : i ≤ max_quadrature_index
    · have hmod : (i + 1) % 256 = i + 1 := Nat.mod_eq_of_lt (by omega)
      have hlen : max_quadrature_index + 1 - i = (max_quadrature_index + 1 - (i + 1)) + 1 := by
        omega
      rw [fill_quadratures, if_pos hle, hmod, ih (i + 1) _ (by omega) (by omega), hlen,
        List.range'_succ]
      simp
    · have hi' : i = max_quadrature_index + 1 := by omega
      rw [fill_quadratures, if_neg hle]
      simp [hi']

theorem compute_quadrature_indices_eq (c : Collaborators) (family : QuadratureFamily)
    (h : Rat) (active_cell_lengths : List Rat) :
    ∀ cells : List Nat, (∀ idx ∈ cells, idx < active_cell_lengths.length) →
      compute_quadrature_indices c family h active_cell_lengths cells
        = Result.ok (cells.map fun idx =>
            c.get_index family h (active_cell_lengths.getD idx 0) % 256) := by
  intro cells
  induction cells with
  | nil => intro _; rfl
  | cons idx cells ih =>
    intro hin
    have hidx : idx < active_cell_lengths.length := hin idx (by simp)
    have hrest := ih (fun j hj => hin j (by simp [hj]))
    simp [compute_quadrature_indices, hrest, List.getElem?_eq_getElem hidx,
      List.getD_eq_getElem?_getD]

theorem foldl_max_lt (n : Nat) :
    ∀ (xs : List Nat) (x : Nat), x < n → (∀ y ∈ xs, y < n) → xs.foldl max x < n := by
  intro xs
  induction xs with
  | nil => intro x hx _; simpa using hx
  | cons y ys ih =>
    intro x hx hys
    have hy : y < n := hys y (by simp)
    exact ih (max x y) (by rcases Nat.le_total x y with h | h <;> simp [h, hx, hy])
      (fun z hz => hys z (by simp [hz]))

theorem max_quadrature_index_lt (n : Nat) (hn : 0 < n) (quadrature_indices : List Nat)
    (h : ∀ q ∈ quadrature_indices, q < n) :
    (if quadrature_indices.length > 0 then max_element quadrature_indices else 0) < n := by
  cases quadrature_indices with
  | nil => simpa using hn
  | cons x xs =>
    simp only [List.length_cons, gt_iff_lt, Nat.zero_lt_succ, if_true, max_element]
    exact foldl_max_lt n xs x (h x (by simp)) (fun y hy => h y (by simp [hy]))

theorem select_quadrature_family_error (dim : Nat) (self : ElementalInteraction)
    (front : ReferenceCell) (v : Violation)
    (h : select_quadrature_family dim self front = Result.error v) :
    v = Violation.reference_cell_not_implemented := by
  unfold select_quadrature_family at h
  split at h
  · cases h
  · split at h
    · cases h
    · split at h
      · cases h
      · cases h; rfl

theorem compute_quadrature_indices_error (c : Collaborators) (family : QuadratureFamily)
    (h : Rat) (active_cell_lengths : List Rat) (v : Violation) :
    ∀ cells : List Nat,
      compute_quadrature_indices c family h active_cell_lengths cells = Result.error v →
      v = Violation.index_out_of_range := by
  intro cells
  induction cells with
  | nil => intro he; cases he
  | cons idx cells ih =>
    intro he
    unfold compute_quadrature_indices at he
    split at he
    · cases he; rfl
    · split at he
      · rename_i v' hv'
        cases he
        exact ih hv'
      · cases he

theorem reinit_eq_ok (c : Collaborators) (dim : Nat) (self : ElementalInteraction)
    (native_tria : Triangulation) (active_cell_bboxes : List BoundingBox)
    (active_cell_lengths : List Rat) (patch_hierarchy : PatchHierarchy) (level_number : Int)
    (fuel : Nat) (front : ReferenceCell) (base : InteractionBase) (family : QuadratureFamily)
    (quadrature_indices : List Nat)
    (h_base : c.base_reinit self.base native_tria active_cell_bboxes active_cell_lengths
      patch_hierarchy level_number = Except.ok base)
    (h_cells : native_tria.get_reference_cells = [front])
    (h_family : select_quadrature_family dim self front = Result.ok family)
    (h_range : ∀ idx ∈ base.overlap_tria.native_active_cell_index,
      idx < active_cell_lengths.length)
    (h_indices : quadrature_indices = base.overlap_tria.native_active_cell_index.map fun idx =>
      c.get_index family (eulerian_length (patch_hierarchy.getPatchLevel level_number))
        (active_cell_lengths.getD idx 0) % 256)
    (h_255 : ∀ q ∈ quadrature_indices, q ≠ 255)
    (h_fuel : 257 ≤ fuel) :
    reinit c dim self native_tria active_cell_bboxes active_cell_lengths patch_hierarchy
        level_number fuel
      = Result.ok { self with
          base := base,
          quadrature_family := some family,
          quadrature_indices := quadrature_indices,
          quadratures :=
            (List.range'
              0 ((if quadrature_indices.length > 0 then max_element quadrature_indices else 0)
                + 1)).map (c.get_rule family) } := by
  have hlt : ∀ q ∈ quadrature_indices, q < 255 := by
    intro q hq
    have h1 : q < 256 := by
      rw [h_indices] at hq
      obtain ⟨idx, -, rfl⟩ := List.mem_map.1 hq
      exact Nat.mod_lt _ (by decide)
    have h2 := h_255 q hq
    omega
  have hmax := max_quadrature_index_lt 255 (by decide) quadrature_indices hlt
  have hfill := fill_quadratures_eq c family _ hmax fuel 0 [] (by omega) (by omega)
  have hcompute := compute_quadrature_indices_eq c family
    (eulerian_length (patch_hierarchy.getPatchLevel level_number)) active_cell_lengths
    base.overlap_tria.native_active_cell_index h_range
  rw [← h_indices] at hcompute
  unfold reinit
  simp only [h_base, h_cells, h_family, hcompute, hfill]
  simp

/-! ## Shared lemmas on the intermediate phases -/

theorem IntermediateCall.run_error_of_state (call : IntermediateCall) (c : Collaborators)
    (self : ElementalInteraction) (t : TransactionBase) (w : World)
    (h : t.next_state ≠ State.Intermediate) :
    ∃ v, call.run c self t w = Result.error v := by
  cases call <;> cases t with
  | transaction tr =>
    have h' : tr.next_state ≠ State.Intermediate := h
    by_cases hop : tr.operation = Operation.Interpolation <;>
      by_cases hop' : tr.operation = Operation.Spreading <;>
      simp [IntermediateCall.run, compute_projection_rhs_intermediate,
        compute_spread_intermediate, add_workload_intermediate, h', hop, hop']
  | workload tr =>
    have h' : tr.next_state ≠ State.Intermediate := h
    simp [IntermediateCall.run, compute_projection_rhs_intermediate,
      compute_spread_intermediate, add_workload_intermediate, h']

theorem IntermediateCall.run_ok_effect (call : IntermediateCall) (c : Collaborators)
    (self self' : ElementalInteraction) (t t' : TransactionBase) (w w' : World)
    (h : call.run c self t w = Result.ok (self', t', w')) :
    t'.next_state = State.Finish ∧ kernel_runs w'.log = kernel_runs w.log + 1 := by
  cases call <;> cases t with
  | transaction tr =>
    by_cases hop : tr.operation = Operation.Interpolation <;>
      by_cases hop' : tr.operation = Operation.Spreading <;>
      by_cases hs : tr.next_state = State.Intermediate <;>
      simp [IntermediateCall.run, compute_projection_rhs_intermediate,
        compute_spread_intermediate, add_workload_intermediate, hs, hop, hop'] at h <;>
      (obtain ⟨-, rfl, rfl⟩ := h
       simp [TransactionBase.next_state, kernel_runs, World.record, Event.is_kernel,
         List.countP_append])
  | workload tr =>
    by_cases hs : tr.next_state = State.Intermediate <;>
      simp [IntermediateCall.run, compute_projection_rhs_intermediate,
        compute_spread_intermediate, add_workload_intermediate, hs] at h <;>
      (obtain ⟨-, rfl, rfl⟩ := h
       simp [TransactionBase.next_state, kernel_runs, World.record, Event.is_kernel,
         List.countP_append])

/-! ## The entry checks of the intermediate phases -/

/-! ## Shared lemmas on the two builds -/

theorem IntermediateCall.run_in_debug (call : IntermediateCall) (c : Collaborators)
    (self : ElementalInteraction) (t : TransactionBase) (w : World) :
    call.run_in Build.debug c self t w = call.run c self t w := by
  cases call <;> cases t with
  | transaction tr =>
    by_cases hop : tr.operation = Operation.Interpolation <;>
      by_cases hop' : tr.operation = Operation.Spreading <;>
      by_cases hs : tr.next_state = State.Intermediate <;>
      simp [IntermediateCall.run_in, IntermediateCall.run,
        compute_projection_rhs_intermediate_in, compute_spread_intermediate_in,
        add_workload_intermediate_in, compute_projection_rhs_intermediate,
        compute_spread_intermediate, add_workload_intermediate, Assert, hs, hop, hop']
  | workload tr =>
    by_cases hs : tr.next_state = State.Intermediate <;>
      simp [IntermediateCall.run_in, IntermediateCall.run,
        compute_projection_rhs_intermediate_in, compute_spread_intermediate_in,
        add_workload_intermediate_in, compute_projection_rhs_intermediate,
        compute_spread_intermediate, add_workload_intermediate, Assert, hs]

theorem IntermediateCall.run_in_of_ok (build : Build) (call : IntermediateCall)
    (c : Collaborators) (self : ElementalInteraction) (t : TransactionBase) (w : World)
    (r : ElementalInteraction × TransactionBase × World)
    (h : call.run c self t w = Result.ok r) :
    call.run_in build c self t w = Result.ok r := by
  cases build with
  | debug => rw [IntermediateCall.run_in_debug, h]
  | release =>
    rw [← h]
    cases call <;> cases t with
    | transaction tr =>
      by_cases hop : tr.operation = Operation.Interpolation <;>
        by_cases hop' : tr.operation = Operation.Spreading <;>
        by_cases hs : tr.next_state = State.Intermediate <;>
        simp [IntermediateCall.run, compute_projection_rhs_intermediate,
          compute_spread_intermediate, add_workload_intermediate, hs, hop, hop'] at h <;>
        simp [IntermediateCall.run_in, IntermediateCall.run,
          compute_projection_rhs_intermediate_in, compute_spread_intermediate_in,
          add_workload_intermediate_in, compute_projection_rhs_intermediate,
          compute_spread_intermediate, add_workload_intermediate, Assert, hs, hop, hop']
    | workload tr =>
      by_cases hs : tr.next_state = State.Intermediate <;>
        simp [IntermediateCall.run, compute_projection_rhs_intermediate,
          compute_spread_intermediate, add_workload_intermediate, hs] at h <;>
        simp [IntermediateCall.run_in, IntermediateCall.run,
          compute_projection_rhs_intermediate_in, compute_spread_intermediate_in,
          add_workload_intermediate_in, compute_projection_rhs_intermediate,
          compute_spread_intermediate, add_workload_intermediate, Assert, hs]

theorem IntermediateCall.run_in_release (call : IntermediateCall) (c : Collaborators)
    (self : ElementalInteraction) (t : TransactionBase) (w : World) :
    call.run_in Build.release c self t w = Result.error Violation.bad_cast ∨
    ∃ self' t' w', call.run_in Build.release c self t w = Result.ok (self', t', w') ∧
      t'.next_state = State.Finish ∧ kernel_runs w'.log = kernel_runs w.log + 1 := by
  cases call <;> cases t <;>
    first
    | exact Or.inl rfl
    | exact Or.inr ⟨_, _, _, rfl, rfl, by
        simp [kernel_runs, World.record, Event.is_kernel, List.countP_append]⟩

theorem IntermediateCall.run_in_release_ok_again (call : IntermediateCall) (c : Collaborators)
    (self self' : ElementalInteraction) (t t' : TransactionBase) (w w' : World)
    (h : call.run_in Build.release c self t w = Result.ok (self', t', w')) :
    ∃ self'' t'' w'', call.run_in Build.release c self' t' w' = Result.ok (self'', t'', w'') ∧
      kernel_runs w'.log = kernel_runs w.log + 1 ∧
      kernel_runs w''.log = kernel_runs w.log + 2 := by
  cases call <;> cases t <;>
    simp [IntermediateCall.run_in, compute_projection_rhs_intermediate_in,
      compute_spread_intermediate_in, add_workload_intermediate_in, Assert] at h <;>
    (obtain ⟨-, rfl, rfl⟩ := h
     exact ⟨_, _, _, rfl,
      by simp [kernel_runs, World.record, Event.is_kernel, List.countP_append],
      by simp [kernel_runs, World.record, Event.is_kernel, List.countP_append]⟩)

/-! ## The entry checks of the intermediate phases -/

/-- C3: on a transaction in state `Intermediate` of the matching kind each
intermediate phase returns, and what it returns is the transaction it was
given with `next_state` set to `Finish`, the operation unchanged, and no other
member rewritten than the overlap vectors the phase fills. -/
theorem intermediate_returns_transaction_in_Finish (c : Collaborators)
    (self : ElementalInteraction) (w : World) :
    (∀ tr : Transaction, tr.operation = Operation.Interpolation →
      tr.next_state = State.Intermediate →
      ∃ self' tr' w', compute_projection_rhs_intermediate c self (.transaction tr) w
            = Result.ok (self', .transaction tr', w') ∧
          tr'.next_state = State.Finish ∧ tr'.operation = tr.operation ∧
          tr' = { tr with overlap_position := tr'.overlap_position,
                          overlap_rhs := tr'.overlap_rhs,
                          next_state := State.Finish }) ∧
    (∀ tr : Transaction, tr.operation = Operation.Spreading →
      tr.next_state = State.Intermediate →
      ∃ self' tr' w', compute_spread_intermediate c self (.transaction tr) w
            = Result.ok (self', .transaction tr', w') ∧
          tr'.next_state = State.Finish ∧ tr'.operation = tr.operation ∧
          tr' = { tr with overlap_position := tr'.overlap_position,
                          overlap_solution := tr'.overlap_solution,
                          next_state := State.Finish }) ∧
    (∀ tr : WorkloadTransaction, tr.next_state = State.Intermediate →
      ∃ self' tr' w', add_workload_intermediate c self (.workload tr) w
            = Result.ok (self', .workload tr', w') ∧
          tr'.next_state = State.Finish ∧
          tr' = { tr with overlap_position := tr'.overlap_position,
                          next_state := State.Finish }) := by
  refine ⟨?_, ?_, ?_⟩
  · intro tr hop hs
    simp [compute_projection_rhs_intermediate, hop, hs]
    exact ⟨_, _, ⟨rfl, rfl⟩, rfl, rfl, rfl⟩
  · intro tr hop hs
    simp [compute_spread_intermediate, hop, hs]
    exact ⟨_, _, ⟨rfl, rfl⟩, rfl, rfl, rfl⟩
  · intro tr hs
    simp [add_workload_intermediate, hs]
    exact ⟨_, _, ⟨rfl, rfl⟩, rfl, rfl⟩

/-- The three phases of C3 at sample transactions in state `Intermediate`:
each returns with the state `Finish`. -/
theorem intermediate_returns_transaction_in_Finish_witness :
    (compute_projection_rhs_intermediate sample_collaborators sample_engine
        (.transaction (sample_transaction .Interpolation .Intermediate)) sample_world).next_state?
      = some State.Finish ∧
    (compute_spread_intermediate sample_collaborators sample_engine
        (.transaction (sample_transaction .Spreading .Intermediate)) sample_world).next_state?
      = some State.Finish ∧
    (add_workload_intermediate sample_collaborators sample_engine
        (.workload (sample_workload .Intermediate)) sample_world).next_state?
      = some State.Finish := by
  have h := intermediate_returns_transaction_in_Finish sample_collaborators sample_engine
    sample_world
  obtain ⟨_, _, _, h1, h1', _⟩ :=
    h.1 (sample_transaction .Interpolation .Intermediate) (by decide) (by decide)
  obtain ⟨_, _, _, h2, h2', _⟩ :=
    h.2.1 (sample_transaction .Spreading .Intermediate) (by decide) (by decide)
  obtain ⟨_, _, _, h3, h3', _⟩ := h.2.2 (sample_workload .Intermediate) (by decide)
  rw [h1, h2, h3]
  exact ⟨congrArg some h1', congrArg some h2', congrArg some h3'⟩

theorem run_calls_in_debug (c : Collaborators) :
    ∀ (calls : List IntermediateCall) (self : ElementalInteraction) (t : TransactionBase)
      (w : World), run_calls_in Build.debug c calls self t w = run_calls c calls self t w := by
  intro calls
  induction calls with
  | nil => intro self t w; rfl
  | cons call calls ih =>
    intro self t w
    simp only [run_calls_in, run_calls, IntermediateCall.run_in_debug]
    cases call.run c self t w with
    | error v => rfl
    | ok r => exact ih _ _ _

/-- C4 fails in a release build, where `Assert` expands to nothing: the
projection phase succeeds on a sample interpolation transaction, and the same
phase succeeds again on the transaction it returned; the record then holds
two kernel runs for the one transaction. -/
theorem release_build_runs_kernel_twice :
    ∃ self' t' w' self'' t'' w'',
      IntermediateCall.run_in .release .compute_projection_rhs sample_collaborators
          sample_engine (.transaction (sample_transaction .Interpolation .Intermediate))
          sample_world
        = Result.ok (self', t', w') ∧
      IntermediateCall.run_in .release .compute_projection_rhs sample_collaborators
          self' t' w'
        = Result.ok (self'', t'', w'') ∧
      kernel_runs sample_world.log = 0 ∧
      kernel_runs w''.log = 2 ∧
      kernel_runs (run_calls_in .release sample_collaborators
          [.compute_projection_rhs, .compute_projection_rhs]
          sample_engine (.transaction (sample_transaction .Interpolation .Intermediate))
          sample_world).log = 2 :=
  ⟨_, _, _, _, _, _, rfl, rfl, rfl, rfl, rfl⟩

/-- C4, amended: in a debug build, when an intermediate phase has succeeded
on a transaction the same phase fails on the transaction it returned, and
whatever intermediate phases are issued one after the other on a
transaction, in whatever state it starts, at most one kernel run is added to
the record; in a release build, when an intermediate phase has succeeded on
a transaction the same phase succeeds again on the transaction it returned,
and the two calls add two kernel runs to the record. -/
theorem intermediate_advances_at_most_once_in_debug_build (build : Build)
    (c : Collaborators) :
    (build = Build.debug →
      (∀ (call : IntermediateCall) (self self' : ElementalInteraction)
          (t t' : TransactionBase) (w w' : World),
        call.run_in build c self t w = Result.ok (self', t', w') →
        ∃ v, call.run_in build c self' t' w' = Result.error v) ∧
      (∀ (calls : List IntermediateCall) (self : ElementalInteraction)
          (t : TransactionBase) (w : World),
        kernel_runs (run_calls_in build c calls self t w).log ≤ kernel_runs w.log + 1)) ∧
    (build = Build.release →
      ∀ (call : IntermediateCall) (self self' : ElementalInteraction)
          (t t' : TransactionBase) (w w' : World),
        call.run_in build c self t w = Result.ok (self', t', w') →
        ∃ self'' t'' w'', call.run_in build c self' t' w' = Result.ok (self'', t'', w'') ∧
          kernel_runs w'.log = kernel_runs w.log + 1 ∧
          kernel_runs w''.log = kernel_runs w.log + 2) := by
  constructor
  · rintro rfl
    constructor
    · intro call self self' t t' w w' h
      rw [IntermediateCall.run_in_debug] at h ⊢
      have hs := (IntermediateCall.run_ok_effect call c self self' t t' w w' h).1
      exact IntermediateCall.run_error_of_state call c self' t' w' (by rw [hs]; decide)
    · intro calls self t w
      rw [run_calls_in_debug]
      cases calls with
      | nil => simp [run_calls]
      | cons call calls =>
        cases h : call.run c self t w with
        | error v => simp [run_calls, h]
        | ok r =>
          obtain ⟨self', t', w'⟩ := r
          have he := IntermediateCall.run_ok_effect call c self self' t t' w w' h
          cases calls with
          | nil => simp [run_calls, h, he.2]
          | cons call2 calls2 =>
            obtain ⟨v, hv⟩ := IntermediateCall.run_error_of_state call2 c self' t' w'
              (by rw [he.1]; decide)
            simp [run_calls, h, hv, he.2]
  · rintro rfl call self self' t t' w w' h
    exact IntermediateCall.run_in_release_ok_again call c self self' t t' w w' h

/-- The amended C4 at a sample interpolation transaction.  In a debug build
the first projection phase succeeds and the same phase fails on what it
returned, and issuing the phase three times in a row leaves at most one
kernel run in the record; in a release build the second call succeeds. -/
theorem intermediate_advances_at_most_once_in_debug_build_witness :
    (∃ self' t' w',
      IntermediateCall.run_in .debug .compute_projection_rhs sample_collaborators
          sample_engine (.transaction (sample_transaction .Interpolation .Intermediate))
          sample_world
        = Result.ok (self', t', w') ∧
      ∃ v, IntermediateCall.run_in .debug .compute_projection_rhs sample_collaborators
          self' t' w'
        = Result.error v) ∧
    kernel_runs (run_calls_in .debug sample_collaborators
        [.compute_projection_rhs, .compute_projection_rhs, .compute_projection_rhs]
        sample_engine (.transaction (sample_transaction .Interpolation .Intermediate))
        sample_world).log ≤ kernel_runs sample_world.log + 1 ∧
    (∃ self' t' w',
      IntermediateCall.run_in .release .compute_projection_rhs sample_collaborators
          sample_engine (.transaction (sample_transaction .Interpolation .Intermediate))
          sample_world
        = Result.ok (self', t', w') ∧
      ∃ self'' t'' w'',
        IntermediateCall.run_in .release .compute_projection_rhs sample_collaborators
            self' t' w'
          = Result.ok (self'', t'', w'') ∧
        kernel_runs w'.log = kernel_runs sample_world.log + 1 ∧
        kernel_runs w''.log = kernel_runs sample_world.log + 2) :=
  ⟨⟨_, _, _, rfl,
      ((intermediate_advances_at_most_once_in_debug_build .debug sample_collaborators).1
        rfl).1 .compute_projection_rhs
        sample_engine _ (.transaction (sample_transaction .Interpolation .Intermediate)) _
        sample_world _ rfl⟩,
    ((intermediate_advances_at_most_once_in_debug_build .debug sample_collaborators).1
      rfl).2
      [.compute_projection_rhs, .compute_projection_rhs, .compute_projection_rhs]
      sample_engine (.transaction (sample_transaction .Interpolation .Intermediate))
      sample_world,
    ⟨_, _, _, rfl,
      (intermediate_advances_at_most_once_in_debug_build .release sample_collaborators).2
        rfl .compute_projection_rhs
        sample_engine _ (.transaction (sample_transaction .Interpolation .Intermediate)) _
        sample_world _ rfl⟩⟩

/-- C5 fails for spreading and for workload counting: at sample transactions
in state `Intermediate`, `compute_spread_intermediate` and
`add_workload_intermediate` succeed and reach `Finish` without an
overlap→global scatter having been started. -/
theorem spread_and_workload_start_no_scatter_back :
    (compute_spread_intermediate sample_collaborators sample_engine
        (.transaction (sample_transaction .Spreading .Intermediate)) sample_world).next_state?
      = some State.Finish ∧
    (compute_spread_intermediate sample_collaborators sample_engine
        (.transaction (sample_transaction .Spreading .Intermediate)) sample_world).log?.map
          scatter_back_starts
      = some 0 ∧
    (add_workload_intermediate sample_collaborators sample_engine
        (.workload (sample_workload .Intermediate)) sample_world).next_state?
      = some State.Finish ∧
    (add_workload_intermediate sample_collaborators sample_engine
        (.workload (sample_workload .Intermediate)) sample_world).log?.map
          scatter_back_starts
      = some 0 := by
  decide

/-- C5, amended: a successful `compute_projection_rhs_intermediate` starts
one overlap→global scatter, of `overlap_rhs` into `native_rhs` with the
combine operation recorded in the transaction, and the effect that follows
it, the last of the call, is the assignment of `Finish` to `next_state`; a
successful `compute_spread_intermediate` or `add_workload_intermediate` starts
no overlap→global scatter and ends with the assignment of `Finish`. -/
theorem scatter_back_started_by_projection_only (c : Collaborators)
    (self : ElementalInteraction) (w : World) :
    (∀ tr : Transaction, tr.operation = Operation.Interpolation →
      tr.next_state = State.Intermediate →
      ∃ self' tr' w',
        compute_projection_rhs_intermediate c self (.transaction tr) w
          = Result.ok (self', .transaction tr', w') ∧
        w'.log.getLast? = some (Event.set_next_state State.Finish) ∧
        w'.log.dropLast.getLast? =
          some (Event.overlap_to_global_start tr.rhs_scatter tr'.overlap_rhs
            tr.rhs_scatter_back_op 0 tr.native_rhs) ∧
        scatter_back_starts w'.log = scatter_back_starts w.log + 1) ∧
    (∀ (tr : Transaction) (self' : ElementalInteraction) (t' : TransactionBase) (w' : World),
      compute_spread_intermediate c self (.transaction tr) w = Result.ok (self', t', w') →
      w'.log.getLast? = some (Event.set_next_state State.Finish) ∧
      scatter_back_starts w'.log = scatter_back_starts w.log) ∧
    (∀ (tr : WorkloadTransaction) (self' : ElementalInteraction) (t' : TransactionBase)
        (w' : World),
      add_workload_intermediate c self (.workload tr) w = Result.ok (self', t', w') →
      w'.log.getLast? = some (Event.set_next_state State.Finish) ∧
      scatter_back_starts w'.log = scatter_back_starts w.log) := by
  refine ⟨?_, ?_, ?_⟩
  · intro tr hop hs
    refine ⟨_, _, _, by simp [compute_projection_rhs_intermediate, hop, hs]; exact ⟨rfl, rfl, rfl⟩,
      ?_, ?_, ?_⟩
    · simp [World.record]
    · simp [World.record, List.dropLast_append_of_ne_nil]
    · simp [World.record, scatter_back_starts, List.countP_append,
        Event.is_scatter_back_start]
  · intro tr self' t' w' h
    by_cases hop : tr.operation = Operation.Spreading <;>
      by_cases hs : tr.next_state = State.Intermediate <;>
      simp [compute_spread_intermediate, hop, hs] at h
    obtain ⟨-, -, rfl⟩ := h
    simp [World.record, scatter_back_starts, List.countP_append, Event.is_scatter_back_start]
  · intro tr self' t' w' h
    by_cases hs : tr.next_state = State.Intermediate <;>
      simp [add_workload_intermediate, hs] at h
    obtain ⟨-, -, rfl⟩ := h
    simp [World.record, scatter_back_starts, List.countP_append, Event.is_scatter_back_start]

/-- The amended C5 at sample transactions in state `Intermediate`: the
projection phase adds one scatter start to the record, the spreading phase
adds none. -/
theorem scatter_back_started_by_projection_only_witness :
    (compute_projection_rhs_intermediate sample_collaborators sample_engine
        (.transaction (sample_transaction .Interpolation .Intermediate)) sample_world).log?.map
          scatter_back_starts
      = some 1 ∧
    (∃ self' t' w',
      compute_spread_intermediate sample_collaborators sample_engine
          (.transaction (sample_transaction .Spreading .Intermediate)) sample_world
        = Result.ok (self', t', w') ∧
      w'.log.getLast? = some (Event.set_next_state State.Finish) ∧
      scatter_back_starts w'.log = scatter_back_starts sample_world.log) := by
  have h := scatter_back_started_by_projection_only sample_collaborators sample_engine
    sample_world
  constructor
  · obtain ⟨_, _, _, h1, -, -, h1'⟩ :=
      h.1 (sample_transaction .Interpolation .Intermediate) (by decide) (by decide)
    rw [h1]
    exact congrArg some h1'
  · exact ⟨_, _, _, rfl, h.2.1 (sample_transaction .Spreading .Intermediate) _ _ _ rfl⟩

/-- C6: in every successful intermediate phase the effects start with the
finish of the position scatter (and, for spreading, of the solution scatter),
then the construction of the position mapping from the arrived overlap
position, then one run of the kernel on that mapping (and, for spreading, on
the arrived overlap solution); no kernel runs after that. -/
theorem scatters_finished_before_mapping_and_kernel (c : Collaborators)
    (self : ElementalInteraction) (w : World) :
    (∀ tr : Transaction, tr.operation = Operation.Interpolation →
      tr.next_state = State.Intermediate →
      ∃ self' tr' w' rest,
        compute_projection_rhs_intermediate c self (.transaction tr) w
          = Result.ok (self', .transaction tr', w') ∧
        tr'.overlap_position =
          c.global_to_overlap_finish tr.position_scatter tr.native_position
            tr.overlap_position ∧
        w'.log = w.log ++
          [Event.global_to_overlap_finish tr.position_scatter tr.native_position,
            Event.position_mapping_built
              (overlap_position_mapping c self tr.native_position_dof_handler
                tr'.overlap_position),
            Event.compute_projection_rhs
              (projection_args c self tr
                (overlap_position_mapping c self tr.native_position_dof_handler
                  tr'.overlap_position))] ++ rest ∧
        kernel_runs rest = 0) ∧
    (∀ tr : Transaction, tr.operation = Operation.Spreading →
      tr.next_state = State.Intermediate →
      ∃ self' tr' w' rest,
        compute_spread_intermediate c self (.transaction tr) w
          = Result.ok (self', .transaction tr', w') ∧
        tr'.overlap_position =
          c.global_to_overlap_finish tr.position_scatter tr.native_position
            tr.overlap_position ∧
        tr'.overlap_solution =
          c.global_to_overlap_finish tr.solution_scatter tr.native_solution
            tr.overlap_solution ∧
        w'.log = w.log ++
          [Event.global_to_overlap_finish tr.position_scatter tr.native_position,
            Event.global_to_overlap_finish tr.solution_scatter tr.native_solution,
            Event.position_mapping_built
              (overlap_position_mapping c self tr.native_position_dof_handler
                tr'.overlap_position),
            Event.compute_spread
              (spread_args c self tr
                (overlap_position_mapping c self tr.native_position_dof_handler
                  tr'.overlap_position)
                tr'.overlap_solution)] ++ rest ∧
        kernel_runs rest = 0) ∧
    (∀ tr : WorkloadTransaction, tr.next_state = State.Intermediate →
      ∃ self' tr' w' rest,
        add_workload_intermediate c self (.workload tr) w
          = Result.ok (self', .workload tr', w') ∧
        tr'.overlap_position =
          c.global_to_overlap_finish tr.position_scatter tr.native_position
            tr.overlap_position ∧
        w'.log = w.log ++
          [Event.global_to_overlap_finish tr.position_scatter tr.native_position,
            Event.position_mapping_built
              (overlap_position_mapping c self tr.native_position_dof_handler
                tr'.overlap_position),
            Event.count_quadrature_points
              (count_args self tr
                (overlap_position_mapping c self tr.native_position_dof_handler
                  tr'.overlap_position))] ++ rest ∧
        kernel_runs rest = 0) := by
  refine ⟨?_, ?_, ?_⟩
  · intro tr hop hs
    refine ⟨_, _, _,
      [Event.overlap_to_global_start tr.rhs_scatter
          (c.compute_projection_rhs
            (projection_args c self tr
              (overlap_position_mapping c self tr.native_position_dof_handler
                (c.global_to_overlap_finish tr.position_scatter tr.native_position
                  tr.overlap_position))) w.grid)
          tr.rhs_scatter_back_op 0 tr.native_rhs,
        Event.set_next_state State.Finish],
      by simp [compute_projection_rhs_intermediate, hop, hs]; exact ⟨rfl, rfl, rfl⟩,
      rfl, ?_, ?_⟩
    · simp [World.record]
    · simp [kernel_runs, Event.is_kernel]
  · intro tr hop hs
    refine ⟨_, _, _, [Event.set_next_state State.Finish],
      by simp [compute_spread_intermediate, hop, hs]; exact ⟨rfl, rfl, rfl⟩,
      rfl, rfl, ?_, ?_⟩
    · simp [World.record]
    · simp [kernel_runs, Event.is_kernel]
  · intro tr hs
    refine ⟨_, _, _, [Event.set_next_state State.Finish],
      by simp [add_workload_intermediate, hs]; exact ⟨rfl, rfl, rfl⟩,
      rfl, ?_, ?_⟩
    · simp [World.record]
    · simp [kernel_runs, Event.is_kernel]

/-- C6 at a sample spreading transaction in state `Intermediate`: the call
succeeds and one kernel run is in the record. -/
theorem scatters_finished_before_mapping_and_kernel_witness :
    (sample_transaction .Spreading .Intermediate).operation = Operation.Spreading ∧
    (sample_transaction .Spreading .Intermediate).next_state = State.Intermediate ∧
    (compute_spread_intermediate sample_collaborators sample_engine
        (.transaction (sample_transaction .Spreading .Intermediate)) sample_world).log?.map
          kernel_runs
      = some 1 := by
  refine ⟨by decide, by decide, ?_⟩
  obtain ⟨_, _, _, rest, h, -, -, hlog, hrest⟩ :=
    (scatters_finished_before_mapping_and_kernel sample_collaborators sample_engine
      sample_world).2.1 (sample_transaction .Spreading .Intermediate) (by decide) (by decide)
  rw [h]
  simp [Result.log?, hlog, kernel_runs, List.countP_append, Event.is_kernel, sample_world]
  simpa [kernel_runs] using hrest

/-! ## The quadrature tables -/

/-- C7: for every engine state and every transaction, a successful
`compute_projection_rhs_intermediate`, `compute_spread_intermediate` or
`add_workload_intermediate` returns the engine with `quadrature_indices`,
`quadratures` and the quadrature family as they were; `reinit` does change
them (shown on a sample engine and on a newly constructed one). -/
theorem intermediate_keeps_quadrature_tables (c : Collaborators) :
    (∀ (call : IntermediateCall) (self self' : ElementalInteraction)
        (t t' : TransactionBase) (w w' : World),
      call.run c self t w = Result.ok (self', t', w') →
      self'.quadrature_indices = self.quadrature_indices ∧
      self'.quadratures = self.quadratures ∧
      self'.quadrature_family = self.quadrature_family) ∧
    (∃ e, reinit sample_collaborators 2 sample_engine { active_cells := [.Quadrilateral] } []
          [1] sample_hierarchy 0 257 = Result.ok e ∧
        e.quadrature_indices ≠ sample_engine.quadrature_indices ∧
        e.quadratures ≠ sample_engine.quadratures) ∧
    (∃ e, reinit sample_collaborators 2 (ElementalInteraction.new 2 2 { value := 0 })
          { active_cells := [.Quadrilateral] } [] [2] sample_hierarchy 0 257 = Result.ok e ∧
        e.quadrature_family ≠ (ElementalInteraction.new 2 2 { value := 0 }).quadrature_family) := by
  refine ⟨?_, ⟨_, rfl, by decide, by decide⟩, ⟨_, rfl, by decide⟩⟩
  intro call self self' t t' w w' h
  cases call <;> cases t with
  | transaction tr =>
    by_cases hop : tr.operation = Operation.Interpolation <;>
      by_cases hop' : tr.operation = Operation.Spreading <;>
      by_cases hs : tr.next_state = State.Intermediate <;>
      simp [IntermediateCall.run, compute_projection_rhs_intermediate,
        compute_spread_intermediate, add_workload_intermediate, hs, hop, hop'] at h <;>
      (obtain ⟨rfl, -, -⟩ := h
       exact ⟨rfl, rfl, rfl⟩)
  | workload tr =>
    by_cases hs : tr.next_state = State.Intermediate <;>
      simp [IntermediateCall.run, compute_projection_rhs_intermediate,
        compute_spread_intermediate, add_workload_intermediate, hs] at h <;>
      (obtain ⟨rfl, -, -⟩ := h
       exact ⟨rfl, rfl, rfl⟩)

/-- C7 at a sample spreading transaction: the call succeeds and returns the
engine with the tables it had. -/
theorem intermediate_keeps_quadrature_tables_witness :
    ∃ self' t' w',
      IntermediateCall.run .compute_spread sample_collaborators sample_engine
          (.transaction (sample_transaction .Spreading .Intermediate)) sample_world
        = Result.ok (self', t', w') ∧
      self'.quadrature_indices = sample_engine.quadrature_indices ∧
      self'.quadratures = sample_engine.quadratures ∧
      self'.quadrature_family = sample_engine.quadrature_family :=
  ⟨_, _, _, rfl,
    (intermediate_keeps_quadrature_tables sample_collaborators).1 .compute_spread
      sample_engine _ (.transaction (sample_transaction .Spreading .Intermediate)) _
      sample_world _ rfl⟩

/-- C8: `get_rhs_scatter_type` returns `VectorOperation::add` for every state
of the engine, and so for an engine constructed from any parameters. -/
theorem get_rhs_scatter_type_eq_add (self : ElementalInteraction) :
    get_rhs_scatter_type self = VectorOperation.add ∧
    ∀ (min_n_points_1D : Nat) (point_density : Rat) (density_kind : DensityKind),
      get_rhs_scatter_type (ElementalInteraction.new min_n_points_1D point_density density_kind)
        = VectorOperation.add :=
  ⟨rfl, fun _ _ _ => rfl⟩

/-! ## The reference-cell check and the choice of the quadrature family -/

theorem select_quadrature_family_in_debug (dim : Nat) (self : ElementalInteraction)
    (front : ReferenceCell) :
    select_quadrature_family_in Build.debug dim self [front]
      = select_quadrature_family dim self front := by
  unfold select_quadrature_family_in select_quadrature_family
  cases self.quadrature_family with
  | some family => rfl
  | none =>
    by_cases h1 : front = ReferenceCells.get_hypercube dim <;>
      by_cases h2 : front = ReferenceCells.get_simplex dim <;>
      simp [h1, h2, Assert]

theorem select_quadrature_family_in_of_ok (build : Build) (dim : Nat)
    (self : ElementalInteraction) (front : ReferenceCell) (rest : List ReferenceCell)
    (family : QuadratureFamily)
    (h : select_quadrature_family dim self front = Result.ok family) :
    select_quadrature_family_in build dim self (front :: rest) = Result.ok family := by
  unfold select_quadrature_family at h
  unfold select_quadrature_family_in
  cases hf : self.quadrature_family with
  | some family' => simpa [hf] using h
  | none =>
    by_cases h1 : front = ReferenceCells.get_hypercube dim <;>
      by_cases h2 : front = ReferenceCells.get_simplex dim <;>
      simp [hf, h1, h2] at h ⊢ <;> exact h

theorem select_quadrature_family_in_release_error (dim : Nat) (self : ElementalInteraction)
    (reference_cells : List ReferenceCell) (v : Violation)
    (h : select_quadrature_family_in Build.release dim self reference_cells = Result.error v) :
    v = Violation.front_of_empty_vector ∨ v = Violation.null_quadrature_family := by
  unfold select_quadrature_family_in at h
  split at h
  · cases h
  · split at h
    · cases h; exact Or.inl rfl
    · split at h
      · cases h
      · split at h
        · cases h
        · simp [Assert] at h
          exact Or.inr h.symm

theorem reinit_in_debug (c : Collaborators) (dim : Nat) (self : ElementalInteraction)
    (native_tria : Triangulation) (active_cell_bboxes : List BoundingBox)
    (active_cell_lengths : List Rat) (patch_hierarchy : PatchHierarchy)
    (level_number : Int) (fuel : Nat) :
    reinit_in Build.debug c dim self native_tria active_cell_bboxes active_cell_lengths
        patch_hierarchy level_number fuel
      = reinit c dim self native_tria active_cell_bboxes active_cell_lengths
        patch_hierarchy level_number fuel := by
  unfold reinit_in reinit
  cases c.base_reinit self.base native_tria active_cell_bboxes active_cell_lengths
      patch_hierarchy level_number with
  | error e => rfl
  | ok base =>
    cases hrc : native_tria.get_reference_cells with
    | nil => simp [Assert]
    | cons x xs =>
      cases xs with
      | nil => simp [Assert, select_quadrature_family_in_debug]
      | cons y ys => simp [Assert]

theorem reinit_in_of_ok (build : Build) (c : Collaborators) (dim : Nat)
    (self : ElementalInteraction) (native_tria : Triangulation)
    (active_cell_bboxes : List BoundingBox) (active_cell_lengths : List Rat)
    (patch_hierarchy : PatchHierarchy) (level_number : Int) (fuel : Nat)
    (r : ElementalInteraction)
    (h : reinit c dim self native_tria active_cell_bboxes active_cell_lengths
      patch_hierarchy level_number fuel = Result.ok r) :
    reinit_in build c dim self native_tria active_cell_bboxes active_cell_lengths
      patch_hierarchy level_number fuel = Result.ok r := by
  cases build with
  | debug => rw [reinit_in_debug, h]
  | release =>
    rw [← h]
    unfold reinit at h
    unfold reinit_in reinit
    cases hb : c.base_reinit self.base native_tria active_cell_bboxes active_cell_lengths
        patch_hierarchy level_number with
    | error e => rfl
    | ok base =>
      cases hrc : native_tria.get_reference_cells with
      | nil => simp [hb, hrc] at h
      | cons x xs =>
        cases xs with
        | cons y ys => simp [hb, hrc] at h
        | nil =>
          cases hsel : select_quadrature_family dim self x with
          | error v => simp [hb, hrc, hsel] at h
          | ok family =>
            simp [Assert, hsel, select_quadrature_family_in_of_ok Build.release dim self x []
              family hsel]

theorem reinit_in_release_ne_reference_cells_size (c : Collaborators) (dim : Nat)
    (self : ElementalInteraction) (native_tria : Triangulation)
    (active_cell_bboxes : List BoundingBox) (active_cell_lengths : List Rat)
    (patch_hierarchy : PatchHierarchy) (level_number : Int) (fuel : Nat) :
    reinit_in Build.release c dim self native_tria active_cell_bboxes active_cell_lengths
      patch_hierarchy level_number fuel ≠ Result.error Violation.reference_cells_size := by
  intro heq
  unfold reinit_in at heq
  split at heq
  · cases heq
  · simp only [Assert] at heq
    split at heq
    · rename_i v hv
      rcases select_quadrature_family_in_release_error dim self _ v hv with h | h <;>
        (rw [h] at heq; cases heq)
    · split at heq
      · rename_i v hv
        have := compute_quadrature_indices_error c _ _ _ v _ hv
        rw [this] at heq
        cases heq
      · split at heq
        · cases heq
        · cases heq

/-! ## The reference-cell check and the choice of the quadrature family -/

/-- C9 fails in a release build, where `Assert` expands to nothing: on an
engine that holds a quadrature family `reinit` returns for a mesh of a
quadrilateral and a triangle, which has two reference-cell types, and for a
mesh without active cells, which has none; on a newly constructed engine it
returns for the mesh of a quadrilateral and a triangle with the cells in
either order. -/
theorem release_build_accepts_mixed_and_empty_mesh :
    (Triangulation.get_reference_cells { active_cells := [.Quadrilateral, .Triangle] }).length
      = 2 ∧
    (∃ e, reinit_in .release sample_collaborators 2 sample_engine
        { active_cells := [.Quadrilateral, .Triangle] } [] [2, 1] sample_hierarchy 0 257
      = Result.ok e) ∧
    Triangulation.n_active_cells { active_cells := [] } = 0 ∧
    (Triangulation.get_reference_cells { active_cells := [] }).length = 0 ∧
    (∃ e, reinit_in .release sample_collaborators 2 sample_engine
        { active_cells := [] } [] [] sample_hierarchy 0 257
      = Result.ok e) ∧
    (∃ e, reinit_in .release sample_collaborators 2
        (ElementalInteraction.new 2 2 { value := 0 })
        { active_cells := [.Quadrilateral, .Triangle] } [] [2, 1] sample_hierarchy 0 257
      = Result.ok e) ∧
    (∃ e, reinit_in .release sample_collaborators 2
        (ElementalInteraction.new 2 2 { value := 0 })
        { active_cells := [.Triangle, .Quadrilateral] } [] [2, 1] sample_hierarchy 0 257
      = Result.ok e) :=
  ⟨by decide, ⟨_, rfl⟩, by decide, by decide, ⟨_, rfl⟩, ⟨_, rfl⟩, ⟨_, rfl⟩⟩

/-- C9, amended: in a debug build `reinit` fails whenever the mesh does not
have exactly one reference-cell type, with the violation of the size check
once `InteractionBase::reinit` has returned; a mesh with two active cells of
different types has at least two types and a mesh without active cells has
none; in either build `reinit` does not end with the violation of the size
check for a mesh with exactly one type; in a release build `reinit` never
ends with the violation of the size check, whatever the mesh. -/
theorem reinit_checks_reference_cells_in_debug_build (build : Build) (c : Collaborators)
    (dim : Nat) (self : ElementalInteraction) (native_tria : Triangulation)
    (active_cell_bboxes : List BoundingBox) (active_cell_lengths : List Rat)
    (patch_hierarchy : PatchHierarchy) (level_number : Int) (fuel : Nat) :
    (build = Build.debug → native_tria.get_reference_cells.length ≠ 1 →
      (∃ v, reinit_in build c dim self native_tria active_cell_bboxes active_cell_lengths
        patch_hierarchy level_number fuel = Result.error v) ∧
      ∀ base, c.base_reinit self.base native_tria active_cell_bboxes active_cell_lengths
          patch_hierarchy level_number = Except.ok base →
        reinit_in build c dim self native_tria active_cell_bboxes active_cell_lengths
          patch_hierarchy level_number fuel = Result.error Violation.reference_cells_size) ∧
    ((∃ a ∈ native_tria.active_cells, ∃ b ∈ native_tria.active_cells, a ≠ b) →
      2 ≤ native_tria.get_reference_cells.length) ∧
    (native_tria.n_active_cells = 0 → native_tria.get_reference_cells.length = 0) ∧
    (native_tria.get_reference_cells.length = 1 →
      reinit_in build c dim self native_tria active_cell_bboxes active_cell_lengths
        patch_hierarchy level_number fuel ≠ Result.error Violation.reference_cells_size) ∧
    (build = Build.release →
      reinit_in build c dim self native_tria active_cell_bboxes active_cell_lengths
        patch_hierarchy level_number fuel ≠ Result.error Violation.reference_cells_size) := by
  refine ⟨?_, ?_, ?_, ?_, ?_⟩
  · rintro rfl hlen
    rw [reinit_in_debug]
    have key : ∀ base, c.base_reinit self.base native_tria active_cell_bboxes
        active_cell_lengths patch_hierarchy level_number = Except.ok base →
        reinit c dim self native_tria active_cell_bboxes active_cell_lengths
          patch_hierarchy level_number fuel = Result.error Violation.reference_cells_size := by
      intro base hb
      cases hrc : native_tria.get_reference_cells with
      | nil => simp [reinit, hb, hrc]
      | cons x xs =>
        cases xs with
        | nil => simp [hrc] at hlen
        | cons y ys => simp [reinit, hb, hrc]
    refine ⟨?_, key⟩
    cases hb : c.base_reinit self.base native_tria active_cell_bboxes active_cell_lengths
        patch_hierarchy level_number with
    | error e => exact ⟨Violation.base_reinit e, by simp [reinit, hb]⟩
    | ok base => exact ⟨_, key base hb⟩
  · rintro ⟨a, ha, b, hb, hab⟩
    have ha' : a ∈ native_tria.get_reference_cells := List.mem_dedup.2 ha
    have hb' : b ∈ native_tria.get_reference_cells := List.mem_dedup.2 hb
    cases hrc : native_tria.get_reference_cells with
    | nil => simp [hrc] at ha'
    | cons x xs =>
      cases xs with
      | nil =>
        rw [hrc] at ha' hb'
        simp at ha' hb'
        exact absurd (ha'.trans hb'.symm) hab
      | cons y ys => simp
  · intro h0
    have : native_tria.active_cells = [] := List.length_eq_zero.1 h0
    simp [Triangulation.get_reference_cells, this]
  · intro hlen
    cases build with
    | release => exact reinit_in_release_ne_reference_cells_size _ _ _ _ _ _ _ _ _
    | debug =>
      rw [reinit_in_debug]
      intro heq
      obtain ⟨front, hfront⟩ := List.length_eq_one.1 hlen
      unfold reinit at heq
      split at heq
      · cases heq
      · rw [hfront] at heq
        simp only at heq
        split at heq
        · rename_i v hv
          have := select_quadrature_family_error dim self front v hv
          rw [this] at heq
          cases heq
        · split at heq
          · rename_i v hv
            have := compute_quadrature_indices_error c _ _ _ v _ hv
            rw [this] at heq
            cases heq
          · split at heq
            · cases heq
            · cases heq
  · rintro rfl
    exact reinit_in_release_ne_reference_cells_size _ _ _ _ _ _ _ _ _

/-- The amended C9 in a debug build at a mesh of a quadrilateral and a
triangle, at a mesh without cells, and at a mesh of one quadrilateral; and in
a release build at the mesh of a quadrilateral and a triangle. -/
theorem reinit_checks_reference_cells_in_debug_build_witness :
    reinit_in .debug sample_collaborators 2 sample_engine
        { active_cells := [.Quadrilateral, .Triangle] } [] [2, 1] sample_hierarchy 0 257
      = Result.error Violation.reference_cells_size ∧
    reinit_in .debug sample_collaborators 2 sample_engine { active_cells := [] }
        [] [] sample_hierarchy 0 257
      = Result.error Violation.reference_cells_size ∧
    reinit_in .debug sample_collaborators 2 sample_engine { active_cells := [.Quadrilateral] }
        [] [2] sample_hierarchy 0 257
      ≠ Result.error Violation.reference_cells_size ∧
    reinit_in .release sample_collaborators 2 sample_engine
        { active_cells := [.Quadrilateral, .Triangle] } [] [2, 1] sample_hierarchy 0 257
      ≠ Result.error Violation.reference_cells_size :=
  ⟨((reinit_checks_reference_cells_in_debug_build .debug sample_collaborators 2 sample_engine
        { active_cells := [.Quadrilateral, .Triangle] } [] [2, 1] sample_hierarchy 0 257).1
        rfl (by decide)).2 _ rfl,
    ((reinit_checks_reference_cells_in_debug_build .debug sample_collaborators 2 sample_engine
        { active_cells := [] } [] [] sample_hierarchy 0 257).1 rfl (by decide)).2 _ rfl,
    (reinit_checks_reference_cells_in_debug_build .debug sample_collaborators 2 sample_engine
        { active_cells := [.Quadrilateral] } [] [2] sample_hierarchy 0 257).2.2.2.1
        (by decide),
    (reinit_checks_reference_cells_in_debug_build .release sample_collaborators 2
        sample_engine { active_cells := [.Quadrilateral, .Triangle] } [] [2, 1]
        sample_hierarchy 0 257).2.2.2.2 rfl⟩

theorem fill_quadratures_some_inv (c : Collaborators) (family : QuadratureFamily)
    (max_quadrature_index : Nat) :
    ∀ (fuel i : Nat) (acc quadratures : List Quadrature), i < 256 →
      fill_quadratures c family max_quadrature_index fuel i acc = some quadratures →
      max_quadrature_index < 255 ∧
        quadratures = acc ++
          (List.range' i (max_quadrature_index + 1 - i)).map (c.get_rule family) := by
  intro fuel
  induction fuel with
  | zero =>
    intro i acc quadratures _ h
    simp [fill_quadratures] at h
  | succ fuel ih =>
    intro i acc quadratures hi h
    by_cases hle : i ≤ max_quadrature_index
    · rw [fill_quadratures, if_pos hle] at h
      obtain ⟨hmax, hq⟩ := ih ((i + 1) % 256) _ _ (Nat.mod_lt _ (by decide)) h
      refine ⟨hmax, ?_⟩
      have hmod : (i + 1) % 256 = i + 1 := Nat.mod_eq_of_lt (by omega)
      have hlen : max_quadrature_index + 1 - i = (max_quadrature_index + 1 - (i + 1)) + 1 := by
        omega
      rw [hq, hmod, hlen, List.range'_succ]
      simp
    · rw [fill_quadratures, if_neg hle] at h
      have hz : max_quadrature_index + 1 - i = 0 := by omega
      refine ⟨by omega, ?_⟩
      simp only [Option.some.injEq] at h
      simp [hz, h]

theorem compute_quadrature_indices_ok_inv (c : Collaborators) (family : QuadratureFamily)
    (h : Rat) (active_cell_lengths : List Rat) :
    ∀ (cells quadrature_indices : List Nat),
      compute_quadrature_indices c family h active_cell_lengths cells
        = Result.ok quadrature_indices →
      (∀ idx ∈ cells, idx < active_cell_lengths.length) ∧
        quadrature_indices = cells.map fun idx =>
          c.get_index family h (active_cell_lengths.getD idx 0) % 256 := by
  intro cells
  induction cells with
  | nil =>
    intro quadrature_indices he
    simp [compute_quadrature_indices] at he
    simp [he]
  | cons idx cells ih =>
    intro quadrature_indices he
    unfold compute_quadrature_indices at he
    split at he
    · cases he
    · rename_i l hl
      split at he
      · cases he
      · rename_i rest hrest
        obtain ⟨hr, hq⟩ := ih rest hrest
        have hidx : idx < active_cell_lengths.length := by
          rcases Nat.lt_or_ge idx active_cell_lengths.length with h1 | h1
          · exact h1
          · rw [List.getElem?_eq_none h1] at hl
            cases hl
        cases he
        refine ⟨?_, ?_⟩
        · intro j hj
          rcases List.mem_cons.1 hj with rfl | hj
          · exact hidx
          · exact hr j hj
        · simp [hq, List.getD_eq_getElem?_getD, hl]

theorem reinit_ok_inv (c : Collaborators) (dim : Nat) (self : ElementalInteraction)
    (native_tria : Triangulation) (active_cell_bboxes : List BoundingBox)
    (active_cell_lengths : List Rat) (patch_hierarchy : PatchHierarchy) (level_number : Int)
    (fuel : Nat) (e : ElementalInteraction)
    (h : reinit c dim self native_tria active_cell_bboxes active_cell_lengths patch_hierarchy
      level_number fuel = Result.ok e) :
    ∃ base front family,
      c.base_reinit self.base native_tria active_cell_bboxes active_cell_lengths
        patch_hierarchy level_number = Except.ok base ∧
      native_tria.get_reference_cells = [front] ∧
      select_quadrature_family dim self front = Result.ok family ∧
      (∀ idx ∈ base.overlap_tria.native_active_cell_index,
        idx < active_cell_lengths.length) ∧
      e.quadrature_indices = (base.overlap_tria.native_active_cell_index.map fun idx =>
        c.get_index family (eulerian_length (patch_hierarchy.getPatchLevel level_number))
          (active_cell_lengths.getD idx 0) % 256) ∧
      (if e.quadrature_indices.length > 0 then max_element e.quadrature_indices else 0) < 255 ∧
      e.quadratures =
        (List.range' 0
          ((if e.quadrature_indices.length > 0 then max_element e.quadrature_indices else 0)
            + 1)).map (c.get_rule family) ∧
      e.base = base ∧ e.quadrature_family = some family ∧
      e.min_n_points_1D = self.min_n_points_1D ∧ e.point_density = self.point_density ∧
      e.density_kind = self.density_kind := by
  unfold reinit at h
  split at h
  · cases h
  · rename_i base hbase
    split at h
    · rename_i front hfront
      split at h
      · cases h
      · rename_i family hfamily
        simp only at h
        split at h
        · cases h
        · rename_i quadrature_indices hqi
          split at h
          · cases h
          · rename_i quadratures hfill
            obtain ⟨hrange, hmap⟩ := compute_quadrature_indices_ok_inv c family _ _ _ _ hqi
            obtain ⟨hmax, hqs⟩ := fill_quadratures_some_inv c family _ fuel 0 []
              quadratures (by decide) hfill
            cases h
            exact ⟨base, front, family, hbase, hfront, hfamily, hrange, hmap, hmax,
              by simpa using hqs, rfl, rfl, rfl, rfl, rfl⟩
    · cases h

theorem foldl_max_ge_init : ∀ (xs : List Nat) (x : Nat), x ≤ xs.foldl max x := by
  intro xs
  induction xs with
  | nil => intro x; simp
  | cons y ys ih => intro x; exact le_trans (le_max_left x y) (ih (max x y))

theorem foldl_max_ge_mem : ∀ (xs : List Nat) (x y : Nat), y ∈ xs → y ≤ xs.foldl max x := by
  intro xs
  induction xs with
  | nil => intro x y hy; cases hy
  | cons z zs ih =>
    intro x y hy
    rcases List.mem_cons.1 hy with rfl | hy
    · exact le_trans (le_max_right x y) (foldl_max_ge_init zs (max x y))
    · exact ih (max x z) y hy

theorem foldl_max_mem : ∀ (xs : List Nat) (x : Nat),
    xs.foldl max x = x ∨ xs.foldl max x ∈ xs := by
  intro xs
  induction xs with
  | nil => intro x; simp
  | cons y ys ih =>
    intro x
    rcases ih (max x y) with h | h
    · rcases le_total x y with hxy | hxy
      · right
        rw [max_eq_right hxy] at h
        simp [List.foldl_cons, max_eq_right hxy, h]
      · left
        rw [max_eq_left hxy] at h
        simp [List.foldl_cons, max_eq_left hxy, h]
    · right
      simp [List.foldl_cons, h]

theorem le_max_element (xs : List Nat) (q : Nat) (hq : q ∈ xs) : q ≤ max_element xs := by
  cases xs with
  | nil => cases hq
  | cons x xs =>
    rcases List.mem_cons.1 hq with rfl | hq
    · exact foldl_max_ge_init xs q
    · exact foldl_max_ge_mem xs x q hq

theorem max_element_mem (xs : List Nat) (h : xs ≠ []) : max_element xs ∈ xs := by
  cases xs with
  | nil => exact absurd rfl h
  | cons x xs =>
    rcases foldl_max_mem xs x with h1 | h1
    · simp [max_element, h1]
    · simp [max_element, h1]

theorem max_quadrature_index_eq (xs : List Nat) :
    (if xs.length > 0 then max_element xs else 0) = max_element xs := by
  cases xs <;> simp [max_element]

theorem reinit_keeps_family (c : Collaborators) (dim : Nat) (self : ElementalInteraction)
    (native_tria : Triangulation) (active_cell_bboxes : List BoundingBox)
    (active_cell_lengths : List Rat) (patch_hierarchy : PatchHierarchy) (level_number : Int)
    (fuel : Nat) (e : ElementalInteraction) (family : QuadratureFamily)
    (h : reinit c dim self native_tria active_cell_bboxes active_cell_lengths patch_hierarchy
      level_number fuel = Result.ok e)
    (hf : self.quadrature_family = some family) :
    e.quadrature_family = some family := by
  obtain ⟨base, front, family', -, -, hsel, -, -, -, -, -, hfam, -⟩ :=
    reinit_ok_inv c dim self native_tria active_cell_bboxes active_cell_lengths patch_hierarchy
      level_number fuel e h
  simp [select_quadrature_family, hf] at hsel
  rw [hfam, hsel]

theorem reinit_sets_family (c : Collaborators) (dim : Nat) (self : ElementalInteraction)
    (native_tria : Triangulation) (active_cell_bboxes : List BoundingBox)
    (active_cell_lengths : List Rat) (patch_hierarchy : PatchHierarchy) (level_number : Int)
    (fuel : Nat) (e : ElementalInteraction)
    (h : reinit c dim self native_tria active_cell_bboxes active_cell_lengths patch_hierarchy
      level_number fuel = Result.ok e) :
    ∃ family, e.quadrature_family = some family := by
  obtain ⟨base, front, family', -, -, -, -, -, -, -, -, hfam, -⟩ :=
    reinit_ok_inv c dim self native_tria active_cell_bboxes active_cell_lengths patch_hierarchy
      level_number fuel e h
  exact ⟨family', hfam⟩

/-! ## The quadrature family and the tables after `reinit` -/

/-- C11: a `reinit` that returns on an engine that has a quadrature family
leaves that family; so after a first successful `reinit` the engine has a
family, and after every further sequence of successful `reinit` calls,
whatever the meshes, the family is still that one and every index denotes
the rule it denoted. -/
theorem quadrature_family_selected_once (c : Collaborators) (dim : Nat) :
    (∀ (a : ReinitArgs) (self e : ElementalInteraction) (family : QuadratureFamily),
      reinit c dim self a.native_tria a.active_cell_bboxes a.active_cell_lengths
        a.patch_hierarchy a.level_number a.fuel = Result.ok e →
      self.quadrature_family = some family → e.quadrature_family = some family) ∧
    (∀ (a : ReinitArgs) (rest : List ReinitArgs) (self e1 e : ElementalInteraction),
      reinit c dim self a.native_tria a.active_cell_bboxes a.active_cell_lengths
        a.patch_hierarchy a.level_number a.fuel = Result.ok e1 →
      reinit_sequence c dim rest e1 = Result.ok e →
      ∃ family, e1.quadrature_family = some family ∧ e.quadrature_family = some family ∧
        ∀ i, (e.quadrature_family.map fun f => c.get_rule f i) = some (c.get_rule family i)) := by
  have step : ∀ (a : ReinitArgs) (self e : ElementalInteraction) (family : QuadratureFamily),
      reinit c dim self a.native_tria a.active_cell_bboxes a.active_cell_lengths
        a.patch_hierarchy a.level_number a.fuel = Result.ok e →
      self.quadrature_family = some family → e.quadrature_family = some family :=
    fun a self e family h hf => reinit_keeps_family c dim self _ _ _ _ _ _ e family h hf
  have seq : ∀ (rest : List ReinitArgs) (e1 e : ElementalInteraction)
      (family : QuadratureFamily), e1.quadrature_family = some family →
      reinit_sequence c dim rest e1 = Result.ok e → e.quadrature_family = some family := by
    intro rest
    induction rest with
    | nil =>
      intro e1 e family hf h
      simp [reinit_sequence] at h
      rw [← h, hf]
    | cons a rest ih =>
      intro e1 e family hf h
      unfold reinit_sequence at h
      split at h
      · cases h
      · rename_i e2 h2
        exact ih e2 e family (step a e1 e2 family h2 hf) h
  refine ⟨step, ?_⟩
  intro a rest self e1 e h1 h
  obtain ⟨family, hfam⟩ := reinit_sets_family c dim self _ _ _ _ _ _ e1 h1
  have he := seq rest e1 e family hfam h
  exact ⟨family, hfam, he, fun i => by simp [he]⟩

/-- C11 at a newly constructed engine in two dimensions: a first `reinit` on a
mesh of quadrilaterals, then one on a mesh of triangles and again one on the
quadrilaterals; the family is the Gauss family throughout. -/
theorem quadrature_family_selected_once_witness :
    reinit sample_collaborators 2 (ElementalInteraction.new 2 2 { value := 0 })
        sample_reinit_quadrilaterals.native_tria
        sample_reinit_quadrilaterals.active_cell_bboxes
        sample_reinit_quadrilaterals.active_cell_lengths
        sample_reinit_quadrilaterals.patch_hierarchy
        sample_reinit_quadrilaterals.level_number
        sample_reinit_quadrilaterals.fuel = Result.ok sample_engine_quadrilaterals ∧
    (∃ e, reinit_sequence sample_collaborators 2
          [sample_reinit_triangles, sample_reinit_quadrilaterals]
          sample_engine_quadrilaterals = Result.ok e ∧
      ∃ family, sample_engine_quadrilaterals.quadrature_family = some family ∧
        e.quadrature_family = some family ∧
        ∀ i, (e.quadrature_family.map fun f => sample_collaborators.get_rule f i)
          = some (sample_collaborators.get_rule family i)) :=
  ⟨rfl, _, rfl,
    (quadrature_family_selected_once sample_collaborators 2).2 sample_reinit_quadrilaterals
      [sample_reinit_triangles, sample_reinit_quadrilaterals]
      (ElementalInteraction.new 2 2 { value := 0 }) sample_engine_quadrilaterals _ rfl rfl⟩

theorem reinit_fuel_independent (c : Collaborators) (dim : Nat) (self : ElementalInteraction)
    (native_tria : Triangulation) (active_cell_bboxes : List BoundingBox)
    (active_cell_lengths : List Rat) (patch_hierarchy : PatchHierarchy) (level_number : Int)
    (fuel : Nat) (e : ElementalInteraction)
    (h : reinit c dim self native_tria active_cell_bboxes active_cell_lengths patch_hierarchy
      level_number fuel = Result.ok e)
    (fuel' : Nat) (hfuel : 257 ≤ fuel') :
    reinit c dim self native_tria active_cell_bboxes active_cell_lengths patch_hierarchy
      level_number fuel' = Result.ok e := by
  obtain ⟨base, front, family, hbase, hfront, hsel, hrange, hqi, hmax, hqs, hb, hfam, h1, h2,
    h3⟩ := reinit_ok_inv c dim self native_tria active_cell_bboxes active_cell_lengths
      patch_hierarchy level_number fuel e h
  have h255 : ∀ q ∈ e.quadrature_indices, q ≠ 255 := by
    intro q hq
    have := le_max_element _ q hq
    rw [max_quadrature_index_eq] at hmax
    omega
  rw [reinit_eq_ok c dim self native_tria active_cell_bboxes active_cell_lengths
    patch_hierarchy level_number fuel' front base family e.quadrature_indices hbase hfront hsel
    hrange hqi h255 hfuel]
  cases e
  simp only at hb hfam h1 h2 h3 hqs
  simp [hb, hfam, h1, h2, h3, hqs]

/-- C12: when `reinit` returns, `quadrature_indices` has one entry per active
cell of the overlap mesh of the returned engine, in iteration order; the
entry at position `k` is the value of `get_index` on the grid spacing and on
the length stored for the native cell of the `k`-th overlap cell, as an
`unsigned char`, which is that value itself when `get_index` returns no more
than 255; the table does not depend on the tables the engine held before; and
the result is the same for every loop bound of at least 257. -/
theorem quadrature_indices_after_reinit (c : Collaborators) (dim : Nat)
    (self : ElementalInteraction) (native_tria : Triangulation)
    (active_cell_bboxes : List BoundingBox) (active_cell_lengths : List Rat)
    (patch_hierarchy : PatchHierarchy) (level_number : Int) (fuel : Nat)
    (e : ElementalInteraction)
    (h : reinit c dim self native_tria active_cell_bboxes active_cell_lengths patch_hierarchy
      level_number fuel = Result.ok e) :
    e.quadrature_indices.length = e.base.overlap_tria.native_active_cell_index.length ∧
    (∃ family, e.quadrature_family = some family ∧
      ∀ k native_index : Nat,
        e.base.overlap_tria.native_active_cell_index[k]? = some native_index →
        ∃ lagrangian_length, active_cell_lengths[native_index]? = some lagrangian_length ∧
          e.quadrature_indices[k]? = some
            (c.get_index family (eulerian_length (patch_hierarchy.getPatchLevel level_number))
              lagrangian_length % 256) ∧
          (c.get_index family (eulerian_length (patch_hierarchy.getPatchLevel level_number))
              lagrangian_length < 256 →
            e.quadrature_indices[k]? = some
              (c.get_index family (eulerian_length (patch_hierarchy.getPatchLevel level_number))
                lagrangian_length))) ∧
    (∀ (old_indices : List Nat) (old_quadratures : List Quadrature),
      reinit c dim
        { self with quadrature_indices := old_indices, quadratures := old_quadratures }
        native_tria active_cell_bboxes active_cell_lengths patch_hierarchy level_number fuel
        = Result.ok e) ∧
    (∀ fuel', 257 ≤ fuel' →
      reinit c dim self native_tria active_cell_bboxes active_cell_lengths patch_hierarchy
        level_number fuel' = Result.ok e) := by
  obtain ⟨base, front, family, hbase, hfront, hsel, hrange, hqi, hmax, hqs, hb, hfam, h1, h2,
    h3⟩ := reinit_ok_inv c dim self native_tria active_cell_bboxes active_cell_lengths
      patch_hierarchy level_number fuel e h
  refine ⟨by rw [hqi, hb]; simp, ⟨family, hfam, ?_⟩, ?_,
    reinit_fuel_independent c dim self native_tria active_cell_bboxes active_cell_lengths
      patch_hierarchy level_number fuel e h⟩
  · intro k native_index hk
    rw [hb] at hk
    have hmem : native_index ∈ base.overlap_tria.native_active_cell_index :=
      List.getElem?_mem hk
    have hlt := hrange native_index hmem
    refine ⟨active_cell_lengths[native_index], List.getElem?_eq_getElem hlt, ?_, ?_⟩
    · rw [hqi, List.getElem?_map, hk]
      simp [List.getD_eq_getElem?_getD, List.getElem?_eq_getElem hlt]
    · intro h256
      rw [hqi, List.getElem?_map, hk]
      simp [List.getD_eq_getElem?_getD, List.getElem?_eq_getElem hlt, Nat.mod_eq_of_lt h256]
  · intro old_indices old_quadratures
    rw [← h]
    simp [reinit, select_quadrature_family]

/-- C12 at the sample engine, which holds the table [1, 0], and a mesh of
three triangles with lengths 1, 3, 1 on a grid of spacing 1: the new table is
[0, 1, 0]. -/
theorem quadrature_indices_after_reinit_witness :
    ∃ e, reinit sample_collaborators 2 sample_engine_quadrilaterals
        sample_reinit_triangles.native_tria sample_reinit_triangles.active_cell_bboxes
        sample_reinit_triangles.active_cell_lengths sample_reinit_triangles.patch_hierarchy
        sample_reinit_triangles.level_number sample_reinit_triangles.fuel = Result.ok e ∧
      e.quadrature_indices = [0, 1, 0] ∧
      e.quadrature_indices.length = e.base.overlap_tria.native_active_cell_index.length :=
  ⟨_, rfl, by decide,
    (quadrature_indices_after_reinit sample_collaborators 2 sample_engine_quadrilaterals
      sample_reinit_triangles.native_tria sample_reinit_triangles.active_cell_bboxes
      sample_reinit_triangles.active_cell_lengths sample_reinit_triangles.patch_hierarchy
      sample_reinit_triangles.level_number sample_reinit_triangles.fuel _ rfl).1⟩

/-- C13: when `reinit` returns, every entry of `quadrature_indices` is smaller
than the number of rules in `quadratures`, so the lookup of the rule of a
cell finds an entry; and the result is the same for every loop bound of at
least 257. -/
theorem quadrature_indices_in_range_after_reinit (c : Collaborators) (dim : Nat)
    (self : ElementalInteraction) (native_tria : Triangulation)
    (active_cell_bboxes : List BoundingBox) (active_cell_lengths : List Rat)
    (patch_hierarchy : PatchHierarchy) (level_number : Int) (fuel : Nat)
    (e : ElementalInteraction)
    (h : reinit c dim self native_tria active_cell_bboxes active_cell_lengths patch_hierarchy
      level_number fuel = Result.ok e) :
    (∀ q ∈ e.quadrature_indices, q < e.quadratures.length) ∧
    (∀ q ∈ e.quadrature_indices, ∃ rule, e.quadratures[q]? = some rule) ∧
    (∀ fuel', 257 ≤ fuel' →
      reinit c dim self native_tria active_cell_bboxes active_cell_lengths patch_hierarchy
        level_number fuel' = Result.ok e) := by
  obtain ⟨base, front, family, -, -, -, -, -, -, hqs, -⟩ :=
    reinit_ok_inv c dim self native_tria active_cell_bboxes active_cell_lengths
      patch_hierarchy level_number fuel e h
  have hlt : ∀ q ∈ e.quadrature_indices, q < e.quadratures.length := by
    intro q hq
    have hle := le_max_element _ q hq
    rw [hqs, max_quadrature_index_eq]
    simp
    omega
  refine ⟨hlt, ?_,
    reinit_fuel_independent c dim self native_tria active_cell_bboxes active_cell_lengths
      patch_hierarchy level_number fuel e h⟩
  intro q hq
  exact ⟨_, List.getElem?_eq_getElem (hlt q hq)⟩

/-- C13 at the sample engine and the mesh of three triangles: `reinit`
returns, and the entries 0, 1, 0 of the table are below the two rules
stored. -/
theorem quadrature_indices_in_range_after_reinit_witness :
    ∃ e, reinit sample_collaborators 2 sample_engine_quadrilaterals
        sample_reinit_triangles.native_tria sample_reinit_triangles.active_cell_bboxes
        sample_reinit_triangles.active_cell_lengths sample_reinit_triangles.patch_hierarchy
        sample_reinit_triangles.level_number sample_reinit_triangles.fuel = Result.ok e ∧
      e.quadratures.length = 2 ∧
      ∀ q ∈ e.quadrature_indices, q < e.quadratures.length :=
  ⟨_, rfl, by decide,
    (quadrature_indices_in_range_after_reinit sample_collaborators 2
      sample_engine_quadrilaterals
      sample_reinit_triangles.native_tria sample_reinit_triangles.active_cell_bboxes
      sample_reinit_triangles.active_cell_lengths sample_reinit_triangles.patch_hierarchy
      sample_reinit_triangles.level_number sample_reinit_triangles.fuel _ rfl).1⟩

/-- C14: when `reinit` returns, `quadratures` is the list of the rules 0, 1,
..., `m` of the engine's family, where `m` is an entry of `quadrature_indices`
that no entry exceeds, or 0 when the overlap mesh has no active cell: it has
`m + 1` entries, one per index and none per cell, the entry at position `i`
is the family's rule `i`, and it is not empty; and the result is the same for
every loop bound of at least 257. -/
theorem quadratures_after_reinit (c : Collaborators) (dim : Nat)
    (self : ElementalInteraction) (native_tria : Triangulation)
    (active_cell_bboxes : List BoundingBox) (active_cell_lengths : List Rat)
    (patch_hierarchy : PatchHierarchy) (level_number : Int) (fuel : Nat)
    (e : ElementalInteraction)
    (h : reinit c dim self native_tria active_cell_bboxes active_cell_lengths patch_hierarchy
      level_number fuel = Result.ok e) :
    (∃ family m, e.quadrature_family = some family ∧
      (∀ q ∈ e.quadrature_indices, q ≤ m) ∧
      (e.quadrature_indices ≠ [] → m ∈ e.quadrature_indices) ∧
      (e.base.overlap_tria.native_active_cell_index = [] → m = 0) ∧
      e.quadratures = (List.range (m + 1)).map (c.get_rule family) ∧
      e.quadratures.length = m + 1 ∧
      (∀ i, i ≤ m → e.quadratures[i]? = some (c.get_rule family i)) ∧
      e.quadratures ≠ []) ∧
    (∀ fuel', 257 ≤ fuel' →
      reinit c dim self native_tria active_cell_bboxes active_cell_lengths patch_hierarchy
        level_number fuel' = Result.ok e) := by
  obtain ⟨base, front, family, -, -, -, -, hqi, -, hqs, hb, hfam, -⟩ :=
    reinit_ok_inv c dim self native_tria active_cell_bboxes active_cell_lengths
      patch_hierarchy level_number fuel e h
  rw [max_quadrature_index_eq] at hqs
  have hlist : e.quadratures
      = (List.range (max_element e.quadrature_indices + 1)).map (c.get_rule family) := by
    rw [hqs, List.range_eq_range']
  refine ⟨⟨family, max_element e.quadrature_indices, hfam, le_max_element _,
    max_element_mem _, ?_, hlist, by rw [hlist]; simp, ?_, ?_⟩,
    reinit_fuel_independent c dim self native_tria active_cell_bboxes active_cell_lengths
      patch_hierarchy level_number fuel e h⟩
  · intro hnil
    rw [hb] at hnil
    rw [hqi, hnil]
    rfl
  · intro i hi
    rw [hlist, List.getElem?_map, List.getElem?_range (by omega)]
    rfl
  · intro hnil
    have := congrArg List.length hnil
    rw [hlist] at this
    simp at this

/-- C14 at the sample engine and the mesh of three triangles, whose table is
[0, 1, 0]: `quadratures` holds the rules 0 and 1 of the family. -/
theorem quadratures_after_reinit_witness :
    ∃ e, reinit sample_collaborators 2 sample_engine_quadrilaterals
        sample_reinit_triangles.native_tria sample_reinit_triangles.active_cell_bboxes
        sample_reinit_triangles.active_cell_lengths sample_reinit_triangles.patch_hierarchy
        sample_reinit_triangles.level_number sample_reinit_triangles.fuel = Result.ok e ∧
      e.quadratures = [sample_collaborators.get_rule (.QGaussFamily 2 2) 0,
        sample_collaborators.get_rule (.QGaussFamily 2 2) 1] ∧
      ∃ family m, e.quadrature_family = some family ∧
        (∀ q ∈ e.quadrature_indices, q ≤ m) ∧
        (e.quadrature_indices ≠ [] → m ∈ e.quadrature_indices) ∧
        (e.base.overlap_tria.native_active_cell_index = [] → m = 0) ∧
        e.quadratures = (List.range (m + 1)).map (sample_collaborators.get_rule family) ∧
        e.quadratures.length = m + 1 ∧
        (∀ i, i ≤ m → e.quadratures[i]? = some (sample_collaborators.get_rule family i)) ∧
        e.quadratures ≠ [] :=
  ⟨_, rfl, by decide,
    (quadratures_after_reinit sample_collaborators 2 sample_engine_quadrilaterals
      sample_reinit_triangles.native_tria sample_reinit_triangles.active_cell_bboxes
      sample_reinit_triangles.active_cell_lengths sample_reinit_triangles.patch_hierarchy
      sample_reinit_triangles.level_number sample_reinit_triangles.fuel _ rfl).1⟩

/-! ## The grid spacing -/

theorem foldl_min_le_init : ∀ (xs : List Rat) (x : Rat), xs.foldl min x ≤ x := by
  intro xs
  induction xs with
  | nil => intro x; simp
  | cons y ys ih => intro x; exact le_trans (ih (min x y)) (min_le_left x y)

theorem foldl_min_le_mem : ∀ (xs : List Rat) (x y : Rat), y ∈ xs → xs.foldl min x ≤ y := by
  intro xs
  induction xs with
  | nil => intro x y hy; cases hy
  | cons z zs ih =>
    intro x y hy
    rcases List.mem_cons.1 hy with rfl | hy
    · exact le_trans (foldl_min_le_init zs (min x y)) (min_le_right x y)
    · exact ih (min x z) y hy

theorem foldl_min_mem : ∀ (xs : List Rat) (x : Rat),
    xs.foldl min x = x ∨ xs.foldl min x ∈ xs := by
  intro xs
  induction xs with
  | nil => intro x; simp
  | cons y ys ih =>
    intro x
    rcases ih (min x y) with h | h
    · rcases le_total x y with hxy | hxy
      · left
        rw [min_eq_left hxy] at h
        simp [List.foldl_cons, min_eq_left hxy, h]
      · right
        rw [min_eq_right hxy] at h
        simp [List.foldl_cons, min_eq_right hxy, h]
    · right
      simp [List.foldl_cons, h]

theorem min_element_mem (dx : List Rat) (h : dx ≠ []) : min_element dx ∈ dx := by
  cases dx with
  | nil => exact absurd rfl h
  | cons x xs =>
    rcases foldl_min_mem xs x with h1 | h1
    · simp [min_element, h1]
    · simp [min_element, h1]

theorem min_element_le (dx : List Rat) (x : Rat) (hx : x ∈ dx) : min_element dx ≤ x := by
  cases dx with
  | nil => cases hx
  | cons y ys =>
    rcases List.mem_cons.1 hx with rfl | hx
    · exact foldl_min_le_init ys x
    · exact foldl_min_le_mem ys y x hx

theorem eulerian_length_le (level : PatchLevel) (patches : List Patch)
    (h : patches ∈ level.local_patches :: level.remote_patches) :
    eulerian_length level ≤ patch_dx_min patches := by
  rcases List.mem_cons.1 h with rfl | h
  · exact foldl_min_le_init _ _
  · exact foldl_min_le_mem _ _ _ (List.mem_map.2 ⟨patches, h, rfl⟩)

theorem eulerian_length_attained (level : PatchLevel) :
    ∃ patches ∈ level.local_patches :: level.remote_patches,
      eulerian_length level = patch_dx_min patches := by
  rcases foldl_min_mem (level.remote_patches.map patch_dx_min)
      (patch_dx_min (extract_patches level)) with h | h
  · exact ⟨level.local_patches, by simp, h⟩
  · obtain ⟨patches, hp, hv⟩ := List.mem_map.1 h
    exact ⟨patches, by simp [hp], hv.symm⟩

/-- C15: the grid spacing of `reinit` is the minimum over the processes of the
communicator of the local value `patch_dx_min`, which is the largest finite
double for a process without patches and the smallest entry of the first
patch's `dx` otherwise; hence, when the `dx` entries are finite doubles and
some process owns a patch, it is the minimum of the local values of the
processes that own patches, and adding a process without patches does not
change it. -/
theorem eulerian_length_is_minimum_over_owners (level : PatchLevel) :
    eulerian_length level
      = MPI_min (patch_dx_min (extract_patches level))
          (level.remote_patches.map patch_dx_min) ∧
    patch_dx_min [] = double_max ∧
    (∀ (patch0 : Patch) (rest : List Patch), patch0.dx ≠ [] →
      patch_dx_min (patch0 :: rest) ∈ patch0.dx ∧
      ∀ x ∈ patch0.dx, patch_dx_min (patch0 :: rest) ≤ x) ∧
    (∀ patches ∈ level.local_patches :: level.remote_patches,
      eulerian_length level ≤ patch_dx_min patches) ∧
    (∃ patches ∈ level.local_patches :: level.remote_patches,
      eulerian_length level = patch_dx_min patches) ∧
    ((∀ patches ∈ level.local_patches :: level.remote_patches,
        ∀ patch0 ∈ patches.head?, patch0.dx ≠ [] ∧ ∀ x ∈ patch0.dx, x ≤ double_max) →
      (∃ patches ∈ level.local_patches :: level.remote_patches, patches ≠ []) →
      (∀ patches ∈ level.local_patches :: level.remote_patches, patches ≠ [] →
        eulerian_length level ≤ patch_dx_min patches) ∧
      (∃ patches ∈ level.local_patches :: level.remote_patches, patches ≠ [] ∧
        eulerian_length level = patch_dx_min patches) ∧
      eulerian_length { level with remote_patches := [] :: level.remote_patches }
        = eulerian_length level) := by
  refine ⟨rfl, rfl, ?_, eulerian_length_le level, eulerian_length_attained level, ?_⟩
  · intro patch0 rest hne
    exact ⟨min_element_mem _ hne, fun x hx => min_element_le _ x hx⟩
  · intro hfinite howner
    have hbound : ∀ patches ∈ level.local_patches :: level.remote_patches,
        patch_dx_min patches ≤ double_max := by
      intro patches hp
      cases patches with
      | nil => exact le_refl _
      | cons patch0 rest =>
        obtain ⟨hne, hle⟩ := hfinite _ hp patch0 (by simp)
        exact hle _ (min_element_mem _ hne)
    refine ⟨fun patches hp _ => eulerian_length_le level patches hp, ?_, ?_⟩
    · obtain ⟨patches, hp, hv⟩ := eulerian_length_attained level
      cases patches with
      | cons patch0 rest => exact ⟨_, hp, by simp, hv⟩
      | nil =>
        obtain ⟨owner, ho, hne⟩ := howner
        refine ⟨owner, ho, hne, le_antisymm (eulerian_length_le level owner ho) ?_⟩
        rw [hv]
        exact hbound owner ho
    · have hlocal := hbound level.local_patches (by simp)
      simp only [eulerian_length, extract_patches, MPI_min, List.map_cons, List.foldl_cons]
      rw [show patch_dx_min [] = double_max from rfl, min_eq_left hlocal]

/-- C15 at a level on which this process and one other own no patch and two
others own patches: the grid spacing is 2, the smallest `dx` entry of the
first patches of the two owners. -/
theorem eulerian_length_is_minimum_over_owners_witness :
    eulerian_length sample_level_without_local_patch = 2 ∧
    (∃ patches ∈ sample_level_without_local_patch.local_patches ::
        sample_level_without_local_patch.remote_patches, patches ≠ [] ∧
      eulerian_length sample_level_without_local_patch = patch_dx_min patches) ∧
    eulerian_length { sample_level_without_local_patch with
        remote_patches := [] :: sample_level_without_local_patch.remote_patches }
      = eulerian_length sample_level_without_local_patch := by
  have h := (eulerian_length_is_minimum_over_owners sample_level_without_local_patch).2.2.2.2.2
    (by decide) (by decide)
  exact ⟨by decide, h.2.1, h.2.2⟩

/-! ## The scatter back of the projection -/

/-- C18: a successful `compute_projection_rhs_intermediate` records, in this
order, the finish of the position scatter, the construction of the position
mapping, the run of the projection kernel, whose result is the `overlap_rhs`
of the returned transaction, the start of the overlap→global scatter with
source that `overlap_rhs`, combine operation the `rhs_scatter_back_op` of the
transaction, whatever its value, channel 0 and target `native_rhs`, and the
assignment of `Finish`; this is the only overlap→global scatter it starts. -/
theorem projection_starts_scatter_back_once (c : Collaborators)
    (self : ElementalInteraction) (w : World) (tr : Transaction)
    (hop : tr.operation = Operation.Interpolation)
    (hs : tr.next_state = State.Intermediate) :
    ∃ self' tr' w',
      compute_projection_rhs_intermediate c self (.transaction tr) w
        = Result.ok (self', .transaction tr', w') ∧
      tr'.overlap_rhs =
        c.compute_projection_rhs
          (projection_args c self tr
            (overlap_position_mapping c self tr.native_position_dof_handler
              tr'.overlap_position))
          w.grid ∧
      tr'.rhs_scatter_back_op = tr.rhs_scatter_back_op ∧
      tr'.native_rhs = tr.native_rhs ∧
      w'.log = w.log ++
        [Event.global_to_overlap_finish tr.position_scatter tr.native_position,
          Event.position_mapping_built
            (overlap_position_mapping c self tr.native_position_dof_handler
              tr'.overlap_position),
          Event.compute_projection_rhs
            (projection_args c self tr
              (overlap_position_mapping c self tr.native_position_dof_handler
                tr'.overlap_position)),
          Event.overlap_to_global_start tr.rhs_scatter tr'.overlap_rhs
            tr.rhs_scatter_back_op 0 tr.native_rhs,
          Event.set_next_state State.Finish] ∧
      scatter_back_starts w'.log = scatter_back_starts w.log + 1 := by
  refine ⟨_, _, _,
    by simp [compute_projection_rhs_intermediate, hop, hs]; exact ⟨rfl, rfl, rfl⟩,
    ?_, ?_, ?_, ?_, ?_⟩
  · rfl
  · rfl
  · rfl
  · simp [World.record]
  · simp [World.record, scatter_back_starts, List.countP_append, Event.is_scatter_back_start]

/-- C18 at the sample interpolation transaction, once with the combine
operation `add` it carries and once with `insert` in its place: the recorded
scatter start carries the operation of the transaction. -/
theorem projection_starts_scatter_back_once_witness :
    (compute_projection_rhs_intermediate sample_collaborators sample_engine
        (.transaction (sample_transaction .Interpolation .Intermediate)) sample_world).log?
      = some
        [Event.global_to_overlap_finish { id := 1 } [0, 0, 1, 0],
          Event.position_mapping_built
            (overlap_position_mapping sample_collaborators sample_engine { id := 1 }
              [0, 0, 1, 0]),
          Event.compute_projection_rhs
            (projection_args sample_collaborators sample_engine
              (sample_transaction .Interpolation .Intermediate)
              (overlap_position_mapping sample_collaborators sample_engine { id := 1 }
                [0, 0, 1, 0])),
          Event.overlap_to_global_start { id := 2 } [0, 0, 1, 0] VectorOperation.add 0 [0, 0],
          Event.set_next_state State.Finish] ∧
    (∃ self' tr' w',
      compute_projection_rhs_intermediate sample_collaborators sample_engine
          (.transaction { sample_transaction .Interpolation .Intermediate with
            rhs_scatter_back_op := VectorOperation.insert }) sample_world
        = Result.ok (self', .transaction tr', w') ∧
      w'.log.dropLast.getLast? = some
        (Event.overlap_to_global_start { id := 2 } tr'.overlap_rhs VectorOperation.insert 0
          [0, 0])) := by
  obtain ⟨_, _, _, h1, -, -, -, -, -⟩ :=
    projection_starts_scatter_back_once sample_collaborators sample_engine sample_world
      (sample_transaction .Interpolation .Intermediate) (by decide) (by decide)
  obtain ⟨_, _, _, h2, -, -, -, hlog, -⟩ :=
    projection_starts_scatter_back_once sample_collaborators sample_engine sample_world
      { sample_transaction .Interpolation .Intermediate with
        rhs_scatter_back_op := VectorOperation.insert } (by decide) (by decide)
  refine ⟨by decide, _, _, _, h2, ?_⟩
  rw [hlog]
  simp [sample_world, sample_transaction]

/-! ## The pipelined order of the phases -/

theorem for_parts_start (operation : Operation) :
    ∀ (m k : Nat) (st : DriverState), st.created = k →
      for_parts (start_body operation) (List.range' k m) st
        = some { transactions := st.transactions ++ (List.range' k m).map some
                 calls := st.calls ++ (List.range' k m).map fun part_n =>
                   { operation := operation, phase := .start, engine := part_n,
                     transaction := part_n }
                 created := k + m } := by
  intro m
  induction m with
  | zero =>
    intro k st hk
    cases st
    simp at hk
    simp [for_parts, hk]
  | succ m ih =>
    intro k st hk
    rw [List.range'_succ, for_parts]
    simp only [start_body]
    rw [ih (k + 1) _ (by simp [hk])]
    simp [hk, Nat.add_assoc, Nat.add_comm 1 m]

theorem for_parts_intermediate (operation : Operation) (n : Nat) :
    ∀ (m k : Nat) (calls : List PhaseCall), k + m ≤ n →
      for_parts (intermediate_body operation) (List.range' k m)
          { transactions := (List.range' 0 n).map some, calls := calls, created := n }
        = some { transactions := (List.range' 0 n).map some
                 calls := calls ++ (List.range' k m).map fun part_n =>
                   { operation := operation, phase := .intermediate, engine := part_n,
                     transaction := part_n }
                 created := n } := by
  intro m
  induction m with
  | zero => intro k calls _; simp [for_parts]
  | succ m ih =>
    intro k calls hk
    have hget : ((List.range' 0 n).map some)[k]? = some (some k) := by
      rw [List.getElem?_map, List.getElem?_range' 0 1 (by omega : k < n)]
      simp
    have hset : ((List.range' 0 n).map some).set k (some k) = (List.range' 0 n).map some := by
      apply List.ext_getElem?
      intro i
      rw [List.getElem?_set]
      split
      · rename_i h
        subst h
        simp [hget]
        omega
      · rfl
    rw [List.range'_succ, for_parts]
    simp only [intermediate_body, hget, hset]
    rw [ih (k + 1) _ (by omega)]
    simp

theorem for_parts_finish (operation : Operation) (n : Nat) :
    ∀ (m k : Nat) (calls : List PhaseCall), k + m = n →
      for_parts (finish_body operation) (List.range' k m)
          { transactions := List.replicate k none ++ (List.range' k m).map some,
            calls := calls, created := n }
        = some { transactions := List.replicate n none
                 calls := calls ++ (List.range' k m).map fun part_n =>
                   { operation := operation, phase := .finish, engine := part_n,
                     transaction := part_n }
                 created := n } := by
  intro m
  induction m with
  | zero =>
    intro k calls hk
    simp at hk
    simp [for_parts, hk]
  | succ m ih =>
    intro k calls hk
    have hget : (List.replicate k (none : Option Nat) ++ (List.range' k (m + 1)).map some)[k]?
        = some (some k) := by
      rw [List.getElem?_append_right (by simp)]
      simp [List.range'_succ]
    have hset : (List.replicate k (none : Option Nat) ++ (List.range' k (m + 1)).map some).set
        k none = List.replicate (k + 1) none ++ (List.range' (k + 1) m).map some := by
      rw [List.set_append_right _ _ (by simp)]
      simp [List.range'_succ, List.replicate_succ']
    rw [List.range'_succ] at hget hset
    rw [List.range'_succ, for_parts]
    simp only [finish_body, hget, hset]
    rw [ih (k + 1) _ (by omega)]
    simp

theorem issue_phases_eq (operation : Operation) (n_parts : Nat) :
    issue_phases operation n_parts
      = some { transactions := List.replicate n_parts none
               calls := phase_calls operation .start n_parts ++
                 phase_calls operation .intermediate n_parts ++
                 phase_calls operation .finish n_parts
               created := n_parts } := by
  unfold issue_phases
  rw [for_parts_start operation n_parts 0 _ rfl]
  simp only [List.nil_append, Nat.zero_add]
  rw [for_parts_intermediate operation n_parts n_parts 0 _ (by omega)]
  simp only
  have := for_parts_finish operation n_parts n_parts 0
    (phase_calls operation .start n_parts ++ phase_calls operation .intermediate n_parts)
    (by omega)
  simp only [List.replicate_zero, List.nil_append] at this
  simp only [phase_calls] at this ⊢
  rw [this]

theorem filter_transaction_phase_calls (operation : Operation) (phase : Phase)
    (n_parts t : Nat) (ht : t < n_parts) :
    (phase_calls operation phase n_parts).filter (fun call => call.transaction = t)
      = [{ operation := operation, phase := phase, engine := t, transaction := t }] := by
  unfold phase_calls
  rw [List.filter_map]
  have : ∀ (m k : Nat), k ≤ t → t < k + m →
      (List.range' k m).filter
        ((fun call : PhaseCall => decide (call.transaction = t)) ∘ fun part_n =>
          { operation := operation, phase := phase, engine := part_n, transaction := part_n })
        = [t] := by
    intro m
    induction m with
    | zero => intro k h1 h2; omega
    | succ m ih =>
      intro k h1 h2
      rw [List.range'_succ]
      by_cases hk : k = t
      · subst hk
        have hrest : (List.range' (k + 1) m).filter
            ((fun call : PhaseCall => decide (call.transaction = k)) ∘ fun part_n =>
              { operation := operation, phase := phase, engine := part_n,
                transaction := part_n }) = [] := by
          rw [List.filter_eq_nil_iff]
          intro a ha
          have := (List.mem_range'_1.1 ha).1
          simp
          omega
        simp [List.filter_cons, hrest]
      · have := ih (k + 1) (by omega) (by omega)
        simp [List.filter_cons, hk, this]
  rw [this n_parts 0 (by omega) (by omega)]
  rfl

/-- C17: for every number of parts, `interpolateVelocity` and `spreadForce`
issue the start phase for the parts 0, 1, ... in turn, then the intermediate
phase for the parts in turn, then the finish phase for the parts in turn, and
leave every pointer of `transactions` moved from; the calls that concern the
transaction of a part are one start, one intermediate and one finish, in that
order, each on the engine of that part. -/
theorem phases_issued_in_pipelined_order (n_parts : Nat) :
    IFEDMethod.interpolateVelocity n_parts
      = some { transactions := List.replicate n_parts none
               calls := phase_calls .Interpolation .start n_parts ++
                 phase_calls .Interpolation .intermediate n_parts ++
                 phase_calls .Interpolation .finish n_parts
               created := n_parts } ∧
    IFEDMethod.spreadForce n_parts
      = some { transactions := List.replicate n_parts none
               calls := phase_calls .Spreading .start n_parts ++
                 phase_calls .Spreading .intermediate n_parts ++
                 phase_calls .Spreading .finish n_parts
               created := n_parts } ∧
    (∀ (operation : Operation) (st : DriverState),
      issue_phases operation n_parts = some st →
      (∀ call ∈ st.calls, call.transaction < n_parts ∧ call.engine = call.transaction) ∧
      ∀ t, t < n_parts →
        st.calls.filter (fun call => call.transaction = t)
          = [{ operation := operation, phase := .start, engine := t, transaction := t },
              { operation := operation, phase := .intermediate, engine := t, transaction := t },
              { operation := operation, phase := .finish, engine := t, transaction := t }]) := by
  refine ⟨issue_phases_eq _ _, issue_phases_eq _ _, ?_⟩
  intro operation st hst
  rw [issue_phases_eq] at hst
  cases hst
  constructor
  · intro call hcall
    simp only [List.mem_append, phase_calls, List.mem_map] at hcall
    rcases hcall with (⟨p, hp, rfl⟩ | ⟨p, hp, rfl⟩) | ⟨p, hp, rfl⟩ <;>
      exact ⟨by have := (List.mem_range'_1.1 hp).2; simpa using this, rfl⟩
  · intro t ht
    simp only [List.filter_append, filter_transaction_phase_calls _ _ _ _ ht]
    rfl

/-- C17 at three parts: the calls of `interpolateVelocity` in the order they
are issued, and the calls that concern the transaction of part 1. -/
theorem phases_issued_in_pipelined_order_witness :
    (IFEDMethod.interpolateVelocity 3).map (fun st => st.calls.map fun call =>
        (call.phase, call.engine, call.transaction))
      = some [(.start, 0, 0), (.start, 1, 1), (.start, 2, 2),
          (.intermediate, 0, 0), (.intermediate, 1, 1), (.intermediate, 2, 2),
          (.finish, 0, 0), (.finish, 1, 1), (.finish, 2, 2)] ∧
    ∃ st, issue_phases .Spreading 3 = some st ∧
      st.calls.filter (fun call => call.transaction = 1)
        = [{ operation := .Spreading, phase := .start, engine := 1, transaction := 1 },
            { operation := .Spreading, phase := .intermediate, engine := 1, transaction := 1 },
            { operation := .Spreading, phase := .finish, engine := 1, transaction := 1 }] :=
  ⟨by decide, _, rfl,
    ((phases_issued_in_pipelined_order 3).2.2 .Spreading _ rfl).2 1 (by decide)⟩

/-! ## The id lists of the forces -/

theorem mem_of_mem_unique : ∀ (l : List Nat) (a : Nat), a ∈ unique l → a ∈ l := by
  intro l
  induction l using unique.induct with
  | case1 => intro a h; simp [unique] at h
  | case2 x => intro a h; simpa [unique] using h
  | case3 y rest ih =>
    intro a h
    rw [unique, if_pos rfl] at h
    exact List.mem_cons_of_mem _ (ih a h)
  | case4 x y rest hxy ih =>
    intro a h
    rw [unique, if_neg hxy] at h
    rcases List.mem_cons.1 h with rfl | h
    · simp
    · exact List.mem_cons_of_mem _ (ih a h)

theorem unique_pairwise_lt : ∀ (l : List Nat), l.Pairwise (· ≤ ·) →
    (unique l).Pairwise (· < ·) := by
  intro l
  induction l using unique.induct with
  | case1 => intro _; simp [unique]
  | case2 x => intro _; simp [unique]
  | case3 y rest ih =>
    intro h
    rw [unique, if_pos rfl]
    exact ih (List.Pairwise.of_cons h)
  | case4 x y rest hxy ih =>
    intro h
    rw [unique, if_neg hxy]
    have htail := List.Pairwise.of_cons h
    refine List.Pairwise.cons ?_ (ih htail)
    intro a ha
    have ha' := mem_of_mem_unique _ a ha
    have hxy' : x ≤ y := List.rel_of_pairwise_cons h (by simp)
    have hya : y ≤ a := by
      rcases List.mem_cons.1 ha' with rfl | ha''
      · exact le_refl _
      · exact List.rel_of_pairwise_cons htail ha''
    omega

theorem unique_ne_nil : ∀ (l : List Nat), l ≠ [] → unique l ≠ [] := by
  intro l
  induction l using unique.induct with
  | case1 => intro h; exact absurd rfl h
  | case2 x => intro _; simp [unique]
  | case3 y rest ih =>
    intro _
    rw [unique, if_pos rfl]
    exact ih (by simp)
  | case4 x y rest hxy ih =>
    intro _
    rw [unique, if_neg hxy]
    simp

theorem sort_pairwise_le (ids : List Nat) : (sort ids).Pairwise (· ≤ ·) :=
  List.sorted_insertionSort (· ≤ ·) ids

theorem sort_ne_nil (ids : List Nat) (h : ids ≠ []) : sort ids ≠ [] := by
  intro hnil
  have hlen := (List.perm_insertionSort (· ≤ ·) ids).length_eq
  unfold sort at hnil
  rw [hnil] at hlen
  exact h (List.length_eq_zero.1 hlen.symm)

theorem binary_search_singleton (a x : Nat) : binary_search [a] x = decide (x = a) := by
  by_cases h : a < x
  · have hne : x ≠ a := by omega
    simp [binary_search, lower_bound, lower_bound_loop, h, hne]
  · by_cases hx : x = a
    · simp [binary_search, lower_bound, lower_bound_loop, hx]
    · have hlt : x < a := by omega
      simp [binary_search, lower_bound, lower_bound_loop, h, hx, hlt]

/-- C19: for every list of ids and every invalid id the list returned by
`setup_ids` is strictly increasing: each entry is smaller than every later
one, so it is sorted ascending and no value occurs twice. -/
theorem setup_ids_strictly_increasing (ids : List Nat) (invalid_id : Nat) :
    (setup_ids ids invalid_id).Pairwise (· < ·) ∧
    (setup_ids ids invalid_id).Pairwise (· ≤ ·) ∧
    (setup_ids ids invalid_id).Nodup := by
  have h : (setup_ids ids invalid_id).Pairwise (· < ·) :=
    unique_pairwise_lt _ (sort_pairwise_le _)
  exact ⟨h, h.imp (fun hab => Nat.le_of_lt hab), h.imp (fun hab => Nat.ne_of_lt hab)⟩

/-- C19 at an unsorted list with repetitions: the result is 1, 2, 3. -/
theorem setup_ids_strictly_increasing_witness :
    setup_ids [3, 1, 3, 2, 1] 7 = [1, 2, 3] ∧
    (setup_ids [3, 1, 3, 2, 1] 7).Pairwise (· < ·) :=
  ⟨by decide, (setup_ids_strictly_increasing [3, 1, 3, 2, 1] 7).1⟩

/-- C20: for the empty list `setup_ids` returns the list of the invalid id
alone, and its result is never empty; so a `SpringForce`, a
`BoundarySpringForce` or an `OrthogonalSpringDashpotForce` constructed with an
empty id list stores the invalid id alone, and on a cell or face whose id is
not the invalid id it sets every component of every force to zero. -/
theorem setup_ids_of_empty_list (invalid_id : Nat) :
    setup_ids [] invalid_id = [invalid_id] ∧
    (∀ ids : List Nat, setup_ids ids invalid_id ≠ []) ∧
    (∀ base : SpringForceBase,
      (SpringForce.new_with_ids base []).material_ids = [invalid_material_id] ∧
      (BoundarySpringForce.new_with_ids base []).boundary_ids = [invalid_boundary_id] ∧
      ∀ damping_constant,
        (OrthogonalSpringDashpotForce.new_with_ids base damping_constant []).boundary_ids
          = [invalid_boundary_id]) ∧
    (∀ (self : SpringForce) (m_values : MechanicsValues) (cell : CellAccessor)
        (forces : List Tensor1),
      self.material_ids = setup_ids [] invalid_material_id →
      cell.material_id ≠ invalid_material_id →
      self.compute_volume_force m_values cell forces = some (fill_with_zeros forces)) ∧
    (∀ (self : BoundarySpringForce) (m_values : MechanicsValues) (face : FaceAccessor)
        (forces : List Tensor1),
      self.boundary_ids = setup_ids [] invalid_boundary_id →
      face.boundary_id ≠ invalid_boundary_id →
      self.compute_boundary_force m_values face forces = some (fill_with_zeros forces)) ∧
    (∀ (self : OrthogonalSpringDashpotForce) (m_values : MechanicsValues)
        (face : FaceAccessor) (forces : List Tensor1),
      self.boundary_ids = setup_ids [] invalid_boundary_id →
      face.boundary_id ≠ invalid_boundary_id →
      self.compute_boundary_force m_values face forces = some (fill_with_zeros forces)) ∧
    (∀ forces : List Tensor1,
      (fill_with_zeros forces).length = forces.length ∧
      ∀ force ∈ fill_with_zeros forces, ∀ x ∈ force, x = 0) := by
  have hempty : ∀ v : Nat, setup_ids [] v = [v] := by
    intro v
    simp [setup_ids, sort, unique]
  refine ⟨hempty invalid_id, ?_, ?_, ?_, ?_, ?_, ?_⟩
  · intro ids
    unfold setup_ids
    apply unique_ne_nil
    apply sort_ne_nil
    cases ids <;> simp
  · intro base
    exact ⟨hempty _, hempty _, fun _ => hempty _⟩
  · intro self m_values cell forces hids hcell
    rw [hempty] at hids
    simp [SpringForce.compute_volume_force, hids, binary_search_singleton, hcell]
  · intro self m_values face forces hids hface
    rw [hempty] at hids
    simp [BoundarySpringForce.compute_boundary_force, hids, binary_search_singleton, hface]
  · intro self m_values face forces hids hface
    rw [hempty] at hids
    simp [OrthogonalSpringDashpotForce.compute_boundary_force, hids, binary_search_singleton,
      hface]
  · intro forces
    refine ⟨by simp [fill_with_zeros], ?_⟩
    intro force hforce x hx
    simp only [fill_with_zeros, List.mem_map] at hforce
    obtain ⟨f, -, rfl⟩ := hforce
    simp only [List.mem_map] at hx
    obtain ⟨_, -, rfl⟩ := hx
    rfl

/-- C20 at a sample spring force constructed with an empty list of material
ids, on a cell of material 3: both forces are set to zero. -/
theorem setup_ids_of_empty_list_witness :
    (SpringForce.new_with_ids sample_spring_base []).material_ids = [invalid_material_id] ∧
    (SpringForce.new_with_ids sample_spring_base []).compute_volume_force
        sample_mechanics_values { level := 0, index := 0, material_id := 3 } [[1, 2], [3, 4]]
      = some [[0, 0], [0, 0]] :=
  ⟨((setup_ids_of_empty_list 0).2.2.1 sample_spring_base).1,
    (setup_ids_of_empty_list 0).2.2.2.1 (SpringForce.new_with_ids sample_spring_base [])
      sample_mechanics_values { level := 0, index := 0, material_id := 3 } [[1, 2], [3, 4]]
      rfl (by decide)⟩

/-! ## Shared lemmas on the binary search -/

theorem lower_bound_loop_spec (xs : List Nat) (value : Nat) :
    ∀ (fuel first len : Nat), len ≤ fuel →
      first ≤ lower_bound_loop xs value fuel first len ∧
      lower_bound_loop xs value fuel first len ≤ first + len ∧
      (lower_bound_loop xs value fuel first len < first + len →
        ¬ xs.getD (lower_bound_loop xs value fuel first len) 0 < value) := by
  intro fuel
  induction fuel with
  | zero =>
    intro first len hlen
    have : len = 0 := by omega
    subst this
    simp [lower_bound_loop]
  | succ fuel ih =>
    intro first len hlen
    unfold lower_bound_loop
    by_cases hpos : len > 0
    · simp only [hpos, if_true]
      by_cases hlt : xs.getD (first + len / 2) 0 < value
      · simp only [hlt, if_true]
        have hhalf : len / 2 < len := Nat.div_lt_self hpos (by decide)
        obtain ⟨h1, h2, h3⟩ := ih (first + len / 2 + 1) (len - len / 2 - 1) (by omega)
        refine ⟨by omega, by omega, ?_⟩
        intro h
        exact h3 (by omega)
      · simp only [hlt, if_false]
        have hhalf : len / 2 < len := Nat.div_lt_self hpos (by decide)
        obtain ⟨h1, h2, h3⟩ := ih first (len / 2) (by omega)
        refine ⟨h1, by omega, ?_⟩
        intro _
        rcases Nat.lt_or_ge (lower_bound_loop xs value fuel first (len / 2))
            (first + len / 2) with h | h
        · exact h3 h
        · have : lower_bound_loop xs value fuel first (len / 2) = first + len / 2 := by omega
          rw [this]
          exact hlt
    · simp only [hpos, if_false]
      have : len = 0 := by omega
      subst this
      simp

theorem mem_of_binary_search (xs : List Nat) (value : Nat)
    (h : binary_search xs value = true) : value ∈ xs := by
  obtain ⟨-, h2, h3⟩ := lower_bound_loop_spec xs value xs.length 0 xs.length (le_refl _)
  simp only [binary_search, lower_bound, Bool.and_eq_true, decide_eq_true_eq,
    Bool.not_eq_true', decide_eq_false_iff_not] at h
  simp only [lower_bound, Nat.zero_add] at h2 h3
  obtain ⟨hne, hge⟩ := h
  have hlt : lower_bound_loop xs value xs.length 0 xs.length < xs.length := by omega
  have hle := h3 hlt
  have heq : xs.getD (lower_bound_loop xs value xs.length 0 xs.length) 0 = value := by omega
  rw [List.getD_eq_getElem?_getD, List.getElem?_eq_getElem hlt] at heq
  simp only [Option.getD_some] at heq
  rw [← heq]
  exact List.getElem_mem _

theorem binary_search_eq_false (xs : List Nat) (value : Nat) (h : value ∉ xs) :
    binary_search xs value = false := by
  cases hb : binary_search xs value with
  | false => rfl
  | true => exact absurd (mem_of_binary_search xs value hb) h

theorem sorted_getD_le (xs : List Nat) (hs : xs.Pairwise (· ≤ ·)) (j m : Nat) (hjm : j ≤ m)
    (hm : m < xs.length) : xs.getD j 0 ≤ xs.getD m 0 := by
  have hj : j < xs.length := by omega
  rw [List.getD_eq_getElem?_getD, List.getD_eq_getElem?_getD, List.getElem?_eq_getElem hj,
    List.getElem?_eq_getElem hm]
  simp only [Option.getD_some]
  rcases Nat.lt_or_ge j m with h | h
  · exact (List.pairwise_iff_getElem.1 hs) j m hj hm h
  · have : j = m := by omega
    subst this
    exact le_refl _

theorem lower_bound_loop_before (xs : List Nat) (hs : xs.Pairwise (· ≤ ·)) (value : Nat) :
    ∀ (fuel first len : Nat), len ≤ fuel → first + len ≤ xs.length →
      (∀ j, j < first → xs.getD j 0 < value) →
      ∀ j, j < lower_bound_loop xs value fuel first len → xs.getD j 0 < value := by
  intro fuel
  induction fuel with
  | zero =>
    intro first len _ _ hbefore j hj
    simp only [lower_bound_loop] at hj
    exact hbefore j hj
  | succ fuel ih =>
    intro first len hlen hend hbefore j hj
    unfold lower_bound_loop at hj
    by_cases hpos : len > 0
    · simp only [hpos, if_true] at hj
      have hhalf : len / 2 < len := Nat.div_lt_self hpos (by decide)
      by_cases hlt : xs.getD (first + len / 2) 0 < value
      · simp only [hlt, if_true] at hj
        refine ih (first + len / 2 + 1) (len - len / 2 - 1) (by omega) (by omega) ?_ j hj
        intro i hi
        exact lt_of_le_of_lt (sorted_getD_le xs hs i (first + len / 2) (by omega) (by omega))
          hlt
      · simp only [hlt, if_false] at hj
        exact ih first (len / 2) (by omega) (by omega) hbefore j hj
    · simp only [hpos, if_false] at hj
      exact hbefore j hj

theorem binary_search_of_mem (xs : List Nat) (hs : xs.Pairwise (· ≤ ·)) (value : Nat)
    (h : value ∈ xs) : binary_search xs value = true := by
  obtain ⟨p, hp, hpv⟩ := List.getElem_of_mem h
  obtain ⟨-, h2, -⟩ := lower_bound_loop_spec xs value xs.length 0 xs.length (le_refl _)
  have hbefore := lower_bound_loop_before xs hs value xs.length 0 xs.length (le_refl _)
    (by omega) (fun j hj => absurd hj (Nat.not_lt_zero j))
  have hpD : xs.getD p 0 = value := by
    rw [List.getD_eq_getElem?_getD, List.getElem?_eq_getElem hp]
    simpa using hpv
  have hrp : lower_bound_loop xs value xs.length 0 xs.length ≤ p := by
    by_contra hcon
    have := hbefore p (by omega)
    omega
  have hle := sorted_getD_le xs hs _ p hrp hp
  simp only [binary_search, lower_bound, Bool.and_eq_true, decide_eq_true_eq,
    Bool.not_eq_true', decide_eq_false_iff_not]
  constructor
  · omega
  · omega

theorem binary_search_iff_mem (xs : List Nat) (hs : xs.Pairwise (· ≤ ·)) (value : Nat) :
    binary_search xs value = true ↔ value ∈ xs :=
  ⟨mem_of_binary_search xs value, binary_search_of_mem xs hs value⟩

/-! ## The id filter of the forces -/

theorem mem_unique_of_mem : ∀ (l : List Nat) (a : Nat), a ∈ l → a ∈ unique l := by
  intro l
  induction l using unique.induct with
  | case1 => intro a h; cases h
  | case2 x => intro a h; simpa [unique] using h
  | case3 y rest ih =>
    intro a h
    rw [unique, if_pos rfl]
    apply ih
    rcases List.mem_cons.1 h with rfl | h
    · simp
    · exact h
  | case4 x y rest hxy ih =>
    intro a h
    rw [unique, if_neg hxy]
    rcases List.mem_cons.1 h with rfl | h
    · simp
    · exact List.mem_cons_of_mem _ (ih a h)

theorem unique_eq_self : ∀ (l : List Nat), l.Pairwise (· < ·) → unique l = l := by
  intro l
  induction l using unique.induct with
  | case1 => intro _; rfl
  | case2 x => intro _; rfl
  | case3 y rest ih =>
    intro h
    have : y < y := List.rel_of_pairwise_cons h (by simp)
    omega
  | case4 x y rest hxy ih =>
    intro h
    rw [unique, if_neg hxy, ih (List.Pairwise.of_cons h)]

theorem mem_setup_ids (ids : List Nat) (invalid_id x : Nat) (h : ids ≠ []) :
    x ∈ setup_ids ids invalid_id ↔ x ∈ ids := by
  have hlen : ids.length ≠ 0 := fun h0 => h (List.length_eq_zero.1 h0)
  simp only [setup_ids, hlen, if_false]
  constructor
  · intro hx
    exact (List.mem_insertionSort (· ≤ ·)).1 (mem_of_mem_unique _ x hx)
  · intro hx
    exact mem_unique_of_mem _ x ((List.mem_insertionSort (· ≤ ·)).2 hx)

theorem setup_ids_pairwise_lt (ids : List Nat) (invalid_id : Nat) :
    (setup_ids ids invalid_id).Pairwise (· < ·) :=
  unique_pairwise_lt _ (sort_pairwise_le _)

theorem setup_ids_pairwise_le (ids : List Nat) (invalid_id : Nat) :
    (setup_ids ids invalid_id).Pairwise (· ≤ ·) :=
  (setup_ids_pairwise_lt ids invalid_id).imp (fun hab => Nat.le_of_lt hab)

theorem setup_ids_eq_self (r : List Nat) (invalid_id : Nat) (hne : r ≠ [])
    (hlt : r.Pairwise (· < ·)) : setup_ids r invalid_id = r := by
  have hlen : r.length ≠ 0 := fun h0 => hne (List.length_eq_zero.1 h0)
  have hsort : sort r = r :=
    List.Sorted.insertionSort_eq (hlt.imp (fun hab => Nat.le_of_lt hab))
  simp only [setup_ids, hlen, if_false, hsort]
  exact unique_eq_self r hlt

theorem setup_ids_ne_nil (ids : List Nat) (invalid_id : Nat) :
    setup_ids ids invalid_id ≠ [] := by
  unfold setup_ids
  apply unique_ne_nil
  apply sort_ne_nil
  cases ids <;> simp

/-- C21: for each of `SpringForce::compute_volume_force`,
`BoundarySpringForce::compute_boundary_force` and
`OrthogonalSpringDashpotForce::compute_boundary_force`: when the stored id
list is not empty and does not contain the id of the cell or face, the call
returns with every component of every entry of `forces` set to zero, whatever
the positions, the velocities and the constants. -/
theorem forces_zero_outside_id_list :
    (∀ (self : SpringForce) (m_values : MechanicsValues) (cell : CellAccessor)
        (forces : List Tensor1),
      self.material_ids ≠ [] → cell.material_id ∉ self.material_ids →
      self.compute_volume_force m_values cell forces = some (fill_with_zeros forces)) ∧
    (∀ (self : BoundarySpringForce) (m_values : MechanicsValues) (face : FaceAccessor)
        (forces : List Tensor1),
      self.boundary_ids ≠ [] → face.boundary_id ∉ self.boundary_ids →
      self.compute_boundary_force m_values face forces = some (fill_with_zeros forces)) ∧
    (∀ (self : OrthogonalSpringDashpotForce) (m_values : MechanicsValues)
        (face : FaceAccessor) (forces : List Tensor1),
      self.boundary_ids ≠ [] → face.boundary_id ∉ self.boundary_ids →
      self.compute_boundary_force m_values face forces = some (fill_with_zeros forces)) ∧
    (∀ forces : List Tensor1,
      (fill_with_zeros forces).length = forces.length ∧
      ∀ force ∈ fill_with_zeros forces, ∀ x ∈ force, x = 0) := by
  refine ⟨?_, ?_, ?_, ?_⟩
  · intro self m_values cell forces hne hnot
    have hlen : self.material_ids.length > 0 := List.length_pos.2 hne
    simp [SpringForce.compute_volume_force, hlen, binary_search_eq_false _ _ hnot]
  · intro self m_values face forces hne hnot
    have hlen : self.boundary_ids.length > 0 := List.length_pos.2 hne
    simp [BoundarySpringForce.compute_boundary_force, hlen, binary_search_eq_false _ _ hnot]
  · intro self m_values face forces hne hnot
    have hlen : self.boundary_ids.length > 0 := List.length_pos.2 hne
    simp [OrthogonalSpringDashpotForce.compute_boundary_force, hlen,
      binary_search_eq_false _ _ hnot]
  · intro forces
    refine ⟨by simp [fill_with_zeros], ?_⟩
    intro force hforce x hx
    simp only [fill_with_zeros, List.mem_map] at hforce
    obtain ⟨f, -, rfl⟩ := hforce
    simp only [List.mem_map] at hx
    obtain ⟨_, -, rfl⟩ := hx
    rfl

/-- C21 at the sample spring force, restricted to the materials 3 and 5, on a
cell of material 4: both forces are set to zero. -/
theorem forces_zero_outside_id_list_witness :
    sample_spring_force.material_ids = [3, 5] ∧
    sample_spring_force.compute_volume_force sample_mechanics_values
        { level := 0, index := 0, material_id := 4 } [[1, 2], [3, 4]]
      = some [[0, 0], [0, 0]] :=
  ⟨by decide,
    forces_zero_outside_id_list.1 sample_spring_force sample_mechanics_values
      { level := 0, index := 0, material_id := 4 } [[1, 2], [3, 4]] (by decide) (by decide)⟩

/-- C22: for every non-empty list of ids and every value, the value occurs in
the result of `setup_ids` exactly when it occurs in the list, and the binary
search of the force classes finds it in the result exactly when it occurs in
the list. -/
theorem setup_ids_keeps_ids (ids : List Nat) (invalid_id x : Nat) (h : ids ≠ []) :
    (x ∈ setup_ids ids invalid_id ↔ x ∈ ids) ∧
    (binary_search (setup_ids ids invalid_id) x = true ↔ x ∈ ids) :=
  ⟨mem_setup_ids ids invalid_id x h,
    (binary_search_iff_mem _ (setup_ids_pairwise_le ids invalid_id) x).trans
      (mem_setup_ids ids invalid_id x h)⟩

/-- C22 at the list 5, 3, 5: the search finds 3 and does not find 4. -/
theorem setup_ids_keeps_ids_witness :
    ([5, 3, 5] : List Nat) ≠ [] ∧
    binary_search (setup_ids [5, 3, 5] invalid_material_id) 3 = true ∧
    binary_search (setup_ids [5, 3, 5] invalid_material_id) 4 = false :=
  ⟨by decide,
    (setup_ids_keeps_ids [5, 3, 5] invalid_material_id 3 (by decide)).2.2 (by decide),
    by
      cases hb : binary_search (setup_ids [5, 3, 5] invalid_material_id) 4 with
      | false => rfl
      | true =>
        exact absurd
          ((setup_ids_keeps_ids [5, 3, 5] invalid_material_id 4 (by decide)).2.1 hb)
          (by decide)⟩

/-- C23: two lists with the same values, in whatever order and with whatever
repetitions, give the same result of `setup_ids`, and applying `setup_ids` to
its own result gives that result again. -/
theorem setup_ids_canonical (invalid_id : Nat) :
    (∀ a b : List Nat, (∀ x, x ∈ a ↔ x ∈ b) →
      setup_ids a invalid_id = setup_ids b invalid_id) ∧
    (∀ ids : List Nat,
      setup_ids (setup_ids ids invalid_id) invalid_id = setup_ids ids invalid_id) := by
  constructor
  · intro a b hab
    by_cases ha : a = []
    · have hb : b = [] := by
        apply List.eq_nil_iff_forall_not_mem.2
        intro x hx
        have := (hab x).2 hx
        rw [ha] at this
        cases this
      rw [ha, hb]
    · have hb : b ≠ [] := by
        intro hb
        obtain ⟨x, hx⟩ := List.exists_mem_of_ne_nil a ha
        have := (hab x).1 hx
        rw [hb] at this
        cases this
      have hperm : (setup_ids a invalid_id).Perm (setup_ids b invalid_id) := by
        apply (List.perm_ext_iff_of_nodup
          ((setup_ids_pairwise_lt a invalid_id).imp (fun h => Nat.ne_of_lt h))
          ((setup_ids_pairwise_lt b invalid_id).imp (fun h => Nat.ne_of_lt h))).2
        intro x
        rw [mem_setup_ids a invalid_id x ha, mem_setup_ids b invalid_id x hb]
        exact hab x
      exact List.eq_of_perm_of_sorted hperm (setup_ids_pairwise_le a invalid_id)
        (setup_ids_pairwise_le b invalid_id)
  · intro ids
    exact setup_ids_eq_self _ invalid_id (setup_ids_ne_nil ids invalid_id)
      (setup_ids_pairwise_lt ids invalid_id)

/-- C23 at the lists 5, 3, 5 and 3, 5, 3, 3: both give 3, 5. -/
theorem setup_ids_canonical_witness :
    setup_ids [5, 3, 5] 7 = [3, 5] ∧ setup_ids [3, 5, 3, 3] 7 = setup_ids [5, 3, 5] 7 ∧
    setup_ids (setup_ids [5, 3, 5] 7) 7 = setup_ids [5, 3, 5] 7 :=
  ⟨by decide,
    (setup_ids_canonical 7).1 [3, 5, 3, 3] [5, 3, 5] (by intro x; simp; omega),
    (setup_ids_canonical 7).2 [5, 3, 5]⟩

/-! ## The loop that fills `quadratures` -/

theorem fill_quadratures_eq_none_of_ge (c : Collaborators) (family : QuadratureFamily)
    (max_quadrature_index : Nat) (hmax : 255 ≤ max_quadrature_index) (fuel i : Nat)
    (acc : List Quadrature) (hi : i < 256) :
    fill_quadratures c family max_quadrature_index fuel i acc = none := by
  cases h : fill_quadratures c family max_quadrature_index fuel i acc with
  | none => rfl
  | some quadratures =>
    have := (fill_quadratures_some_inv c family max_quadrature_index fuel i acc quadratures
      hi h).1
    omega

theorem reinit_fuel_exhausted_of_index_255 (c : Collaborators) (dim : Nat)
    (self : ElementalInteraction) (native_tria : Triangulation)
    (active_cell_bboxes : List BoundingBox) (active_cell_lengths : List Rat)
    (patch_hierarchy : PatchHierarchy) (level_number : Int) (fuel : Nat)
    (front : ReferenceCell) (base : InteractionBase) (family : QuadratureFamily)
    (h_base : c.base_reinit self.base native_tria active_cell_bboxes active_cell_lengths
      patch_hierarchy level_number = Except.ok base)
    (h_cells : native_tria.get_reference_cells = [front])
    (h_family : select_quadrature_family dim self front = Result.ok family)
    (h_range : ∀ idx ∈ base.overlap_tria.native_active_cell_index,
      idx < active_cell_lengths.length)
    (h_255 : ∃ idx ∈ base.overlap_tria.native_active_cell_index,
      c.get_index family (eulerian_length (patch_hierarchy.getPatchLevel level_number))
        (active_cell_lengths.getD idx 0) % 256 = 255) :
    reinit c dim self native_tria active_cell_bboxes active_cell_lengths patch_hierarchy
      level_number fuel = Result.error Violation.fuel_exhausted := by
  have hcompute := compute_quadrature_indices_eq c family
    (eulerian_length (patch_hierarchy.getPatchLevel level_number)) active_cell_lengths
    base.overlap_tria.native_active_cell_index h_range
  obtain ⟨idx, hidx, hval⟩ := h_255
  have hmem : 255 ∈ base.overlap_tria.native_active_cell_index.map (fun idx =>
      c.get_index family (eulerian_length (patch_hierarchy.getPatchLevel level_number))
        (active_cell_lengths.getD idx 0) % 256) :=
    List.mem_map.2 ⟨idx, hidx, hval⟩
  have hmax := le_max_element _ 255 hmem
  rw [← max_quadrature_index_eq] at hmax
  have hfill := fill_quadratures_eq_none_of_ge c family _ hmax fuel 0 [] (by decide)
  unfold reinit
  simp only [h_base, h_cells, h_family, hcompute, hfill]

/-- C24, evaluated on the code: the loop that fills `quadratures` returns,
with `max_quadrature_index + 1` rules, once its bound is at least
`max_quadrature_index + 2`, for every largest entry below 255; for the
largest entry 255 it returns for no bound, the `unsigned char` counter
wrapping from 255 to 0 with the loop condition still true, and a `reinit`
whose family gives a cell the index 255 does not return for any bound. -/
theorem fill_quadratures_terminates_below_255 (c : Collaborators)
    (family : QuadratureFamily) :
    (∀ max_quadrature_index fuel : Nat, max_quadrature_index < 255 →
      max_quadrature_index + 2 ≤ fuel →
      fill_quadratures c family max_quadrature_index fuel 0 []
        = some ((List.range (max_quadrature_index + 1)).map (c.get_rule family)) ∧
      ((List.range (max_quadrature_index + 1)).map (c.get_rule family)).length
        = max_quadrature_index + 1) ∧
    (∀ fuel : Nat, fill_quadratures c family 255 fuel 0 [] = none) ∧
    (∀ fuel : Nat,
      reinit sample_collaborators_255 2 (ElementalInteraction.new 2 2 { value := 0 })
        sample_reinit_quadrilaterals.native_tria
        sample_reinit_quadrilaterals.active_cell_bboxes
        sample_reinit_quadrilaterals.active_cell_lengths
        sample_reinit_quadrilaterals.patch_hierarchy
        sample_reinit_quadrilaterals.level_number fuel
        = Result.error Violation.fuel_exhausted) := by
  refine ⟨?_, ?_, ?_⟩
  · intro max_quadrature_index fuel hmax hfuel
    refine ⟨?_, by simp⟩
    rw [fill_quadratures_eq c family max_quadrature_index hmax fuel 0 [] (by omega) (by omega),
      List.range_eq_range']
    simp
  · intro fuel
    exact fill_quadratures_eq_none_of_ge c family 255 (le_refl _) fuel 0 [] (by decide)
  · intro fuel
    exact reinit_fuel_exhausted_of_index_255 sample_collaborators_255 2 _ _ _ _ _ _ fuel
      .Quadrilateral
      { overlap_tria := { native_active_cell_index := [0, 1] }, patch_map := { cells := [] } }
      (.QGaussFamily 2 2) rfl (by decide) rfl (by decide) ⟨0, by decide, by decide⟩

/-! ## Rejected intermediate calls -/

theorem run_statements_eq_run (call : IntermediateCall) (c : Collaborators)
    (self : ElementalInteraction) (t : TransactionBase) (w : World) :
    run_statements (call.statements c) { self := self, t_ptr := t, world := w }
      = match call.run c self t w with
        | .ok (self', t', w') => ({ self := self', t_ptr := t', world := w' }, none)
        | .error v => ({ self := self, t_ptr := t, world := w }, some v) := by
  cases call <;> cases t with
  | transaction tr =>
    by_cases hop : tr.operation = Operation.Interpolation <;>
      by_cases hop' : tr.operation = Operation.Spreading <;>
      by_cases hs : tr.next_state = State.Intermediate <;>
      simp [IntermediateCall.statements, IntermediateCall.run,
        compute_projection_rhs_intermediate_statements,
        compute_spread_intermediate_statements, add_workload_intermediate_statements,
        run_statements, cast_to_Transaction, cast_to_WorkloadTransaction, assert_operation,
        assert_state_Intermediate, finish_position_scatter, finish_solution_scatter,
        build_position_mapping, call_compute_projection_rhs, call_compute_spread,
        call_count_quadrature_points, start_rhs_scatter_back, assign_next_state_Finish,
        Machine.position_mapping, TransactionBase.next_state,
        compute_projection_rhs_intermediate, compute_spread_intermediate,
        add_workload_intermediate, World.record, projection_args, spread_args, count_args,
        hop, hop', hs]
  | workload tr =>
    by_cases hs : tr.next_state = State.Intermediate <;>
      simp [IntermediateCall.statements, IntermediateCall.run,
        compute_projection_rhs_intermediate_statements,
        compute_spread_intermediate_statements, add_workload_intermediate_statements,
        run_statements, cast_to_Transaction, cast_to_WorkloadTransaction, assert_operation,
        assert_state_Intermediate, finish_position_scatter, finish_solution_scatter,
        build_position_mapping, call_compute_projection_rhs, call_compute_spread,
        call_count_quadrature_points, start_rhs_scatter_back, assign_next_state_Finish,
        Machine.position_mapping, TransactionBase.next_state,
        compute_projection_rhs_intermediate, compute_spread_intermediate,
        add_workload_intermediate, World.record, projection_args, spread_args, count_args, hs]

theorem IntermediateCall.run_error_is_check (call : IntermediateCall) (c : Collaborators)
    (self : ElementalInteraction) (t : TransactionBase) (w : World) (v : Violation)
    (h : call.run c self t w = Result.error v) :
    v = Violation.bad_cast ∨ v = Violation.operation_should_be_Interpolation ∨
      v = Violation.operation_should_be_Spreading ∨
      v = Violation.state_should_be_Intermediate := by
  cases call <;> cases t with
  | transaction tr =>
    by_cases hop : tr.operation = Operation.Interpolation <;>
      by_cases hop' : tr.operation = Operation.Spreading <;>
      by_cases hs : tr.next_state = State.Intermediate <;>
      simp [IntermediateCall.run, compute_projection_rhs_intermediate,
        compute_spread_intermediate, add_workload_intermediate, hs, hop, hop'] at h <;>
      simp [← h]
  | workload tr =>
    by_cases hs : tr.next_state = State.Intermediate <;>
      simp [IntermediateCall.run, compute_projection_rhs_intermediate,
        compute_spread_intermediate, add_workload_intermediate, hs] at h <;>
      simp [← h]

/-- C25: when `compute_projection_rhs_intermediate`,
`compute_spread_intermediate` or `add_workload_intermediate` fails, the
execution of its statements ends with that violation in the state it started
in; and whenever the execution of the statements ends with a violation, the
violation is that of the cast, of the operation check or of the state check,
and the engine, the transaction with its `next_state` and vectors, and the
world are as at entry: no scatter has been finished, no kernel has run and no
scatter back has been started. -/
theorem rejected_intermediate_call_has_no_effect (c : Collaborators)
    (call : IntermediateCall) (m : Machine) :
    (∀ v, call.run c m.self m.t_ptr m.world = Result.error v →
      run_statements (call.statements c) m = (m, some v)) ∧
    (∀ (m' : Machine) (v : Violation),
      run_statements (call.statements c) m = (m', some v) →
      call.run c m.self m.t_ptr m.world = Result.error v ∧
      (v = Violation.bad_cast ∨ v = Violation.operation_should_be_Interpolation ∨
        v = Violation.operation_should_be_Spreading ∨
        v = Violation.state_should_be_Intermediate) ∧
      m' = m ∧
      m'.t_ptr = m.t_ptr ∧ m'.t_ptr.next_state = m.t_ptr.next_state ∧
      m'.world.log = m.world.log ∧
      scatter_finishes m'.world.log = scatter_finishes m.world.log ∧
      kernel_runs m'.world.log = kernel_runs m.world.log ∧
      scatter_back_starts m'.world.log = scatter_back_starts m.world.log) := by
  obtain ⟨self, t, w⟩ := m
  have hrun := run_statements_eq_run call c self t w
  constructor
  · intro v hv
    rw [hrun]
    simp only [hv]
  · intro m' v h
    rw [hrun] at h
    cases hc : call.run c self t w with
    | ok r =>
      rw [hc] at h
      simp at h
    | error v' =>
      rw [hc] at h
      simp only [Prod.mk.injEq, Option.some.injEq] at h
      obtain ⟨rfl, rfl⟩ := h
      exact ⟨rfl, IntermediateCall.run_error_is_check call c self t w v' hc, rfl, rfl, rfl,
        rfl, rfl, rfl, rfl⟩

/-- C25 at a sample interpolation transaction still in state `Start` and at a
sample spreading transaction handed to the projection phase: the execution of
the statements ends with the violation in the state it started in. -/
theorem rejected_intermediate_call_has_no_effect_witness :
    run_statements (compute_projection_rhs_intermediate_statements sample_collaborators)
        { self := sample_engine
          t_ptr := .transaction (sample_transaction .Interpolation .Start)
          world := sample_world }
      = ({ self := sample_engine
           t_ptr := .transaction (sample_transaction .Interpolation .Start)
           world := sample_world }, some Violation.state_should_be_Intermediate) ∧
    run_statements (compute_projection_rhs_intermediate_statements sample_collaborators)
        { self := sample_engine
          t_ptr := .transaction (sample_transaction .Spreading .Intermediate)
          world := sample_world }
      = ({ self := sample_engine
           t_ptr := .transaction (sample_transaction .Spreading .Intermediate)
           world := sample_world }, some Violation.operation_should_be_Interpolation) :=
  ⟨(rejected_intermediate_call_has_no_effect sample_collaborators .compute_projection_rhs
      { self := sample_engine
        t_ptr := .transaction (sample_transaction .Interpolation .Start)
        world := sample_world }).1 _ rfl,
    (rejected_intermediate_call_has_no_effect sample_collaborators .compute_projection_rhs
      { self := sample_engine
        t_ptr := .transaction (sample_transaction .Spreading .Intermediate)
        world := sample_world }).1 _ rfl⟩

/-! ## The values of the spring and damping forces -/

theorem spring_dof_values_eq (spring_constant : Rat) (reference_position position : List Rat) :
    ∀ dofs : List Nat,
      (∀ d ∈ dofs, d < reference_position.length ∧ d < position.length) →
      spring_dof_values spring_constant reference_position position dofs
        = some (dofs.map fun d =>
            spring_constant * (reference_position.getD d 0 - position.getD d 0)) := by
  intro dofs
  induction dofs with
  | nil => intro _; rfl
  | cons d dofs ih =>
    intro h
    obtain ⟨h1, h2⟩ := h d (by simp)
    have hrest := ih (fun j hj => h j (by simp [hj]))
    simp [spring_dof_values, hrest, List.getElem?_eq_getElem h1, List.getElem?_eq_getElem h2,
      List.getD_eq_getElem?_getD]

theorem Tensor1.dot_self_nonneg : ∀ v : Tensor1, 0 ≤ Tensor1.dot v v := by
  intro v
  induction v with
  | nil => simp [Tensor1.dot]
  | cons x xs ih =>
    simp only [Tensor1.dot]
    have := mul_self_nonneg x
    linarith

theorem Tensor1.dot_scaled_self (d : Rat) : ∀ v : Tensor1,
    Tensor1.dot (v.map fun x => -d * x) v = -d * Tensor1.dot v v := by
  intro v
  induction v with
  | nil => simp [Tensor1.dot]
  | cons x xs ih =>
    simp only [List.map_cons, Tensor1.dot, ih]
    ring

/-- C26: for a `SpringForce` whose current position has been set by
`setup_force`, on a cell that passes the id filter (the id list is empty, as
after the constructors without ids, or it is sorted, as after the
constructors with ids, and contains the material id of the cell), and when
the sizes agree and the DoFs of the cell lie in both position vectors:
`compute_volume_force` returns, and the entry of `forces` at each quadrature
point is the finite element evaluation, at that point, of the local values
`spring_constant * (reference_position[d] - current_position[d])` over the
DoFs `d` of the cell.  When the two positions agree on the DoFs of the cell
the local values are zero for every spring constant, and the forces are zero
as the finite element evaluation of zero values is zero.  The arithmetic is
exact. -/
theorem spring_force_is_interpolation_of_dof_values (self : SpringForce)
    (position : List Rat) (m_values : MechanicsValues) (cell : CellAccessor)
    (forces : List Tensor1) (dof_values : List Rat)
    (h_filter : self.material_ids = [] ∨
      (self.material_ids.Pairwise (· ≤ ·) ∧ cell.material_id ∈ self.material_ids))
    (h_dofs : (self.get_dof_indices cell.level cell.index).length = m_values.dofs_per_cell)
    (h_range : ∀ d ∈ self.get_dof_indices cell.level cell.index,
      d < self.reference_position.length ∧ d < position.length)
    (h_values : dof_values = (self.get_dof_indices cell.level cell.index).map fun d =>
      self.spring_constant * (self.reference_position.getD d 0 - position.getD d 0))
    (h_points : (m_values.get_function_values_from_local_dof_values dof_values).length
      = m_values.n_quadrature_points)
    (h_forces : m_values.n_quadrature_points ≤ forces.length) :
    (self.setup_force position).compute_volume_force m_values cell forces
      = some (m_values.get_function_values_from_local_dof_values dof_values ++
          forces.drop m_values.n_quadrature_points) ∧
    (∀ q, q < m_values.n_quadrature_points →
      (m_values.get_function_values_from_local_dof_values dof_values ++
          forces.drop m_values.n_quadrature_points)[q]?
        = (m_values.get_function_values_from_local_dof_values dof_values)[q]?) ∧
    ((∀ d ∈ self.get_dof_indices cell.level cell.index,
        self.reference_position.getD d 0 = position.getD d 0) →
      dof_values = List.replicate (self.get_dof_indices cell.level cell.index).length 0 ∧
      ((∀ force ∈ m_values.get_function_values_from_local_dof_values
            (List.replicate (self.get_dof_indices cell.level cell.index).length 0),
          ∀ x ∈ force, x = 0) →
        ∀ q force, q < m_values.n_quadrature_points →
          (m_values.get_function_values_from_local_dof_values dof_values ++
            forces.drop m_values.n_quadrature_points)[q]? = some force →
          ∀ x ∈ force, x = 0)) ∧
    (∀ base : SpringForceBase, (SpringForce.new base).material_ids = []) ∧
    (∀ (base : SpringForceBase) (ids : List Nat),
      (SpringForce.new_with_ids base ids).material_ids.Pairwise (· ≤ ·)) := by
  have hfilter : ¬ ((self.setup_force position).material_ids.length > 0 ∧
      binary_search (self.setup_force position).material_ids cell.material_id = false) := by
    rintro ⟨hlen, hb⟩
    rcases h_filter with h | ⟨hs, hmem⟩
    · simp [SpringForce.setup_force, h] at hlen
    · have := binary_search_of_mem _ hs _ hmem
      simp only [SpringForce.setup_force] at hb
      rw [this] at hb
      cases hb
  have hget : ∀ q, q < m_values.n_quadrature_points →
      (m_values.get_function_values_from_local_dof_values dof_values ++
          forces.drop m_values.n_quadrature_points)[q]?
        = (m_values.get_function_values_from_local_dof_values dof_values)[q]? := by
    intro q hq
    exact List.getElem?_append_left (by omega)
  refine ⟨?_, hget, ?_, fun _ => rfl, fun _ ids =>
    (unique_pairwise_lt _ (sort_pairwise_le _)).imp (fun hab => Nat.le_of_lt hab)⟩
  · have hsd := spring_dof_values_eq self.spring_constant self.reference_position position
      (self.get_dof_indices cell.level cell.index) h_range
    rw [← h_values] at hsd
    rw [SpringForce.compute_volume_force, if_neg hfilter]
    simp [SpringForceBase.scratch_qp_values, SpringForce.setup_force, h_dofs, hsd, h_points,
      copy_into, h_forces]
  · intro hsame
    have hzero : dof_values
        = List.replicate (self.get_dof_indices cell.level cell.index).length 0 := by
      rw [h_values]
      apply List.eq_replicate_iff.2
      refine ⟨by simp, ?_⟩
      intro b hb
      obtain ⟨d, hd, rfl⟩ := List.mem_map.1 hb
      rw [hsame d hd]
      simp
    refine ⟨hzero, ?_⟩
    intro hfe q force hq hforce
    rw [hget q hq, hzero] at hforce
    exact hfe force (List.getElem?_mem hforce)

/-- C26 at the sample spring force with spring constant 2, reference position
(0, 1) and current position (1, 3), on the sample cell of material 3: the
local values are 2 * (0 - 1) and 2 * (1 - 3), and the first two entries of
`forces` become their evaluation; the third entry is not written. -/
theorem spring_force_is_interpolation_of_dof_values_witness :
    sample_mechanics_values.cell.material_id ∈ sample_spring_force.material_ids ∧
    (sample_spring_force.setup_force [1, 3]).compute_volume_force sample_mechanics_values
        sample_mechanics_values.cell [[7, 7], [7, 7], [7, 7]]
      = some [[-2, -4], [-2, -4], [7, 7]] :=
  ⟨by decide,
    (spring_force_is_interpolation_of_dof_values sample_spring_force [1, 3]
      sample_mechanics_values sample_mechanics_values.cell [[7, 7], [7, 7], [7, 7]] [-2, -4]
      (Or.inr ⟨by decide, by decide⟩) (by decide) (by decide)
      (by norm_num [sample_spring_force, SpringForce.new_with_ids, sample_spring_base])
      (by decide) (by decide)).1⟩

theorem copy_into_eq_some (values forces : List Tensor1) (h : values.length ≤ forces.length) :
    copy_into values forces = some (values ++ forces.drop values.length) := by
  simp [copy_into, h]

/-- C27: when `forces` has room for the velocities, `DampingForce`'s
`compute_volume_force` returns, leaves the number of entries of `forces`
unchanged, and sets the entry at each quadrature point to
`-damping_constant` times the velocity there, whatever the cell; for a
non-negative damping constant the inner product of that entry with the
velocity is at most zero, and the entry is zero where the velocity is zero.
The arithmetic is exact. -/
theorem damping_force_opposes_velocity (self : DampingForce) (m_values : MechanicsValues)
    (cell : CellAccessor) (forces : List Tensor1)
    (h : m_values.velocity_values.length ≤ forces.length) :
    ∃ result, self.compute_volume_force m_values cell forces = some result ∧
      result.length = forces.length ∧
      (∀ other : CellAccessor,
        self.compute_volume_force m_values other forces = some result) ∧
      (∀ (q : Nat) (velocity : Tensor1), m_values.velocity_values[q]? = some velocity →
        result[q]? = some (velocity.map fun x => -self.damping_constant * x) ∧
        (0 ≤ self.damping_constant →
          Tensor1.dot (velocity.map fun x => -self.damping_constant * x) velocity ≤ 0) ∧
        ((∀ x ∈ velocity, x = 0) →
          ∀ y ∈ velocity.map fun x => -self.damping_constant * x, y = 0)) := by
  have hc := copy_into_eq_some m_values.velocity_values forces h
  refine ⟨(m_values.velocity_values ++ forces.drop m_values.velocity_values.length).map
    (fun force => force.map fun x => x * -self.damping_constant), ?_, ?_, ?_, ?_⟩
  · simp only [DampingForce.compute_volume_force, hc]
  · simp
    omega
  · intro other
    simp only [DampingForce.compute_volume_force, hc]
  · intro q velocity hq
    have hlt : q < m_values.velocity_values.length := by
      by_contra hge
      rw [List.getElem?_eq_none (by omega)] at hq
      cases hq
    refine ⟨?_, ?_, ?_⟩
    · rw [List.getElem?_map, List.getElem?_append_left hlt, hq]
      simp only [Option.map_some']
      congr 1
      apply List.map_congr_left
      intro x _
      ring
    · intro hd
      rw [Tensor1.dot_scaled_self]
      have := Tensor1.dot_self_nonneg velocity
      nlinarith
    · intro hzero y hy
      obtain ⟨x, hx, rfl⟩ := List.mem_map.1 hy
      rw [hzero x hx]
      simp

/-- C27 at the damping constant 3 and the sample velocities (1, 0) and (0, 1):
the forces become (-3, 0) and (0, -3) on either of two cells. -/
theorem damping_force_opposes_velocity_witness :
    sample_mechanics_values.velocity_values.length ≤ ([[7, 7], [7, 7]] : List Tensor1).length ∧
    DampingForce.compute_volume_force { damping_constant := 3 } sample_mechanics_values
      { level := 0, index := 0, material_id := 3 } [[7, 7], [7, 7]]
      = some [[-3, 0], [0, -3]] ∧
    ∃ result,
      DampingForce.compute_volume_force { damping_constant := 3 } sample_mechanics_values
        { level := 0, index := 0, material_id := 3 } [[7, 7], [7, 7]] = some result ∧
      result.length = ([[7, 7], [7, 7]] : List Tensor1).length ∧
      (∀ other : CellAccessor,
        DampingForce.compute_volume_force { damping_constant := 3 } sample_mechanics_values
          other [[7, 7], [7, 7]] = some result) ∧
      (∀ (q : Nat) (velocity : Tensor1), sample_mechanics_values.velocity_values[q]? = some velocity →
        result[q]? = some (velocity.map fun x => -(3 : Rat) * x) ∧
        (0 ≤ (3 : Rat) → Tensor1.dot (velocity.map fun x => -(3 : Rat) * x) velocity ≤ 0) ∧
        ((∀ x ∈ velocity, x = 0) → ∀ y ∈ velocity.map fun x => -(3 : Rat) * x, y = 0)) :=
  ⟨by decide,
    by norm_num [DampingForce.compute_volume_force, copy_into, sample_mechanics_values],
    damping_force_opposes_velocity { damping_constant := 3 } sample_mechanics_values
      { level := 0, index := 0, material_id := 3 } [[7, 7], [7, 7]] (by decide)⟩

end fdl
